import Mathlib

/-!
# Instance reconciler of longhorn-manager

A shallow embedding of `controller/instance_handler.go`:
`syncStatusWithInstanceManager`, `ReconcileInstanceState`, `shouldDeleteInstance`,
`createInstance`, `deleteInstance` and their helpers.  The data store, the
instance-manager adapter and the event recorder are external collaborators; they
are represented by records of answer functions, and every adapter call and event
is recorded in an effect trace.
-/

namespace Longhorn

/-! ## Constants of the API package (string-typed enumerations in Go) -/

/-- Modelled from the spec: the `longhorn.InstanceState` constants are declared in the API
package, which is absent from src/; the instance state `Running`. -/
abbrev InstanceStateRunning : String := "running"
/-- Modelled from the spec: instance state `Stopped` (API package absent from src/). -/
abbrev InstanceStateStopped : String := "stopped"
/-- Modelled from the spec: instance state `Error` (API package absent from src/). -/
abbrev InstanceStateError : String := "error"
/-- Modelled from the spec: instance state `Starting` (API package absent from src/). -/
abbrev InstanceStateStarting : String := "starting"
/-- Modelled from the spec: instance state `Stopping` (API package absent from src/). -/
abbrev InstanceStateStopping : String := "stopping"
/-- Modelled from the spec: instance state `Unknown` (API package absent from src/). -/
abbrev InstanceStateUnknown : String := "unknown"

/-- Modelled from the spec: instance-manager state `Starting` (API package absent from src/). -/
abbrev InstanceManagerStateStarting : String := "starting"
/-- Modelled from the spec: instance-manager state `Running` (API package absent from src/). -/
abbrev InstanceManagerStateRunning : String := "running"
/-- Modelled from the spec: instance-manager state `Stopped` (API package absent from src/). -/
abbrev InstanceManagerStateStopped : String := "stopped"
/-- Modelled from the spec: instance-manager state `Error` (API package absent from src/). -/
abbrev InstanceManagerStateError : String := "error"
/-- Modelled from the spec: instance-manager state `Unknown` (API package absent from src/). -/
abbrev InstanceManagerStateUnknown : String := "unknown"

/-- Modelled from the spec: data-engine variant tag `V1` (API package absent from src/). -/
abbrev DataEngineTypeV1 : String := "v1"
/-- Modelled from the spec: data-engine variant tag `V2` (API package absent from src/). -/
abbrev DataEngineTypeV2 : String := "v2"

/-- Modelled from the spec: condition status `True` (API package absent from src/). -/
abbrev ConditionStatusTrue : String := "True"
/-- Modelled from the spec: condition status `False` (API package absent from src/). -/
abbrev ConditionStatusFalse : String := "False"

/-- Modelled from the spec: key of the instance-creation condition (API package absent
from src/). -/
abbrev InstanceConditionTypeInstanceCreation : String := "InstanceCreation"
/-- Modelled from the spec: reason recorded with a failed instance creation (API package
absent from src/). -/
abbrev InstanceConditionReasonInstanceCreationFailure : String := "InstanceCreationFailure"
/-- Modelled from the spec: key of the filesystem-read-only condition (instance-manager
types package, absent from src/). -/
abbrev EngineConditionFilesystemReadOnly : String := "FilesystemReadOnly"

/-- Modelled from the spec: the four event kinds `Start`, `Stop`, `FailedStarting`,
`FailedStopping` (package `constant`, absent from src/). -/
abbrev EventReasonStart : String := "Start"
/-- Modelled from the spec: event kind `Stop`. -/
abbrev EventReasonStop : String := "Stop"
/-- Modelled from the spec: event kind `FailedStarting`. -/
abbrev EventReasonFailedStarting : String := "FailedStarting"
/-- Modelled from the spec: event kind `FailedStopping`. -/
abbrev EventReasonFailedStopping : String := "FailedStopping"

/-! ## Data model -/

/-- One entry of `status.Conditions`: condition key with (status, reason, message). -/
structure Condition where
  Type_ : String
  Status : String
  Reason : String
  Message : String
deriving DecidableEq, Repr

/-- The fields of `longhorn.InstanceSpec` read by the reconciler. -/
structure InstanceSpec where
  VolumeName : String
  NodeID : String
  Image : String
  DataEngine : String
  DesireState : String
  LogRequested : Bool
  SalvageRequested : Bool
deriving DecidableEq, Repr

/-- The fields of `longhorn.InstanceStatus` written by the reconciler.  `Port` is a Go `int`,
`UblkID` an `int32`; no arithmetic is done on them. -/
structure InstanceStatus where
  InstanceManagerName : String
  CurrentState : String
  CurrentImage : String
  IP : String
  StorageIP : String
  Port : Int
  UblkID : Int
  UUID : String
  Started : Bool
  LogFetched : Bool
  SalvageExecuted : Bool
  Conditions : List Condition
deriving DecidableEq, Repr

/-- The zero value of `longhorn.InstanceStatus`. -/
def InstanceStatus.zero : InstanceStatus :=
  { InstanceManagerName := "", CurrentState := "", CurrentImage := "", IP := "",
    StorageIP := "", Port := 0, UblkID := 0, UUID := "", Started := false,
    LogFetched := false, SalvageExecuted := false, Conditions := [] }

structure InstanceProcessSpec where
  DataEngine : String
deriving DecidableEq, Repr

structure InstanceProcessStatus where
  State : String
  PortStart : Int
  UblkID : Int
  UUID : String
  ErrorMsg : String
  Conditions : List (String × Bool)
deriving DecidableEq, Repr

/-- A process descriptor of `longhorn.InstanceProcess` as reported by an instance manager. -/
structure InstanceProcess where
  Spec : InstanceProcessSpec
  Status : InstanceProcessStatus
deriving DecidableEq, Repr

/-- A Go `map[string]longhorn.InstanceProcess`, as an association list read with
`List.lookup`. -/
abbrev InstanceMap := List (String × InstanceProcess)

structure InstanceManagerSpec where
  NodeID : String
deriving DecidableEq, Repr

structure InstanceManagerStatus where
  CurrentState : String
  IP : String
  InstanceEngines : InstanceMap
  InstanceReplicas : InstanceMap
  Instances : InstanceMap
deriving DecidableEq, Repr

/-- The record `longhorn.InstanceManager`; `DeletionTimestamp` is a nullable pointer. -/
structure InstanceManager where
  Name : String
  Namespace : String
  DeletionTimestamp : Option String
  Spec : InstanceManagerSpec
  Status : InstanceManagerStatus
deriving DecidableEq, Repr

/-- The instance-manager pod as far as the reconciler is concerned: an opaque record handed
back to the data store to read its storage-network address. -/
structure Pod where
  Name : String
  PodIP : String
deriving DecidableEq, Repr

/-- An error value returned by a collaborator, with the answers of the three discriminating
predicates `types.ErrorIsNotFound`, `types.ErrorIsStopped`, `types.ErrorAlreadyExists`. -/
structure Error where
  msg : String
  isNotFound : Bool
  isStopped : Bool
  alreadyExists : Bool
deriving DecidableEq, Repr

/-- The dynamic type of the reconciled object, as switched on by
`getInstancesFromInstanceManager`. -/
inductive ObjKind where
  | engine
  | replica
  | other
deriving DecidableEq, Repr

/-- The `obj interface{}` argument: whether it is a `runtime.Object`, what `meta.Accessor`
followed by `GetName` gives, and its dynamic type. -/
structure Obj where
  isRuntimeObject : Bool
  accessor : Except Error String
  kind : ObjKind

/-- The answer of `ds.GetInstanceManagerRO`: the manager, a not-found error, or another
error. -/
inductive ManagerLookup where
  | found (im : InstanceManager)
  | notFound
  | failed (e : Error)

/-- The data-store interface required by the reconciler (package `datastore` is an external
collaborator, absent from src/). -/
structure DataStore where
  GetInstanceManagerRO : String → ManagerLookup
  GetInstanceManagerByInstanceRO : Obj → Except Error (Option InstanceManager)
  IsNodeDelinquent : String → String → Bool
  IsNodeDownOrDeletedOrDelinquent : String → String → Except Error Bool
  IsDataEngineEnabled : String → Except Error Bool
  GetPodRO : String → String → Except Error (Option Pod)
  GetStorageIPFromPod : Pod → String

/-- The `InstanceManagerHandler` interface: each operation answers `none` on success and
`some err` on failure (the returned process descriptor is discarded by every caller). -/
structure InstanceManagerHandler where
  GetInstance : Obj → Option Error
  CreateInstance : Obj → Option Error
  DeleteInstance : Obj → Option Error

/-- The receiver `InstanceHandler`.  `ConsolidateInstances` (package `types`, absent from
src/) is taken as a parameter. -/
structure InstanceHandler where
  ds : DataStore
  instanceManagerHandler : InstanceManagerHandler
  ConsolidateInstances : InstanceMap → InstanceMap → InstanceMap

/-- An observable call on a collaborator made during a reconcile. -/
inductive Effect where
  | getInstance
  | createInstance
  | deleteInstance
  | logInstance
  | event (reason : String)
deriving DecidableEq, Repr

/-- The errors `ReconcileInstanceState` can return, one constructor per `return err`
statement of the source. `nilManager` stands for the run-time panic of reading
`im.Spec.NodeID` through a nil manager. -/
inductive ReconcileError where
  | notRuntimeObject
  | accessor (e : Error)
  | dataStore (e : Error)
  | getInstanceManager (e : Error)
  | unknownObjectType
  | getInstance (e : Error)
  | createInstance (e : Error)
  | deleteInstance (e : Error)
  | unknownDesireState
  | nodeMismatch
  | nilManager
deriving DecidableEq, Repr

/-! ## Helpers of package `types` -/

/-- Modelled from the spec: `types.IsDataEngineV1` is absent from src/; the log policy applies
when `DataEngine == V1`. -/
def IsDataEngineV1 (dataEngine : String) : Bool := decide (dataEngine = DataEngineTypeV1)

/-- Modelled from the spec: `types.IsDataEngineV2` is absent from src/; the variant tag is
`V2`. -/
def IsDataEngineV2 (dataEngine : String) : Bool := decide (dataEngine = DataEngineTypeV2)

/-- Modelled from the spec: `types.SetCondition` is absent from src/; `Conditions` is a
mapping from condition key to (status, reason, message), a monotonic set updated in place:
an existing key keeps its position and takes the new value, a new key is added. -/
def SetCondition (conditions : List Condition) (conditionType conditionValue reason message : String) :
    List Condition :=
  match conditions with
  | [] => [{ Type_ := conditionType, Status := conditionValue, Reason := reason, Message := message }]
  | c :: rest =>
    if c.Type_ = conditionType then
      { Type_ := conditionType, Status := conditionValue, Reason := reason, Message := message } :: rest
    else c :: SetCondition rest conditionType conditionValue reason message

/-- The condition stored under a key, if any. -/
def GetCondition (conditions : List Condition) (conditionType : String) : Option Condition :=
  conditions.find? (fun c => decide (c.Type_ = conditionType))

/-! ## `controller/instance_handler.go` -/

/-- Source lines 252-260: every process condition is copied into the status conditions. -/
def syncInstanceCondition (inst : InstanceProcess) (status : InstanceStatus) : InstanceStatus :=
  { status with
    Conditions := inst.Status.Conditions.foldl
      (fun conds cf =>
        SetCondition conds cf.1 (if cf.2 then ConditionStatusTrue else ConditionStatusFalse) "" "")
      status.Conditions }

/-- Source lines 262-265: reset the filesystem-read-only condition to false. -/
def resetInstanceErrorCondition (status : InstanceStatus) : InstanceStatus :=
  { status with
    Conditions := SetCondition status.Conditions EngineConditionFilesystemReadOnly
      ConditionStatusFalse "" "" }

/-- Source lines 53-57: the deferred function of `syncStatusWithInstanceManager`. -/
def syncDeferred (status : InstanceStatus) : InstanceStatus :=
  if status.CurrentState = InstanceStateStopped then
    { status with InstanceManagerName := "" }
  else status

/-- Source lines 152-249: the switch on the state of the process found in the snapshot.
Each `if` of the source that guards a single assignment is the conditional value of the
assigned field. -/
def syncProcessState (h : InstanceHandler) (im : InstanceManager) (spec : InstanceSpec)
    (status : InstanceStatus) (inst : InstanceProcess) : InstanceStatus :=
  if inst.Status.State = InstanceStateStarting then
    resetInstanceErrorCondition
      { status with CurrentState := InstanceStateStarting, CurrentImage := "", IP := "",
                    StorageIP := "", Port := 0, UblkID := 0, UUID := "" }
  else if inst.Status.State = InstanceStateRunning then
    match h.ds.GetPodRO im.Namespace im.Name with
    | .error _ => { status with CurrentState := InstanceStateRunning }
    | .ok none => { status with CurrentState := InstanceStateRunning }
    | .ok (some imPod) =>
      syncInstanceCondition inst
        { status with
          CurrentState := InstanceStateRunning
          StorageIP :=
            if status.StorageIP ≠ h.ds.GetStorageIPFromPod imPod then h.ds.GetStorageIPFromPod imPod
            else status.StorageIP
          IP := if status.IP ≠ im.Status.IP then im.Status.IP else status.IP
          Port := if status.Port ≠ inst.Status.PortStart then inst.Status.PortStart else status.Port
          UblkID := if status.UblkID ≠ inst.Status.UblkID then inst.Status.UblkID else status.UblkID
          CurrentImage := if status.CurrentImage = "" then spec.Image else status.CurrentImage
          UUID := if status.UUID ≠ inst.Status.UUID then inst.Status.UUID else status.UUID }
  else if inst.Status.State = InstanceStateStopping then
    resetInstanceErrorCondition
      { status with
        CurrentState := if status.Started then InstanceStateError else InstanceStateStopping
        CurrentImage := "", IP := "", StorageIP := "", Port := 0, UblkID := 0, UUID := "" }
  else if inst.Status.State = InstanceStateStopped then
    resetInstanceErrorCondition
      { status with
        CurrentState := if status.Started then InstanceStateError else InstanceStateStopped
        CurrentImage := "", IP := "", StorageIP := "", Port := 0, UblkID := 0, UUID := "" }
  else
    resetInstanceErrorCondition
      { status with CurrentState := InstanceStateError, CurrentImage := "", IP := "",
                    StorageIP := "", Port := 0, UblkID := 0, UUID := "" }

/-- Source lines 64-81: the manager is nil, or in state unknown, or its node is delinquent. -/
def syncManagerGone (status : InstanceStatus) : InstanceStatus :=
  resetInstanceErrorCondition
    { status with
      CurrentState := if status.Started then InstanceStateUnknown else InstanceStateStopped
      CurrentImage := if status.Started then status.CurrentImage else ""
      IP := "", StorageIP := "", Port := 0, UblkID := 0, UUID := "" }

/-- Source lines 86-101 and 123-138: the manager is stopped, failed or being deleted, or the
process is not in the snapshot. -/
def syncProcessGone (status : InstanceStatus) : InstanceStatus :=
  resetInstanceErrorCondition
    { status with
      CurrentState := if status.Started then InstanceStateError else InstanceStateStopped
      CurrentImage := "", IP := "", StorageIP := "", Port := 0, UblkID := 0, UUID := "" }

/-- Source lines 59-250: the body of `syncStatusWithInstanceManager` before its deferred
function runs.  A nil manager is `none`. -/
def syncStatusBody (h : InstanceHandler) (im : Option InstanceManager) (instanceName : String)
    (spec : InstanceSpec) (status : InstanceStatus) (instances : InstanceMap) : InstanceStatus :=
  match im with
  | none => syncManagerGone status
  | some m =>
    if m.Status.CurrentState = InstanceManagerStateUnknown ∨
        h.ds.IsNodeDelinquent m.Spec.NodeID spec.VolumeName = true then
      syncManagerGone status
    else if m.Status.CurrentState = InstanceManagerStateStopped ∨
        m.Status.CurrentState = InstanceManagerStateError ∨ m.DeletionTimestamp ≠ none then
      syncProcessGone status
    else if m.Status.CurrentState = InstanceManagerStateStarting then
      if status.Started then
        resetInstanceErrorCondition
          { status with CurrentState := InstanceStateError, CurrentImage := "", IP := "",
                        StorageIP := "", Port := 0, UblkID := 0, UUID := "" }
      else status
    else
      match instances.lookup instanceName with
      | none => syncProcessGone status
      | some inst =>
        syncProcessState h m spec { status with InstanceManagerName := m.Name } inst

/-- Source lines 52-250: `syncStatusWithInstanceManager`; the status is passed in and the
mutated status is returned. -/
def syncStatusWithInstanceManager (h : InstanceHandler) (im : Option InstanceManager)
    (instanceName : String) (spec : InstanceSpec) (status : InstanceStatus)
    (instances : InstanceMap) : InstanceStatus :=
  syncDeferred (syncStatusBody h im instanceName spec status instances)

/-- Source lines 267-275: `getNameFromObj`. -/
def getNameFromObj (obj : Obj) : Except Error String := obj.accessor

/-- Source lines 448-457: `shouldDeleteInstance`. -/
def shouldDeleteInstance (inst : InstanceProcess) : Bool :=
  if IsDataEngineV2 inst.Spec.DataEngine = true then
    if inst.Status.State = InstanceStateStopped then false else true
  else true

/-- Source lines 459-467: `getInstancesFromInstanceManager`. -/
def getInstancesFromInstanceManager (h : InstanceHandler) (obj : Obj)
    (instanceManager : InstanceManager) : Except ReconcileError InstanceMap :=
  match obj.kind with
  | .engine =>
    .ok (h.ConsolidateInstances instanceManager.Status.InstanceEngines instanceManager.Status.Instances)
  | .replica =>
    .ok (h.ConsolidateInstances instanceManager.Status.InstanceReplicas instanceManager.Status.Instances)
  | .other => .error .unknownObjectType

/-- Source lines 469-492: `printInstanceLogs`; its result is only logged by the callers, so
the model records the `LogInstance` call alone. -/
def printInstanceLogs : List Effect := [Effect.logInstance]

/-- Source lines 494-516: `createInstance`, with the trace of adapter calls and events. -/
def createInstance (h : InstanceHandler) (dataEngine : String) (obj : Obj) :
    Option ReconcileError × List Effect :=
  match h.instanceManagerHandler.GetInstance obj with
  | none => (none, [Effect.getInstance])
  | some err =>
    let isStoppedV2Engine := IsDataEngineV2 dataEngine && err.isStopped
    if (!err.isNotFound && !isStoppedV2Engine) = true then
      (some (.getInstance err), [Effect.getInstance])
    else
      match h.instanceManagerHandler.CreateInstance obj with
      | some cerr =>
        if (!cerr.alreadyExists) = true then
          (some (.createInstance cerr),
            [Effect.getInstance, Effect.createInstance, Effect.event EventReasonFailedStarting])
        else (none, [Effect.getInstance, Effect.createInstance])
      | none =>
        (none, [Effect.getInstance, Effect.createInstance, Effect.event EventReasonStart])

/-- Source lines 518-528: `deleteInstance`, with the trace of adapter calls and events. -/
def deleteInstance (h : InstanceHandler) (obj : Obj) : Option ReconcileError × List Effect :=
  match h.instanceManagerHandler.DeleteInstance obj with
  | some err =>
    (some (.deleteInstance err), [Effect.deleteInstance, Effect.event EventReasonFailedStopping])
  | none => (none, [Effect.deleteInstance, Effect.event EventReasonStop])

/-- The ways `ReconcileInstanceState` leaves its manager-resolution block (source lines
296-325): an early `return` with or without an error, or falling through with the manager
(a nil manager is `none`). -/
inductive Resolved where
  | stop (err : Option ReconcileError)
  | manager (im : Option InstanceManager)

/-- Source lines 296-325: resolve the governing instance manager. -/
def resolveInstanceManager (h : InstanceHandler) (obj : Obj) (spec : InstanceSpec)
    (status : InstanceStatus) : Resolved :=
  let byName : Except ReconcileError (Option InstanceManager) :=
    if status.InstanceManagerName ≠ "" then
      match h.ds.GetInstanceManagerRO status.InstanceManagerName with
      | .found im => .ok (some im)
      | .notFound => .ok none
      | .failed e => .error (.dataStore e)
    else .ok none
  match byName with
  | .error e => .stop (some e)
  | .ok im =>
    if im = none ∧ spec.Image ≠ "" ∧ spec.NodeID ≠ "" then
      match h.ds.IsDataEngineEnabled spec.DataEngine with
      | .error e => .stop (some (.dataStore e))
      | .ok false => .stop none
      | .ok true =>
        match h.ds.IsNodeDownOrDeletedOrDelinquent spec.NodeID spec.VolumeName with
        | .error e => .stop (some (.dataStore e))
        | .ok true => .manager im
        | .ok false =>
          match h.ds.GetInstanceManagerByInstanceRO obj with
          | .error e => .stop (some (.getInstanceManager e))
          | .ok found => .manager found
    else .manager im

/-- Source lines 330-353: the one-shot intents (log request, salvage latch) and the preload
of the instance-creation condition. -/
def applyIntents (im : Option InstanceManager) (spec : InstanceSpec) (status : InstanceStatus) :
    InstanceStatus × List Effect :=
  let logged : InstanceStatus × List Effect :=
    if spec.LogRequested then
      if (!status.LogFetched) = true then
        let effects : List Effect :=
          if IsDataEngineV1 spec.DataEngine = true then
            match im with
            | none => []
            | some _ => printInstanceLogs
          else []
        ({ status with LogFetched := true }, effects)
      else (status, [])
    else ({ status with LogFetched := false }, [])
  let status := logged.1
  let status :=
    if (status.SalvageExecuted && !spec.SalvageRequested) = true then
      { status with SalvageExecuted := false }
    else status
  let status :=
    { status with
      Conditions := SetCondition status.Conditions InstanceConditionTypeInstanceCreation
        ConditionStatusTrue "" "" }
  (status, logged.2)

/-- Source lines 355-361: the process snapshot, empty when there is no manager. -/
def snapshotInstances (h : InstanceHandler) (obj : Obj) (im : Option InstanceManager) :
    Except ReconcileError InstanceMap :=
  match im with
  | none => .ok []
  | some m => getInstancesFromInstanceManager h obj m

/-- Source lines 391-401: the guarded call of `deleteInstance` in the `Stopped` arm of the
switch on `spec.DesireState`. -/
def deleteIfPresent (h : InstanceHandler) (obj : Obj) (im : Option InstanceManager)
    (instanceName : String) (instances : InstanceMap) : Option ReconcileError × List Effect :=
  match im with
  | none => (none, [])
  | some m =>
    if m.DeletionTimestamp = none then
      match instances.lookup instanceName with
      | some inst =>
        if shouldDeleteInstance inst = true then deleteInstance h obj else (none, [])
      | none => (none, [])
    else (none, [])

/-- Source line 369: the instance is a key of the snapshot and its process state is
`Running`. -/
def processRunning (instances : InstanceMap) (instanceName : String) : Bool :=
  match instances.lookup instanceName with
  | some i => decide (i.Status.State = InstanceStateRunning)
  | none => false

/-- Source lines 363-405: the switch on `spec.DesireState`.  The result is the status, the
error returned from inside the switch if any, and the trace of adapter calls. -/
def actOnDesireState (h : InstanceHandler) (obj : Obj) (im : Option InstanceManager)
    (instanceName : String) (spec : InstanceSpec) (status : InstanceStatus)
    (instances : InstanceMap) : InstanceStatus × Option ReconcileError × List Effect :=
  if spec.DesireState = InstanceStateRunning then
    match im with
    | none => (status, none, [])
    | some _ =>
      if processRunning instances instanceName = true then
        ({ status with Started := true }, none, [])
      else if status.CurrentState ≠ InstanceStateStopped then (status, none, [])
      else
        match createInstance h spec.DataEngine obj with
        | (some err, effects) => (status, some err, effects)
        | (none, effects) =>
          if spec.SalvageRequested then ({ status with SalvageExecuted := true }, none, effects)
          else (status, none, effects)
  else if spec.DesireState = InstanceStateStopped then
    match deleteIfPresent h obj im instanceName instances with
    | (some err, effects) => (status, some err, effects)
    | (none, effects) => ({ status with Started := false }, none, effects)
  else (status, some .unknownDesireState, [])

/-- Source lines 409-445: the adjustments after the status synthesis. -/
def postStateAdjust (im : Option InstanceManager) (instanceName : String) (spec : InstanceSpec)
    (status : InstanceStatus) (instances : InstanceMap) :
    InstanceStatus × Option ReconcileError × List Effect :=
  if status.CurrentState = InstanceStateRunning then
    if spec.DesireState ≠ InstanceStateStopped then
      match im with
      | none => (status, some .nilManager, [])
      | some m =>
        if spec.NodeID ≠ m.Spec.NodeID then
          ({ status with CurrentState := InstanceStateError, IP := "", StorageIP := "" },
            some .nodeMismatch, [])
        else (status, none, [])
    else (status, none, [])
  else if status.CurrentState = InstanceStateError then
    match im with
    | none => (status, none, [])
    | some _ =>
      match instances.lookup instanceName with
      | some inst =>
        let status :=
          if spec.DesireState = InstanceStateRunning then
            { status with
              Conditions := SetCondition status.Conditions InstanceConditionTypeInstanceCreation
                ConditionStatusFalse InstanceConditionReasonInstanceCreationFailure
                inst.Status.ErrorMsg }
          else status
        let effects : List Effect :=
          if IsDataEngineV1 inst.Spec.DataEngine = true then printInstanceLogs else []
        (status, none, effects)
      | none => (status, none, [])
  else (status, none, [])

/-- What a call of `ReconcileInstanceState` leaves behind: the status as mutated in place,
the returned error (`none` is `nil`) and the adapter calls and events in call order. -/
structure Outcome where
  status : InstanceStatus
  err : Option ReconcileError
  effects : List Effect
deriving DecidableEq, Repr

/-- Source lines 277-446: `ReconcileInstanceState`. -/
def ReconcileInstanceState (h : InstanceHandler) (obj : Obj) (spec : InstanceSpec)
    (status : InstanceStatus) : Outcome :=
  if obj.isRuntimeObject = false then
    { status := status, err := some .notRuntimeObject, effects := [] }
  else
    match getNameFromObj obj with
    | .error e => { status := status, err := some (.accessor e), effects := [] }
    | .ok instanceName =>
      match resolveInstanceManager h obj spec status with
      | .stop err => { status := status, err := err, effects := [] }
      | .manager im =>
        let intents := applyIntents im spec status
        match snapshotInstances h obj im with
        | .error e => { status := intents.1, err := some e, effects := intents.2 }
        | .ok instances =>
          match actOnDesireState h obj im instanceName spec intents.1 instances with
          | (status, some e, effects) =>
            { status := status, err := some e, effects := intents.2 ++ effects }
          | (status, none, effects) =>
            let synced := syncStatusWithInstanceManager h im instanceName spec status instances
            let adjusted := postStateAdjust im instanceName spec synced instances
            { status := adjusted.1, err := adjusted.2.1,
              effects := intents.2 ++ effects ++ adjusted.2.2 }

/-! ## Vocabulary of the statements -/

/-- The reconcile passes source lines 277-361 without returning (phases A to C): the object
is a `runtime.Object` named `instanceName`, the manager resolution falls through with `im`
(`none` when no manager was resolved) and the process snapshot is `instances`. -/
def ReachesPhaseD (h : InstanceHandler) (obj : Obj) (spec : InstanceSpec) (status : InstanceStatus)
    (instanceName : String) (im : Option InstanceManager) (instances : InstanceMap) : Prop :=
  obj.isRuntimeObject = true ∧ getNameFromObj obj = .ok instanceName ∧
    resolveInstanceManager h obj spec status = .manager im ∧
    snapshotInstances h obj im = .ok instances

/-- The status with which a reconcile that reaches phase D enters the status synthesis
(source line 407), when the switch on `DesireState` did not return. -/
def statusBeforeSync (h : InstanceHandler) (obj : Obj) (spec : InstanceSpec)
    (status : InstanceStatus) (instanceName : String) (im : Option InstanceManager)
    (instances : InstanceMap) : InstanceStatus :=
  (actOnDesireState h obj im instanceName spec (applyIntents im spec status).1 instances).1

/-- The reconcile runs the status synthesis: it reaches phase D and the switch on
`DesireState` returns no error. -/
def RunsSynthesis (h : InstanceHandler) (obj : Obj) (spec : InstanceSpec) (status : InstanceStatus)
    (instanceName : String) (im : Option InstanceManager) (instances : InstanceMap) : Prop :=
  ReachesPhaseD h obj spec status instanceName im instances ∧
    (actOnDesireState h obj im instanceName spec (applyIntents im spec status).1 instances).2.1 = none

/-- The stopped-state property of a status: when `CurrentState` is `Stopped` the manager name
is empty and the runtime fields are zero. -/
def StoppedCleared (status : InstanceStatus) : Prop :=
  status.CurrentState = InstanceStateStopped →
    status.InstanceManagerName = "" ∧ status.IP = "" ∧ status.StorageIP = "" ∧
      status.Port = 0 ∧ status.UblkID = 0 ∧ status.UUID = ""

/-! ## Concrete scenarios -/

/-- A data store that knows the single manager `m`: the lookup by name finds it under its own
name, the lookup by instance returns it, every node is healthy, every data engine is enabled,
and `GetPodRO` answers `pod`. -/
def storeOf (m : InstanceManager) (pod : Except Error (Option Pod)) : DataStore :=
  { GetInstanceManagerRO := fun name => if name = m.Name then .found m else .notFound
    GetInstanceManagerByInstanceRO := fun _ => .ok (some m)
    IsNodeDelinquent := fun _ _ => false
    IsNodeDownOrDeletedOrDelinquent := fun _ _ => .ok false
    IsDataEngineEnabled := fun _ => .ok true
    GetPodRO := fun _ _ => pod
    GetStorageIPFromPod := fun p => p.PodIP }

/-- An adapter whose `GetInstance` answers `get` and whose `CreateInstance` and
`DeleteInstance` succeed. -/
def adapterOf (get : Option Error) : InstanceManagerHandler :=
  { GetInstance := fun _ => get
    CreateInstance := fun _ => none
    DeleteInstance := fun _ => none }

/-- The handler over `storeOf m pod` and `adapterOf get`; the legacy map takes precedence in
the consolidated snapshot. -/
def handlerOf (m : InstanceManager) (pod : Except Error (Option Pod)) (get : Option Error) :
    InstanceHandler :=
  { ds := storeOf m pod
    instanceManagerHandler := adapterOf get
    ConsolidateInstances := fun typed legacy => legacy ++ typed }

/-- Manager `m1` on node `n1` with address `10.0.0.5`, in the given state and hosting the
given engine processes. -/
def managerOf (state : String) (engines : InstanceMap) : InstanceManager :=
  { Name := "m1", Namespace := "longhorn-system", DeletionTimestamp := none
    Spec := { NodeID := "n1" }
    Status := { CurrentState := state, IP := "10.0.0.5", InstanceEngines := engines,
                InstanceReplicas := [], Instances := [] } }

/-- A process of the given data engine in the given state, with `PortStart = 10001` and
`UUID = u1`. -/
def processOf (dataEngine state : String) : InstanceProcess :=
  { Spec := { DataEngine := dataEngine }
    Status := { State := state, PortStart := 10001, UblkID := 0, UUID := "u1", ErrorMsg := "",
                Conditions := [] } }

/-- The engine object named `e1`. -/
def engineObj : Obj := { isRuntimeObject := true, accessor := .ok "e1", kind := .engine }

/-- A spec for volume `v1` with no log request. -/
def specOf (nodeID image dataEngine desireState : String) (salvageRequested : Bool) :
    InstanceSpec :=
  { VolumeName := "v1", NodeID := nodeID, Image := image, DataEngine := dataEngine,
    DesireState := desireState, LogRequested := false, SalvageRequested := salvageRequested }

/-- The error with which the adapter reports that no process is present. -/
def notFoundError : Error :=
  { msg := "cannot find", isNotFound := true, isStopped := false, alreadyExists := false }

/-- The pod of manager `m1`. -/
def managerPod : Pod := { Name := "m1", PodIP := "10.0.0.5" }

/-- A status that is `Stopped` yet still carries an address and a manager name. -/
def staleStoppedStatus : InstanceStatus :=
  { InstanceStatus.zero with
    InstanceManagerName := "m1", CurrentState := InstanceStateStopped, IP := "10.0.0.9" }

/-- The status of scenario S3: started, attached to manager `m1`, running image `img`. -/
def startedStatus : InstanceStatus :=
  { InstanceStatus.zero with
    InstanceManagerName := "m1", CurrentState := InstanceStateRunning, CurrentImage := "img",
    IP := "10.0.0.5", Port := 10001, Started := true }

/-- A fresh status that already names manager `m1`. -/
def namedStatus : InstanceStatus := { InstanceStatus.zero with InstanceManagerName := "m1" }

/-- The status of scenario S4: running image `v1` on manager `m1`. -/
def upgradingStatus : InstanceStatus :=
  { InstanceStatus.zero with
    InstanceManagerName := "m1", CurrentState := InstanceStateRunning, CurrentImage := "v1",
    IP := "10.0.0.5", StorageIP := "10.0.0.5", Port := 10001, UUID := "u1", Started := true }

/-- The V1 process of scenario S2: running, `PortStart = 10001`, `UUID = u1`. -/
def runningProcess : InstanceProcess := processOf DataEngineTypeV1 InstanceStateRunning

/-- The snapshot of scenario S2: process `e1` running. -/
def runningSnapshot : InstanceMap := [("e1", runningProcess)]

/-- The manager of scenario S2: `m1`, running on `n1`, hosting the running process `e1`. -/
def runningManager : InstanceManager := managerOf InstanceManagerStateRunning runningSnapshot

/-- The handler of scenario S2, with the manager pod in the data store. -/
def runningHandler : InstanceHandler := handlerOf runningManager (.ok (some managerPod)) none

/-- The handler of scenario S2 when the manager pod is not in the data store. -/
def podlessHandler : InstanceHandler := handlerOf runningManager (.ok none) none

/-- The spec of scenarios S1 and S2: node `n1`, image `img`, V1 engine, desire `Running`. -/
def runningSpec : InstanceSpec := specOf "n1" "img" DataEngineTypeV1 InstanceStateRunning false

/-! ## Vocabulary of the idempotence proof -/

/-- A sequence of `SetCondition` calls, each call written as the condition it stores. -/
def SetConditions (ops : List Condition) (conditions : List Condition) : List Condition :=
  ops.foldl (fun acc o => SetCondition acc o.Type_ o.Status o.Reason o.Message) conditions

/-- The condition left at the head position of a list by a sequence of `SetCondition`
calls, given the condition that was there before. -/
def headAfter (ops : List Condition) (c : Condition) : Condition :=
  ops.foldl (fun acc o => if acc.Type_ = o.Type_ then o else acc) c

/-- What the status synthesis followed by the post-state adjustment does to a status, field
by field: the new value of each runtime field as a function of its old value, the assigned
state, and the `SetCondition` calls made. -/
structure FieldPlan where
  name : String → String
  state : String
  image : String → String
  ip : String → String
  storageIP : String → String
  port : Int → Int
  ublkID : Int → Int
  uuid : String → String
  ops : List Condition

/-- The status a plan produces; `Started` and the latches are left alone. -/
def FieldPlan.apply (p : FieldPlan) (status : InstanceStatus) : InstanceStatus :=
  { status with
    InstanceManagerName := p.name status.InstanceManagerName
    CurrentState := p.state
    CurrentImage := p.image status.CurrentImage
    IP := p.ip status.IP
    StorageIP := p.storageIP status.StorageIP
    Port := p.port status.Port
    UblkID := p.ublkID status.UblkID
    UUID := p.uuid status.UUID
    Conditions := SetConditions p.ops status.Conditions }

/-- Every field function of the plan is idempotent. -/
def FieldPlan.Idem (p : FieldPlan) : Prop :=
  (∀ v, p.name (p.name v) = p.name v) ∧ (∀ v, p.image (p.image v) = p.image v) ∧
    (∀ v, p.ip (p.ip v) = p.ip v) ∧ (∀ v, p.storageIP (p.storageIP v) = p.storageIP v) ∧
    (∀ v, p.port (p.port v) = p.port v) ∧ (∀ v, p.ublkID (p.ublkID v) = p.ublkID v) ∧
    (∀ v, p.uuid (p.uuid v) = p.uuid v)

/-- The status left by the one-shot intents (source lines 330-353): `LogFetched` mirrors
the request, `SalvageExecuted` survives only while salvage is requested, and the
instance-creation condition is preloaded to `True`. -/
def latchIntents (spec : InstanceSpec) (status : InstanceStatus) : InstanceStatus :=
  { status with
    LogFetched := spec.LogRequested
    SalvageExecuted := status.SalvageExecuted && spec.SalvageRequested
    Conditions := SetCondition status.Conditions InstanceConditionTypeInstanceCreation
      ConditionStatusTrue "" "" }

/-- The update the switch on `DesireState` makes to the status: `Started` is assigned
`started` when that is given, and `SalvageExecuted` is set when `salvaged` holds. -/
def settleDesire (started : Option Bool) (salvaged : Bool) (status : InstanceStatus) :
    InstanceStatus :=
  { status with
    Started := started.getD status.Started
    SalvageExecuted := salvaged || status.SalvageExecuted }

/-! ## Scenarios of the creation and deletion paths -/

/-- Manager `m1`, running on `n1`, hosting no process. -/
def emptyManager : InstanceManager := managerOf InstanceManagerStateRunning []

/-- The handler of a creation: manager `m1` hosts no process and `GetInstance` reports that
none is present. -/
def creatingHandler : InstanceHandler :=
  handlerOf emptyManager (.ok (some managerPod)) (some notFoundError)

/-- A fresh status whose state is `Stopped`. -/
def stoppedStatus : InstanceStatus :=
  { InstanceStatus.zero with CurrentState := InstanceStateStopped }

/-- The spec of a salvage: node `n1`, image `img`, V1 engine, desire `Running`, salvage
requested. -/
def salvageSpec : InstanceSpec := specOf "n1" "img" DataEngineTypeV1 InstanceStateRunning true

/-- The error of an adapter call that failed for a reason of its own. -/
def adapterError : Error :=
  { msg := "rpc failed", isNotFound := false, isStopped := false, alreadyExists := false }

/-- The handler of scenario S2 with an adapter whose `DeleteInstance` fails. -/
def failingDeleteHandler : InstanceHandler :=
  { runningHandler with
    instanceManagerHandler :=
      { GetInstance := fun _ => none
        CreateInstance := fun _ => none
        DeleteInstance := fun _ => some adapterError } }

/-- The spec of scenario S5: node `n1`, image `img`, V1 engine, desire `Stopped`. -/
def stoppingSpec : InstanceSpec := specOf "n1" "img" DataEngineTypeV1 InstanceStateStopped false

/-- Manager `m1` still starting, with the process `e1` already in its snapshot. -/
def startingManager : InstanceManager := managerOf InstanceManagerStateStarting runningSnapshot

/-! ## Scenarios of the conditions -/

/-- A running V1 process that reports a read-only filesystem. -/
def readOnlyProcess : InstanceProcess :=
  { Spec := { DataEngine := DataEngineTypeV1 }
    Status := { State := InstanceStateRunning, PortStart := 10001, UblkID := 0, UUID := "u1",
                ErrorMsg := "", Conditions := [(EngineConditionFilesystemReadOnly, true)] } }

/-- Manager `m1`, running on `n1`, hosting the read-only process `e1`. -/
def readOnlyManager : InstanceManager :=
  managerOf InstanceManagerStateRunning [("e1", readOnlyProcess)]

/-- The handler over `readOnlyManager`, with the manager pod in the data store. -/
def readOnlyHandler : InstanceHandler := handlerOf readOnlyManager (.ok (some managerPod)) none

/-- The spec of scenario S7: the instance is pinned to node `n2`, desire `Running`. -/
def movedSpec : InstanceSpec := specOf "n2" "img" DataEngineTypeV1 InstanceStateRunning false

/-- A V1 process that failed with the message `no backend`. -/
def failedProcess : InstanceProcess :=
  { Spec := { DataEngine := DataEngineTypeV1 }
    Status := { State := InstanceStateError, PortStart := 10001, UblkID := 0, UUID := "u1",
                ErrorMsg := "no backend", Conditions := [] } }

/-- Manager `m1`, running on `n1`, hosting the failed process `e1`. -/
def failedManager : InstanceManager :=
  managerOf InstanceManagerStateRunning [("e1", failedProcess)]

/-- The handler over `failedManager`, with the manager pod in the data store. -/
def failedHandler : InstanceHandler := handlerOf failedManager (.ok (some managerPod)) none

/-- A running V1 process that reports a condition under the instance-creation key. -/
def shadowingProcess : InstanceProcess :=
  { Spec := { DataEngine := DataEngineTypeV1 }
    Status := { State := InstanceStateRunning, PortStart := 10001, UblkID := 0, UUID := "u1",
                ErrorMsg := "",
                Conditions := [(InstanceConditionTypeInstanceCreation, false)] } }

/-- The handler over manager `m1` hosting `shadowingProcess`, with the manager pod in the data
store. -/
def shadowingHandler : InstanceHandler :=
  handlerOf (managerOf InstanceManagerStateRunning [("e1", shadowingProcess)])
    (.ok (some managerPod)) none

/-! ## `vendor/github.com/rancher/lasso/pkg/controller/controller.go`

The controller drives a rate-limited work queue from `k8s.io/client-go/util/workqueue`, which
is not under src/.  The queue is modelled as the record of the operations called on it, with
the per-item failure counts the spec gives it. -/

/-- Go's `time.Duration`: a count of nanoseconds. -/
abbrev Duration := Int

/-- Go's `time.Millisecond`. -/
abbrev Millisecond : Duration := 1000000

/-- Go's `time.Second`. -/
abbrev Second : Duration := 1000 * Millisecond

/-- Go's `time.Minute`. -/
abbrev Minute : Duration := 60 * Second

/-- Source line 31: `maxTimeout2min`. -/
abbrev maxTimeout2min : Duration := 2 * Minute

/-- Modelled from the spec: `workqueue.RateLimiter` is absent from src/; a rate limiter
computes the delay of a key from the failure count looked up for it (spec 4.1). -/
structure RateLimiter where
  When : Nat → Duration

/-- Modelled from the spec: `workqueue.NewItemFastSlowRateLimiter` is absent from src/; the
first `maxFastAttempts` failures get the fast delay, the failures after them the slow one
(spec 4.1, "first 30 failures -> 1 ms delay; after 30 -> 2 min delay"). -/
def NewItemFastSlowRateLimiter (fastDelay slowDelay : Duration) (maxFastAttempts : Nat) :
    RateLimiter :=
  { When := fun failures => if failures < maxFastAttempts then fastDelay else slowDelay }

/-- Modelled from the spec: `workqueue.NewItemExponentialFailureRateLimiter` is absent from
src/; the delay is `min(baseDelay * 2^failures, maxDelay)` (spec 4.1). -/
def NewItemExponentialFailureRateLimiter (baseDelay maxDelay : Duration) : RateLimiter :=
  { When := fun failures => min (baseDelay * 2 ^ failures) maxDelay }

/-- Modelled from the spec: `workqueue.NewMaxOfRateLimiter` is absent from src/; the delay is
the maximum of the delays of the two strategies (spec 4.1). -/
def NewMaxOfRateLimiter (a b : RateLimiter) : RateLimiter :=
  { When := fun failures => max (a.When failures) (b.When failures) }

/-- Source lines 70-73: `Options`; a nil `RateLimiter` is `none`. -/
structure Options where
  RateLimiter : Option RateLimiter
  SyncOnlyChangedObjects : Bool

/-- Source lines 106-122: `applyDefaultOptions`; nil options are `none`. -/
def applyDefaultOptions (opts : Option Options) : Options :=
  let newOpts : Options :=
    match opts with
    | some o => o
    | none => { RateLimiter := none, SyncOnlyChangedObjects := false }
  match newOpts.RateLimiter with
  | none =>
    { newOpts with
      RateLimiter := some (NewMaxOfRateLimiter
        (NewItemFastSlowRateLimiter Millisecond maxTimeout2min 30)
        (NewItemExponentialFailureRateLimiter (5 * Millisecond) (30 * Second))) }
  | some _ => newOpts

/-- An item of the work queue (`interface{}` in the source): a string key, or a value of
another type. -/
inductive QueueItem where
  | key (s : String)
  | other (tag : Nat)
deriving DecidableEq, Repr

/-- The operations of `workqueue.RateLimitingInterface` the controller calls.  An
`AddRateLimited` records the delay with which it scheduled the item. -/
inductive QueueOp where
  | Add (item : QueueItem)
  | AddAfter (item : QueueItem) (duration : Duration)
  | AddRateLimited (item : QueueItem) (delay : Duration)
  | Forget (item : QueueItem)
  | Done (item : QueueItem)
deriving DecidableEq, Repr

/-- Modelled from the spec: the rate-limiting queue of `k8s.io/client-go/util/workqueue` is
absent from src/.  The model keeps its rate limiter, the failure count of every item, and the
operations called on it, in call order. -/
structure RateLimitingQueue where
  rateLimiter : RateLimiter
  failures : QueueItem → Nat
  calls : List QueueOp

/-- Modelled from the spec: `workqueue.NewNamedRateLimitingQueue` is absent from src/; a new
queue has counted no failure and received no call. -/
def NewNamedRateLimitingQueue (rateLimiter : RateLimiter) (_name : String) : RateLimitingQueue :=
  { rateLimiter := rateLimiter, failures := fun _ => 0, calls := [] }

/-- Modelled from the spec: `Add(key)` (spec 4.1); the failure counts are untouched. -/
def RateLimitingQueue.Add (q : RateLimitingQueue) (item : QueueItem) : RateLimitingQueue :=
  { q with calls := q.calls ++ [QueueOp.Add item] }

/-- Modelled from the spec: `AddAfter(key, d)` (spec 4.1); the failure counts are untouched. -/
def RateLimitingQueue.AddAfter (q : RateLimitingQueue) (item : QueueItem) (duration : Duration) :
    RateLimitingQueue :=
  { q with calls := q.calls ++ [QueueOp.AddAfter item duration] }

/-- Modelled from the spec: `AddRateLimited(key)` looks up the failure count of the key,
computes a delay from the rate limiter and adds the key after that delay; the failure count
increments each call (spec 4.1). -/
def RateLimitingQueue.AddRateLimited (q : RateLimitingQueue) (item : QueueItem) :
    RateLimitingQueue :=
  { q with
    failures := fun i => if i = item then q.failures i + 1 else q.failures i
    calls := q.calls ++ [QueueOp.AddRateLimited item (q.rateLimiter.When (q.failures item))] }

/-- Modelled from the spec: `Forget(key)` resets the failure count to zero (spec 4.1). -/
def RateLimitingQueue.Forget (q : RateLimitingQueue) (item : QueueItem) : RateLimitingQueue :=
  { q with
    failures := fun i => if i = item then 0 else q.failures i
    calls := q.calls ++ [QueueOp.Forget item] }

/-- Modelled from the spec: `Done(key)` marks processing complete (spec 4.1); the failure
counts are untouched. -/
def RateLimitingQueue.Done (q : RateLimitingQueue) (item : QueueItem) : RateLimitingQueue :=
  { q with calls := q.calls ++ [QueueOp.Done item] }

/-- Source lines 60-63: `startKey`. -/
structure startKey where
  key : String
  after : Duration
deriving DecidableEq, Repr

/-- An error returned by the cache lookup or by the handler.  `retryAfter` is what
`errors.As` finds in it (source lines 236-237): the duration of a wrapped `retryAfterError`
and the message of the error embedded in it, or `none`. -/
structure SyncError where
  msg : String
  retryAfter : Option (Duration × String)
deriving DecidableEq, Repr

/-- A `runtime.Object` held by the informer's store. -/
structure RuntimeObject where
  name : String
deriving DecidableEq, Repr

/-- Source lines 54-68: `controller`, with the fields the modelled functions read.
`workqueue` is `none` until `run` creates the queue; `GetByKey` is the lookup of
`informer.GetStore()`, whose result `.ok none` means that the key does not exist; `OnChange`
is the handler. -/
structure controller where
  name : String
  workqueue : Option RateLimitingQueue
  rateLimiter : RateLimiter
  GetByKey : String → Except SyncError (Option RuntimeObject)
  OnChange : String → Option RuntimeObject → Option SyncError
  startKeys : List startKey

/-- Source lines 139-145: the loop of `run` over the buffered keys. -/
def replayStartKeys (q : RateLimitingQueue) (startKeys : List startKey) : RateLimitingQueue :=
  startKeys.foldl
    (fun q start =>
      if start.after = 0 then q.Add (QueueItem.key start.key)
      else q.AddAfter (QueueItem.key start.key) start.after)
    q

/-- Source lines 132-147: the part of `run` under the start lock: the queue is created, the
buffered keys are replayed into it, and the buffer is dropped. -/
def run (c : controller) : controller :=
  { c with
    workqueue := some (replayStartKeys (NewNamedRateLimitingQueue c.rateLimiter c.name) c.startKeys)
    startKeys := [] }

/-- Source lines 240-250: `syncHandler`. -/
def syncHandler (c : controller) (key : String) : Option SyncError :=
  match c.GetByKey key with
  | .error err => some err
  | .ok none => c.OnChange key none
  | .ok (some obj) => c.OnChange key (some obj)

/-- Source lines 212-238: `processSingleItem` on the queue `q` of the controller (workers run
only once `run` has created it).  The result is the queue after the calls, the deferred
`Done` last, and the message of the returned error. -/
def processSingleItem (c : controller) (q : RateLimitingQueue) (obj : QueueItem) :
    RateLimitingQueue × Option String :=
  match obj with
  | .other _ => ((q.Forget obj).Done obj, none)
  | .key key =>
    match syncHandler c key with
    | some err =>
      match err.retryAfter with
      | some (duration, inner) => ((q.AddAfter (QueueItem.key key) duration).Done obj, some inner)
      | none =>
        ((q.AddRateLimited (QueueItem.key key)).Done obj,
          some ("error syncing '" ++ key ++ "': " ++ err.msg ++ ", requeuing"))
    | none => ((q.Forget obj).Done obj, none)

/-- Source lines 252-261: `EnqueueKey`. -/
def EnqueueKey (c : controller) (key : String) : controller :=
  match c.workqueue with
  | none => { c with startKeys := c.startKeys ++ [{ key := key, after := 0 }] }
  | some q => { c with workqueue := some (q.Add (QueueItem.key key)) }

/-- Source lines 289-294: `keyFunc`. -/
def keyFunc (namespace_ name : String) : String :=
  if namespace_ = "" then name else namespace_ ++ "/" ++ name

/-- Source lines 263-274: `Enqueue`. -/
def Enqueue (c : controller) (namespace_ name : String) : controller :=
  let key := keyFunc namespace_ name
  match c.workqueue with
  | none => { c with startKeys := c.startKeys ++ [{ key := key, after := 0 }] }
  | some q => { c with workqueue := some (q.AddRateLimited (QueueItem.key key)) }

/-- Source lines 276-287: `EnqueueAfter`. -/
def EnqueueAfter (c : controller) (namespace_ name : String) (duration : Duration) :
    controller :=
  let key := keyFunc namespace_ name
  match c.workqueue with
  | none => { c with startKeys := c.startKeys ++ [{ key := key, after := duration }] }
  | some q => { c with workqueue := some (q.AddAfter (QueueItem.key key) duration) }

/-- An object handed to `enqueue`, reduced to what `cache.MetaNamespaceKeyFunc` (not under
src/) returns for it: its key, or an error. -/
structure EventObject where
  MetaNamespaceKey : Except String String
deriving Repr

/-- Source lines 296-310: `enqueue`. -/
def enqueue (c : controller) (obj : EventObject) : controller :=
  match obj.MetaNamespaceKey with
  | .error _ => c
  | .ok key =>
    match c.workqueue with
    | none => { c with startKeys := c.startKeys ++ [{ key := key, after := 0 }] }
    | some q => { c with workqueue := some (q.Add (QueueItem.key key)) }

/-- What a cache event delivers (source lines 312-327): an object with metadata, a tombstone
around an object with metadata or around something else, or a value of another type. -/
inductive CacheEvent where
  | object (obj : EventObject)
  | tombstone (inner : Option EventObject)
  | invalid

/-- Source lines 312-327: `handleObject`. -/
def handleObject (c : controller) (ev : CacheEvent) : controller :=
  match ev with
  | .object obj => enqueue c obj
  | .tombstone (some obj) => enqueue c obj
  | .tombstone none => c
  | .invalid => c

/-! ## Vocabulary of the controller statements -/

/-- The rate limiter `applyDefaultOptions` installs when the options name none. -/
def defaultRateLimiter : RateLimiter :=
  match (applyDefaultOptions none).RateLimiter with
  | some rateLimiter => rateLimiter
  | none => { When := fun _ => 0 }

/-- The queue after `k` consecutive `AddRateLimited` calls for `item`. -/
def failTimes (q : RateLimitingQueue) (item : QueueItem) : Nat → RateLimitingQueue
  | 0 => q
  | k + 1 => (failTimes q item k).AddRateLimited item

/-- The delay applied by the last call on the queue, when that call is an
`AddRateLimited`. -/
def lastDelay (q : RateLimitingQueue) : Option Duration :=
  match q.calls.getLast? with
  | some (QueueOp.AddRateLimited _ delay) => some delay
  | _ => none

/-- A call that asks the controller to enqueue a key: one of the three exported methods, or
the callback `handleObject` the informer runs on a cache event, which passes the object of
the event on to `enqueue`. -/
inductive EnqueueCall where
  | Enqueue (namespace_ name : String)
  | EnqueueKey (key : String)
  | EnqueueAfter (namespace_ name : String) (duration : Duration)
  | handleObject (ev : CacheEvent)

/-- The controller after an enqueue call. -/
def EnqueueCall.apply (c : controller) : EnqueueCall → controller
  | .Enqueue namespace_ name => Longhorn.Enqueue c namespace_ name
  | .EnqueueKey key => Longhorn.EnqueueKey c key
  | .EnqueueAfter namespace_ name duration => Longhorn.EnqueueAfter c namespace_ name duration
  | .handleObject ev => Longhorn.handleObject c ev

/-- The controller after a sequence of enqueue calls, in call order. -/
def applyCalls (c : controller) (calls : List EnqueueCall) : controller :=
  calls.foldl EnqueueCall.apply c

/-- The key of an object with metadata, as a buffer entry, when
`cache.MetaNamespaceKeyFunc` returns one. -/
def EventObject.entry (obj : EventObject) : Option startKey :=
  match obj.MetaNamespaceKey with
  | .ok key => some { key := key, after := 0 }
  | .error _ => none

/-- The key of a cache event, when it has one: a value of an invalid type and a tombstone
around a value without metadata have none. -/
def CacheEvent.entry : CacheEvent → Option startKey
  | .object obj => obj.entry
  | .tombstone (some obj) => obj.entry
  | .tombstone none => none
  | .invalid => none

/-- The key of an enqueue call, when it has one. -/
def EnqueueCall.entry : EnqueueCall → Option startKey
  | .Enqueue namespace_ name => some { key := keyFunc namespace_ name, after := 0 }
  | .EnqueueKey key => some { key := key, after := 0 }
  | .EnqueueAfter namespace_ name duration =>
    some { key := keyFunc namespace_ name, after := duration }
  | .handleObject ev => ev.entry

/-- The queue operation with which `run` replays a buffered entry. -/
def startKey.replayed (start : startKey) : QueueOp :=
  if start.after = 0 then QueueOp.Add (QueueItem.key start.key)
  else QueueOp.AddAfter (QueueItem.key start.key) start.after

/-- A controller that was just built: no queue yet, nothing buffered, an empty store and a
handler that succeeds. -/
def freshController : controller :=
  { name := "engine", workqueue := none, rateLimiter := defaultRateLimiter,
    GetByKey := fun _ => .ok none, OnChange := fun _ _ => none, startKeys := [] }

/-! ## Vocabulary of the statements on whole reconciles -/

/-- The reconcile reaches phase B (source line 330): the object is a `runtime.Object` named
`instanceName` and the manager resolution falls through with `im` (`none` when no manager
was resolved). -/
def ReachesPhaseB (h : InstanceHandler) (obj : Obj) (spec : InstanceSpec) (status : InstanceStatus)
    (instanceName : String) (im : Option InstanceManager) : Prop :=
  obj.isRuntimeObject = true ∧ getNameFromObj obj = .ok instanceName ∧
    resolveInstanceManager h obj spec status = .manager im

/-- One reconcile of a sequence: the environment it runs in, the object and the spec it is
called with. -/
structure ReconcileStep where
  h : InstanceHandler
  obj : Obj
  spec : InstanceSpec

/-- The status after a sequence of reconciles, each entered with the status the previous one
returned. -/
def reconcileSeq (steps : List ReconcileStep) (status : InstanceStatus) : InstanceStatus :=
  steps.foldl (fun s step => (ReconcileInstanceState step.h step.obj step.spec s).status) status

/-- A started instance is not in state `Stopped`. -/
def StartedNotStopped (status : InstanceStatus) : Prop :=
  status.Started = true → status.CurrentState ≠ InstanceStateStopped

/-- A status that names a manager `m0` the data store does not know. -/
def danglingStatus : InstanceStatus := { InstanceStatus.zero with InstanceManagerName := "m0" }

/-- The handler of scenario S2 over a data store that reports every data engine as
disabled. -/
def disabledEngineHandler : InstanceHandler :=
  { runningHandler with
    ds := { runningHandler.ds with IsDataEngineEnabled := fun _ => .ok false } }

/-- A stopped status that names a manager `m0` the data store does not know. -/
def danglingStoppedStatus : InstanceStatus :=
  { InstanceStatus.zero with InstanceManagerName := "m0", CurrentState := InstanceStateStopped }

/-- The handler of scenario S2 over a data store that reports every node as down. -/
def downNodeHandler : InstanceHandler :=
  { runningHandler with
    ds := { runningHandler.ds with IsNodeDownOrDeletedOrDelinquent := fun _ _ => .ok true } }

/-! ## Shape of a reconcile -/

theorem applyIntents_effects (im : Option InstanceManager) (spec : InstanceSpec)
    (status : InstanceStatus) (e : Effect) (he : e ∈ (applyIntents im spec status).2) :
    e = Effect.logInstance := by
  unfold applyIntents at he
  simp only [printInstanceLogs] at he
  split_ifs at he <;> cases im <;> simp_all

theorem postStateAdjust_effects (im : Option InstanceManager) (instanceName : String)
    (spec : InstanceSpec) (status : InstanceStatus) (instances : InstanceMap) (e : Effect)
    (he : e ∈ (postStateAdjust im instanceName spec status instances).2.2) :
    e = Effect.logInstance := by
  unfold postStateAdjust at he
  simp only [printInstanceLogs] at he
  split at he
  · split at he
    · split at he
      · simp at he
      · split at he <;> simp at he
    · simp at he
  · split at he
    · split at he
      · simp at he
      · split at he
        · split at he <;> simp_all
        · simp at he
    · simp at he

theorem deleteInstance_effects (h : InstanceHandler) (obj : Obj) :
    Effect.deleteInstance ∈ (deleteInstance h obj).2 := by
  unfold deleteInstance
  split <;> simp

theorem shouldDeleteInstance_eq_false (p : InstanceProcess) :
    shouldDeleteInstance p = false ↔
      (IsDataEngineV2 p.Spec.DataEngine = true ∧ p.Status.State = InstanceStateStopped) := by
  unfold shouldDeleteInstance
  split_ifs <;> simp_all

theorem applyIntents_status (im : Option InstanceManager) (spec : InstanceSpec)
    (status : InstanceStatus) :
    (applyIntents im spec status).1 =
      { status with
        LogFetched := spec.LogRequested
        SalvageExecuted := status.SalvageExecuted && spec.SalvageRequested
        Conditions := SetCondition status.Conditions InstanceConditionTypeInstanceCreation
          ConditionStatusTrue "" "" } := by
  cases hL : spec.LogRequested <;> cases hF : status.LogFetched <;>
    cases hS : status.SalvageExecuted <;> cases hR : spec.SalvageRequested <;>
    simp [applyIntents, hL, hF, hS, hR]

/-- The process is running in the snapshot exactly when the snapshot holds it with state
`Running`. -/
theorem processRunning_iff (instances : InstanceMap) (instanceName : String) :
    processRunning instances instanceName = true ↔
      ∃ inst, instances.lookup instanceName = some inst ∧
        inst.Status.State = InstanceStateRunning := by
  unfold processRunning
  cases instances.lookup instanceName with
  | none => simp
  | some inst => simp

/-- The switch on `DesireState` reads the status only through `CurrentState`: for a given
entry state it makes the same calls, returns the same error, and updates `Started` and
`SalvageExecuted` in the same way. -/
theorem actOnDesireState_shape (h : InstanceHandler) (obj : Obj)
    (im : Option InstanceManager) (instanceName : String) (spec : InstanceSpec)
    (instances : InstanceMap) (c : String) :
    ∃ (started : Option Bool) (salv : Bool) (e : Option ReconcileError) (eff : List Effect),
      (salv = true → spec.SalvageRequested = true) ∧
      (e ≠ none → started = none ∧ salv = false) ∧
      (started = some true → spec.DesireState = InstanceStateRunning ∧
        (∃ m, im = some m) ∧ processRunning instances instanceName = true) ∧
      (started = some false → spec.DesireState = InstanceStateStopped) ∧
      ∀ x : InstanceStatus, x.CurrentState = c →
        actOnDesireState h obj im instanceName spec x instances =
          (settleDesire started salv x, e, eff) := by
  by_cases d1 : spec.DesireState = InstanceStateRunning
  · cases im with
    | none =>
      refine ⟨none, false, none, [], by simp, by simp, by simp, by simp, fun x _ => ?_⟩
      unfold actOnDesireState
      rw [if_pos d1]
      rfl
    | some m =>
      by_cases hrun : processRunning instances instanceName = true
      · refine ⟨some true, false, none, [], by simp, by simp, fun _ => ⟨d1, ⟨m, rfl⟩, hrun⟩,
          by simp, fun x _ => ?_⟩
        unfold actOnDesireState
        rw [if_pos d1]
        simp only
        rw [if_pos hrun]
        rfl
      · by_cases hc : c ≠ InstanceStateStopped
        · refine ⟨none, false, none, [], by simp, by simp, by simp, by simp, fun x hx => ?_⟩
          unfold actOnDesireState
          rw [if_pos d1]
          simp only
          rw [if_neg hrun, if_pos (hx ▸ hc)]
          rfl
        · generalize hcr : createInstance h spec.DataEngine obj = cr
          obtain ⟨ce, ceff⟩ := cr
          cases ce with
          | some err =>
            refine ⟨none, false, some err, ceff, by simp, by simp, by simp, by simp, fun x hx => ?_⟩
            unfold actOnDesireState
            rw [if_pos d1]
            simp only
            rw [if_neg hrun, if_neg (hx ▸ hc), hcr]
            rfl
          | none =>
            by_cases hsal : spec.SalvageRequested = true
            · refine ⟨none, true, none, ceff, fun _ => hsal, by simp, by simp, by simp, fun x hx => ?_⟩
              unfold actOnDesireState
              rw [if_pos d1]
              simp only
              rw [if_neg hrun, if_neg (hx ▸ hc), hcr]
              simp only
              rw [if_pos hsal]
              rfl
            · refine ⟨none, false, none, ceff, by simp, by simp, by simp, by simp, fun x hx => ?_⟩
              unfold actOnDesireState
              rw [if_pos d1]
              simp only
              rw [if_neg hrun, if_neg (hx ▸ hc), hcr]
              simp only
              rw [if_neg hsal]
              rfl
  · by_cases d2 : spec.DesireState = InstanceStateStopped
    · generalize hdl : deleteIfPresent h obj im instanceName instances = dl
      obtain ⟨de, deff⟩ := dl
      cases de with
      | some err =>
        refine ⟨none, false, some err, deff, by simp, by simp, by simp, by simp, fun x _ => ?_⟩
        unfold actOnDesireState
        rw [if_neg d1, if_pos d2, hdl]
        rfl
      | none =>
        refine ⟨some false, false, none, deff, by simp, by simp, by simp, fun _ => d2, fun x _ => ?_⟩
        unfold actOnDesireState
        rw [if_neg d1, if_pos d2, hdl]
        rfl
    · refine ⟨none, false, some .unknownDesireState, [], by simp, by simp, by simp, by simp, fun x _ => ?_⟩
      unfold actOnDesireState
      rw [if_neg d1, if_neg d2]
      rfl

theorem actOnDesireState_status (h : InstanceHandler) (obj : Obj)
    (im : Option InstanceManager) (instanceName : String) (spec : InstanceSpec)
    (status : InstanceStatus) (instances : InstanceMap) :
    ∃ started salvaged,
      (actOnDesireState h obj im instanceName spec status instances).1 =
        { status with Started := started, SalvageExecuted := salvaged } := by
  obtain ⟨started, salv, e, eff, _, _, _, _, hx⟩ :=
    actOnDesireState_shape h obj im instanceName spec instances status.CurrentState
  rw [hx status rfl]
  exact ⟨_, _, rfl⟩

theorem reconcile_phaseD_error (h : InstanceHandler) (obj : Obj) (spec : InstanceSpec)
    (status : InstanceStatus) (instanceName : String) (im : Option InstanceManager)
    (instances : InstanceMap) (hr : ReachesPhaseD h obj spec status instanceName im instances)
    (st : InstanceStatus) (e : ReconcileError) (effects : List Effect)
    (hact : actOnDesireState h obj im instanceName spec (applyIntents im spec status).1 instances
      = (st, some e, effects)) :
    ReconcileInstanceState h obj spec status =
      { status := st, err := some e, effects := (applyIntents im spec status).2 ++ effects } := by
  obtain ⟨h1, h2, h3, h4⟩ := hr
  simp only [ReconcileInstanceState, h1, h2, h3, h4, hact]
  simp

theorem reconcile_synthesis (h : InstanceHandler) (obj : Obj) (spec : InstanceSpec)
    (status : InstanceStatus) (instanceName : String) (im : Option InstanceManager)
    (instances : InstanceMap) (hr : ReachesPhaseD h obj spec status instanceName im instances)
    (st : InstanceStatus) (effects : List Effect)
    (hact : actOnDesireState h obj im instanceName spec (applyIntents im spec status).1 instances
      = (st, none, effects)) :
    ReconcileInstanceState h obj spec status =
      { status := (postStateAdjust im instanceName spec
            (syncStatusWithInstanceManager h im instanceName spec st instances) instances).1,
        err := (postStateAdjust im instanceName spec
            (syncStatusWithInstanceManager h im instanceName spec st instances) instances).2.1,
        effects := (applyIntents im spec status).2 ++ effects ++
            (postStateAdjust im instanceName spec
              (syncStatusWithInstanceManager h im instanceName spec st instances) instances).2.2 } := by
  obtain ⟨h1, h2, h3, h4⟩ := hr
  simp only [ReconcileInstanceState, h1, h2, h3, h4, hact]
  simp

theorem reconcile_paths (h : InstanceHandler) (obj : Obj) (spec : InstanceSpec)
    (status : InstanceStatus) :
    ((ReconcileInstanceState h obj spec status).status = status ∧
      (ReconcileInstanceState h obj spec status).effects = []) ∨
    (∃ im e, resolveInstanceManager h obj spec status = .manager im ∧
      snapshotInstances h obj im = .error e ∧
      ReconcileInstanceState h obj spec status =
        { status := (applyIntents im spec status).1, err := some e,
          effects := (applyIntents im spec status).2 }) ∨
    (∃ instanceName im instances,
      ReachesPhaseD h obj spec status instanceName im instances) := by
  by_cases c1 : obj.isRuntimeObject = false
  · left; simp [ReconcileInstanceState, c1]
  have c1t : obj.isRuntimeObject = true := by simpa using c1
  cases c2 : getNameFromObj obj with
  | error e => left; simp [ReconcileInstanceState, c1, c2]
  | ok instanceName =>
    cases c3 : resolveInstanceManager h obj spec status with
    | stop err => left; simp [ReconcileInstanceState, c1, c2, c3]
    | manager im =>
      cases c4 : snapshotInstances h obj im with
      | error e => right; left; exact ⟨im, e, rfl, c4, by simp [ReconcileInstanceState, c1, c2, c3, c4]⟩
      | ok instances => right; right; exact ⟨instanceName, im, instances, c1t, c2, c3, c4⟩

theorem postStateAdjust_cases (im : Option InstanceManager) (instanceName : String)
    (spec : InstanceSpec) (status : InstanceStatus) (instances : InstanceMap) :
    ((postStateAdjust im instanceName spec status instances).1 = status ∧
      ((postStateAdjust im instanceName spec status instances).2.1 = none ∨
        (postStateAdjust im instanceName spec status instances).2.1 = some .nilManager)) ∨
    (status.CurrentState = InstanceStateRunning ∧
      (postStateAdjust im instanceName spec status instances).1 =
        { status with CurrentState := InstanceStateError, IP := "", StorageIP := "" } ∧
      (postStateAdjust im instanceName spec status instances).2.1 = some .nodeMismatch) ∨
    (status.CurrentState = InstanceStateError ∧
      (postStateAdjust im instanceName spec status instances).2.1 = none ∧
      ∃ m inst, im = some m ∧ instances.lookup instanceName = some inst ∧
        (postStateAdjust im instanceName spec status instances).1 =
          { status with
            Conditions :=
              if spec.DesireState = InstanceStateRunning then
                SetCondition status.Conditions InstanceConditionTypeInstanceCreation
                  ConditionStatusFalse InstanceConditionReasonInstanceCreationFailure
                  inst.Status.ErrorMsg
              else status.Conditions }) := by
  unfold postStateAdjust
  by_cases c1 : status.CurrentState = InstanceStateRunning
  · rw [if_pos c1]
    by_cases c2 : spec.DesireState ≠ InstanceStateStopped
    · rw [if_pos c2]
      cases im with
      | none => left; exact ⟨rfl, Or.inr rfl⟩
      | some m =>
        by_cases c3 : spec.NodeID ≠ m.Spec.NodeID
        · right; left; simp only; rw [if_pos c3]; exact ⟨c1, rfl, rfl⟩
        · left; simp only; rw [if_neg c3]; exact ⟨rfl, Or.inl rfl⟩
    · rw [if_neg c2]; left; exact ⟨rfl, Or.inl rfl⟩
  · rw [if_neg c1]
    by_cases c2 : status.CurrentState = InstanceStateError
    · rw [if_pos c2]
      cases im with
      | none => left; exact ⟨rfl, Or.inl rfl⟩
      | some m =>
        cases hl : instances.lookup instanceName with
        | none => left; exact ⟨rfl, Or.inl rfl⟩
        | some inst =>
          right; right
          refine ⟨c2, rfl, m, inst, rfl, rfl, ?_⟩
          by_cases c3 : spec.DesireState = InstanceStateRunning
          · simp only [if_pos c3]
          · simp only [if_neg c3]
    · rw [if_neg c2]; left; exact ⟨rfl, Or.inl rfl⟩

/-! ## Branches of the status synthesis -/

/-- The status left by the process-state `Running` case when the manager pod is found. -/
theorem syncProcessState_running_pod (h : InstanceHandler) (m : InstanceManager)
    (spec : InstanceSpec) (status : InstanceStatus) (inst : InstanceProcess) (pod : Pod)
    (hrun : inst.Status.State = InstanceStateRunning)
    (hpod : h.ds.GetPodRO m.Namespace m.Name = .ok (some pod)) :
    syncProcessState h m spec status inst =
      syncInstanceCondition inst
        { status with
          CurrentState := InstanceStateRunning
          StorageIP := h.ds.GetStorageIPFromPod pod
          IP := m.Status.IP
          Port := inst.Status.PortStart
          UblkID := inst.Status.UblkID
          CurrentImage := if status.CurrentImage = "" then spec.Image else status.CurrentImage
          UUID := inst.Status.UUID } := by
  have e1 : (if status.StorageIP ≠ h.ds.GetStorageIPFromPod pod then h.ds.GetStorageIPFromPod pod
      else status.StorageIP) = h.ds.GetStorageIPFromPod pod := by
    split_ifs with c
    · rfl
    · exact not_not.mp c
  have e2 : (if status.IP ≠ m.Status.IP then m.Status.IP else status.IP) = m.Status.IP := by
    split_ifs with c
    · rfl
    · exact not_not.mp c
  have e3 : (if status.Port ≠ inst.Status.PortStart then inst.Status.PortStart else status.Port)
      = inst.Status.PortStart := by
    split_ifs with c
    · rfl
    · exact not_not.mp c
  have e4 : (if status.UblkID ≠ inst.Status.UblkID then inst.Status.UblkID else status.UblkID)
      = inst.Status.UblkID := by
    split_ifs with c
    · rfl
    · exact not_not.mp c
  have e5 : (if status.UUID ≠ inst.Status.UUID then inst.Status.UUID else status.UUID)
      = inst.Status.UUID := by
    split_ifs with c
    · rfl
    · exact not_not.mp c
  have hne : ¬ InstanceStateRunning = InstanceStateStarting := by decide
  unfold syncProcessState
  rw [hrun, if_neg hne, if_pos rfl, hpod]
  simp only [e1, e2, e3, e4, e5]

/-- The status left by the process-state `Running` case when the manager pod is absent or
its lookup fails: only `CurrentState` is assigned. -/
theorem syncProcessState_running_nopod (h : InstanceHandler) (m : InstanceManager)
    (spec : InstanceSpec) (status : InstanceStatus) (inst : InstanceProcess)
    (hrun : inst.Status.State = InstanceStateRunning)
    (hpod : ∀ pod, h.ds.GetPodRO m.Namespace m.Name ≠ .ok (some pod)) :
    syncProcessState h m spec status inst =
      { status with CurrentState := InstanceStateRunning } := by
  have hne : ¬ InstanceStateRunning = InstanceStateStarting := by decide
  unfold syncProcessState
  rw [hrun, if_neg hne, if_pos rfl]
  cases hp : h.ds.GetPodRO m.Namespace m.Name with
  | error e => rfl
  | ok o =>
    cases o with
    | none => rfl
    | some pod => exact absurd hp (hpod pod)

/-- Outside the process-state `Running` case, the image and the runtime fields are cleared
and the state is neither `Running` nor `Unknown`. -/
theorem syncProcessState_not_running (h : InstanceHandler) (m : InstanceManager)
    (spec : InstanceSpec) (status : InstanceStatus) (inst : InstanceProcess)
    (hrun : inst.Status.State ≠ InstanceStateRunning) :
    ∃ state, state ≠ InstanceStateRunning ∧ state ≠ InstanceStateUnknown ∧
      (state = InstanceStateStopped → status.Started = false) ∧
      syncProcessState h m spec status inst =
        resetInstanceErrorCondition
          { status with CurrentState := state, CurrentImage := "", IP := "", StorageIP := "",
                        Port := 0, UblkID := 0, UUID := "" } := by
  unfold syncProcessState
  rw [if_neg hrun]
  by_cases c1 : inst.Status.State = InstanceStateStarting
  · rw [if_pos c1]
    exact ⟨InstanceStateStarting, by decide, by decide, fun hc => absurd hc (by decide), rfl⟩
  rw [if_neg c1]
  by_cases c3 : inst.Status.State = InstanceStateStopping
  · rw [if_pos c3]
    cases hst : status.Started
    · exact ⟨InstanceStateStopping, by decide, by decide, fun _ => rfl, by simp⟩
    · exact ⟨InstanceStateError, by decide, by decide, fun hc => absurd hc (by decide), by simp⟩
  rw [if_neg c3]
  by_cases c4 : inst.Status.State = InstanceStateStopped
  · rw [if_pos c4]
    cases hst : status.Started
    · exact ⟨InstanceStateStopped, by decide, by decide, fun _ => rfl, by simp⟩
    · exact ⟨InstanceStateError, by decide, by decide, fun hc => absurd hc (by decide), by simp⟩
  rw [if_neg c4]
  exact ⟨InstanceStateError, by decide, by decide, fun hc => absurd hc (by decide), rfl⟩

/-- The branch taken by the body of `syncStatusWithInstanceManager`. -/
theorem syncStatusBody_cases (h : InstanceHandler) (im : Option InstanceManager)
    (instanceName : String) (spec : InstanceSpec) (status : InstanceStatus)
    (instances : InstanceMap) :
    ((im = none ∨ ∃ m, im = some m ∧ (m.Status.CurrentState = InstanceManagerStateUnknown ∨
        h.ds.IsNodeDelinquent m.Spec.NodeID spec.VolumeName = true)) ∧
      syncStatusBody h im instanceName spec status instances = syncManagerGone status) ∨
    ((∃ m, im = some m ∧ (m.Status.CurrentState = InstanceManagerStateStopped ∨
        m.Status.CurrentState = InstanceManagerStateError ∨ m.DeletionTimestamp ≠ none ∨
        instances.lookup instanceName = none)) ∧
      syncStatusBody h im instanceName spec status instances = syncProcessGone status) ∨
    ((∃ m, im = some m ∧ m.Status.CurrentState = InstanceManagerStateStarting) ∧
      status.Started = true ∧
      syncStatusBody h im instanceName spec status instances =
        resetInstanceErrorCondition
          { status with CurrentState := InstanceStateError, CurrentImage := "", IP := "",
                        StorageIP := "", Port := 0, UblkID := 0, UUID := "" }) ∨
    ((∃ m, im = some m ∧ m.Status.CurrentState = InstanceManagerStateStarting) ∧
      status.Started = false ∧
      syncStatusBody h im instanceName spec status instances = status) ∨
    (∃ m inst, im = some m ∧
      ¬ (m.Status.CurrentState = InstanceManagerStateUnknown ∨
        h.ds.IsNodeDelinquent m.Spec.NodeID spec.VolumeName = true) ∧
      ¬ (m.Status.CurrentState = InstanceManagerStateStopped ∨
        m.Status.CurrentState = InstanceManagerStateError ∨ m.DeletionTimestamp ≠ none) ∧
      m.Status.CurrentState ≠ InstanceManagerStateStarting ∧
      instances.lookup instanceName = some inst ∧
      syncStatusBody h im instanceName spec status instances =
        syncProcessState h m spec { status with InstanceManagerName := m.Name } inst) := by
  cases im with
  | none => left; exact ⟨Or.inl rfl, rfl⟩
  | some m =>
    unfold syncStatusBody
    simp only
    by_cases c1 : m.Status.CurrentState = InstanceManagerStateUnknown ∨
        h.ds.IsNodeDelinquent m.Spec.NodeID spec.VolumeName = true
    · rw [if_pos c1]; left; exact ⟨Or.inr ⟨m, rfl, c1⟩, rfl⟩
    rw [if_neg c1]
    by_cases c2 : m.Status.CurrentState = InstanceManagerStateStopped ∨
        m.Status.CurrentState = InstanceManagerStateError ∨ m.DeletionTimestamp ≠ none
    · rw [if_pos c2]; right; left
      refine ⟨⟨m, rfl, ?_⟩, rfl⟩
      rcases c2 with c | c | c
      · exact Or.inl c
      · exact Or.inr (Or.inl c)
      · exact Or.inr (Or.inr (Or.inl c))
    rw [if_neg c2]
    by_cases c3 : m.Status.CurrentState = InstanceManagerStateStarting
    · rw [if_pos c3]
      cases hst : status.Started
      · right; right; right; left; exact ⟨⟨m, rfl, c3⟩, rfl, by simp⟩
      · right; right; left; exact ⟨⟨m, rfl, c3⟩, rfl, by simp⟩
    rw [if_neg c3]
    cases hl : instances.lookup instanceName with
    | none => right; left; exact ⟨⟨m, rfl, Or.inr (Or.inr (Or.inr rfl))⟩, rfl⟩
    | some inst =>
      right; right; right; right
      exact ⟨m, inst, rfl, c1, c2, c3, rfl, rfl⟩

/-- The deferred function only clears the manager name, and only on `Stopped`. -/
theorem syncDeferred_eq (status : InstanceStatus) :
    syncDeferred status =
      { status with
        InstanceManagerName :=
          if status.CurrentState = InstanceStateStopped then "" else status.InstanceManagerName } := by
  unfold syncDeferred
  split_ifs <;> rfl

theorem syncProcessState_stoppedCleared (h : InstanceHandler) (m : InstanceManager)
    (spec : InstanceSpec) (status : InstanceStatus) (inst : InstanceProcess)
    (hc : (syncProcessState h m spec status inst).CurrentState = InstanceStateStopped) :
      (syncProcessState h m spec status inst).IP = "" ∧
      (syncProcessState h m spec status inst).StorageIP = "" ∧
      (syncProcessState h m spec status inst).Port = 0 ∧
      (syncProcessState h m spec status inst).UblkID = 0 ∧
      (syncProcessState h m spec status inst).UUID = "" := by
  by_cases c1 : inst.Status.State = InstanceStateStarting
  · simp +decide [syncProcessState, c1, resetInstanceErrorCondition] at hc
  by_cases c2 : inst.Status.State = InstanceStateRunning
  · simp +decide only [syncProcessState, c2, if_true, if_false] at hc
    split at hc <;> simp +decide [syncInstanceCondition] at hc
  by_cases c3 : inst.Status.State = InstanceStateStopping
  · simp +decide [syncProcessState, c3, resetInstanceErrorCondition]
  by_cases c4 : inst.Status.State = InstanceStateStopped
  · simp +decide [syncProcessState, c4, resetInstanceErrorCondition]
  · simp +decide [syncProcessState, c1, c2, c3, c4, resetInstanceErrorCondition] at hc

theorem syncStatusBody_stoppedCleared (h : InstanceHandler) (im : Option InstanceManager)
    (instanceName : String) (spec : InstanceSpec) (status : InstanceStatus)
    (instances : InstanceMap) (hs : StoppedCleared status)
    (hc : (syncStatusBody h im instanceName spec status instances).CurrentState
      = InstanceStateStopped) :
    (syncStatusBody h im instanceName spec status instances).IP = "" ∧
    (syncStatusBody h im instanceName spec status instances).StorageIP = "" ∧
    (syncStatusBody h im instanceName spec status instances).Port = 0 ∧
    (syncStatusBody h im instanceName spec status instances).UblkID = 0 ∧
    (syncStatusBody h im instanceName spec status instances).UUID = "" := by
  cases im with
  | none => simp [syncStatusBody, syncManagerGone, resetInstanceErrorCondition]
  | some m =>
    unfold syncStatusBody at hc ⊢
    simp only at hc ⊢
    by_cases c1 : m.Status.CurrentState = InstanceManagerStateUnknown ∨
        h.ds.IsNodeDelinquent m.Spec.NodeID spec.VolumeName = true
    · rw [if_pos c1]; simp [syncManagerGone, resetInstanceErrorCondition]
    rw [if_neg c1] at hc ⊢
    by_cases c2 : m.Status.CurrentState = InstanceManagerStateStopped ∨
        m.Status.CurrentState = InstanceManagerStateError ∨ m.DeletionTimestamp ≠ none
    · rw [if_pos c2]; simp [syncProcessGone, resetInstanceErrorCondition]
    rw [if_neg c2] at hc ⊢
    by_cases c3 : m.Status.CurrentState = InstanceManagerStateStarting
    · rw [if_pos c3] at hc ⊢
      by_cases c4 : status.Started = true
      · rw [if_pos c4] at hc
        simp +decide [resetInstanceErrorCondition] at hc
      · rw [if_neg c4] at hc ⊢
        exact (hs hc).2
    rw [if_neg c3] at hc ⊢
    cases hl : instances.lookup instanceName with
    | none => simp [syncProcessGone, resetInstanceErrorCondition]
    | some inst =>
      rw [hl] at hc
      exact syncProcessState_stoppedCleared _ _ _ _ _ hc

theorem sync_stoppedCleared (h : InstanceHandler) (im : Option InstanceManager)
    (instanceName : String) (spec : InstanceSpec) (status : InstanceStatus)
    (instances : InstanceMap) (hs : StoppedCleared status) :
    StoppedCleared (syncStatusWithInstanceManager h im instanceName spec status instances) := by
  unfold syncStatusWithInstanceManager syncDeferred
  intro hstop
  by_cases hc : (syncStatusBody h im instanceName spec status instances).CurrentState
      = InstanceStateStopped
  · rw [if_pos hc]
    exact ⟨rfl, syncStatusBody_stoppedCleared h im instanceName spec status instances hs hc⟩
  · rw [if_neg hc] at hstop
    exact absurd hstop hc

theorem postStateAdjust_stoppedCleared (im : Option InstanceManager) (instanceName : String)
    (spec : InstanceSpec) (status : InstanceStatus) (instances : InstanceMap)
    (hs : StoppedCleared status) :
    StoppedCleared (postStateAdjust im instanceName spec status instances).1 := by
  rcases postStateAdjust_cases im instanceName spec status instances with
    ⟨h1, _⟩ | ⟨_, h1, _⟩ | ⟨hE, _, m, inst, _, _, h1⟩
  · rw [h1]; exact hs
  · rw [h1]; intro hc; simp +decide at hc
  · rw [h1]; intro hc
    have : status.CurrentState = InstanceStateStopped := hc
    rw [hE] at this
    simp +decide at this

/-- The body of the synthesis when the process is found in the snapshot of a usable manager. -/
theorem syncStatusBody_present (h : InstanceHandler) (m : InstanceManager)
    (instanceName : String) (spec : InstanceSpec) (status : InstanceStatus)
    (instances : InstanceMap) (inst : InstanceProcess)
    (c1 : ¬ (m.Status.CurrentState = InstanceManagerStateUnknown ∨
        h.ds.IsNodeDelinquent m.Spec.NodeID spec.VolumeName = true))
    (c2 : ¬ (m.Status.CurrentState = InstanceManagerStateStopped ∨
        m.Status.CurrentState = InstanceManagerStateError ∨ m.DeletionTimestamp ≠ none))
    (c3 : m.Status.CurrentState ≠ InstanceManagerStateStarting)
    (hl : instances.lookup instanceName = some inst) :
    syncStatusBody h (some m) instanceName spec status instances =
      syncProcessState h m spec { status with InstanceManagerName := m.Name } inst := by
  unfold syncStatusBody
  simp only
  rw [if_neg c1, if_neg c2, if_neg c3, hl]

/-- The synthesis in the process-state `Running` case with the manager pod found. -/
theorem sync_running_pod (h : InstanceHandler) (m : InstanceManager)
    (instanceName : String) (spec : InstanceSpec) (status : InstanceStatus)
    (instances : InstanceMap) (inst : InstanceProcess) (pod : Pod)
    (c1 : ¬ (m.Status.CurrentState = InstanceManagerStateUnknown ∨
        h.ds.IsNodeDelinquent m.Spec.NodeID spec.VolumeName = true))
    (c2 : ¬ (m.Status.CurrentState = InstanceManagerStateStopped ∨
        m.Status.CurrentState = InstanceManagerStateError ∨ m.DeletionTimestamp ≠ none))
    (c3 : m.Status.CurrentState ≠ InstanceManagerStateStarting)
    (hl : instances.lookup instanceName = some inst)
    (hrun : inst.Status.State = InstanceStateRunning)
    (hpod : h.ds.GetPodRO m.Namespace m.Name = .ok (some pod)) :
    syncStatusWithInstanceManager h (some m) instanceName spec status instances =
      syncInstanceCondition inst
        { status with
          InstanceManagerName := m.Name
          CurrentState := InstanceStateRunning
          StorageIP := h.ds.GetStorageIPFromPod pod
          IP := m.Status.IP
          Port := inst.Status.PortStart
          UblkID := inst.Status.UblkID
          CurrentImage := if status.CurrentImage = "" then spec.Image else status.CurrentImage
          UUID := inst.Status.UUID } := by
  unfold syncStatusWithInstanceManager
  rw [syncStatusBody_present h m instanceName spec status instances inst c1 c2 c3 hl,
    syncProcessState_running_pod h m spec _ inst pod hrun hpod, syncDeferred_eq]
  simp +decide [syncInstanceCondition]

/-- The synthesis in the process-state `Running` case with the manager pod absent or its
lookup failing. -/
theorem sync_running_nopod (h : InstanceHandler) (m : InstanceManager)
    (instanceName : String) (spec : InstanceSpec) (status : InstanceStatus)
    (instances : InstanceMap) (inst : InstanceProcess)
    (c1 : ¬ (m.Status.CurrentState = InstanceManagerStateUnknown ∨
        h.ds.IsNodeDelinquent m.Spec.NodeID spec.VolumeName = true))
    (c2 : ¬ (m.Status.CurrentState = InstanceManagerStateStopped ∨
        m.Status.CurrentState = InstanceManagerStateError ∨ m.DeletionTimestamp ≠ none))
    (c3 : m.Status.CurrentState ≠ InstanceManagerStateStarting)
    (hl : instances.lookup instanceName = some inst)
    (hrun : inst.Status.State = InstanceStateRunning)
    (hpod : ∀ pod, h.ds.GetPodRO m.Namespace m.Name ≠ .ok (some pod)) :
    syncStatusWithInstanceManager h (some m) instanceName spec status instances =
      { status with InstanceManagerName := m.Name, CurrentState := InstanceStateRunning } := by
  unfold syncStatusWithInstanceManager
  rw [syncStatusBody_present h m instanceName spec status instances inst c1 c2 c3 hl,
    syncProcessState_running_nopod h m spec _ inst hrun hpod, syncDeferred_eq]
  simp +decide

/-! ## C1: the stopped-state property at return -/

/-- C1, counterexample: a reconcile with desire `Stopped` against a `Starting` manager hands
back a `Stopped` input status with its stale address untouched, so `CurrentState == Stopped`
at return does not imply that `IP` is empty for every input status. -/
theorem stopped_input_returned_uncleared :
    (ReconcileInstanceState (handlerOf (managerOf InstanceManagerStateStarting []) (.ok none) none)
        engineObj (specOf "n1" "img" DataEngineTypeV1 InstanceStateStopped false)
        staleStoppedStatus).err = none ∧
    (ReconcileInstanceState (handlerOf (managerOf InstanceManagerStateStarting []) (.ok none) none)
        engineObj (specOf "n1" "img" DataEngineTypeV1 InstanceStateStopped false)
        staleStoppedStatus).status.CurrentState = InstanceStateStopped ∧
    (ReconcileInstanceState (handlerOf (managerOf InstanceManagerStateStarting []) (.ok none) none)
        engineObj (specOf "n1" "img" DataEngineTypeV1 InstanceStateStopped false)
        staleStoppedStatus).status.IP ≠ "" := by
  decide

/-- C1, amended: for every invocation of `ReconcileInstanceState` whose input status
satisfies the stopped-state property (`CurrentState == Stopped` implies an empty
`InstanceManagerName` and zero `IP`, `StorageIP`, `Port`, `UblkID`, `UUID`), the status at
return satisfies it, on every return path. -/
theorem reconcile_preserves_stoppedCleared (h : InstanceHandler) (obj : Obj) (spec : InstanceSpec)
    (status : InstanceStatus) (hs : StoppedCleared status) :
    StoppedCleared (ReconcileInstanceState h obj spec status).status := by
  have hB : ∀ im, StoppedCleared (applyIntents im spec status).1 := by
    intro im; rw [applyIntents_status]; exact hs
  rcases reconcile_paths h obj spec status with
    ⟨h1, _⟩ | ⟨im, e, _, _, h1⟩ | ⟨instanceName, im, instances, hr⟩
  · rw [h1]; exact hs
  · rw [h1]; exact hB im
  · have hD : StoppedCleared
        (actOnDesireState h obj im instanceName spec (applyIntents im spec status).1
          instances).1 := by
      obtain ⟨a, b, hab⟩ := actOnDesireState_status h obj im instanceName spec
        (applyIntents im spec status).1 instances
      rw [hab]; exact hB im
    generalize hact : actOnDesireState h obj im instanceName spec (applyIntents im spec status).1
      instances = act at hD
    obtain ⟨st, e, effects⟩ := act
    cases e with
    | some e =>
      rw [reconcile_phaseD_error h obj spec status instanceName im instances hr st e effects hact]
      exact hD
    | none =>
      rw [reconcile_synthesis h obj spec status instanceName im instances hr st effects hact]
      exact postStateAdjust_stoppedCleared _ _ _ _ _ (sync_stoppedCleared _ _ _ _ _ _ hD)

/-- C1, witness: the zero-value status satisfies the stopped-state property, and so does the
status returned by the cold-start reconcile from it. -/
theorem reconcile_preserves_stoppedCleared_witness :
    StoppedCleared InstanceStatus.zero ∧
    StoppedCleared
      (ReconcileInstanceState (handlerOf (managerOf InstanceManagerStateRunning []) (.ok none) none)
        engineObj (specOf "n1" "img" DataEngineTypeV1 InstanceStateRunning false)
        InstanceStatus.zero).status :=
  ⟨fun hc => absurd hc (by decide),
    reconcile_preserves_stoppedCleared _ _ _ _ (fun hc => absurd hc (by decide))⟩

/-! ## C3: a started instance without a usable manager -/

/-- C3: for every call of `syncStatusWithInstanceManager` with `status.Started == true` in
which the manager is nil, or its state is `Unknown`, `Stopped`, `Error` or `Starting`, or it
is being deleted, or its node is delinquent, or the instance is not in the process snapshot,
the returned `CurrentState` is `Unknown` or `Error`. -/
theorem sync_started_unavailable (h : InstanceHandler) (im : Option InstanceManager)
    (instanceName : String) (spec : InstanceSpec) (status : InstanceStatus) (instances : InstanceMap)
    (hStarted : status.Started = true)
    (hUnavailable : im = none ∨ ∃ m, im = some m ∧
      (m.Status.CurrentState = InstanceManagerStateUnknown ∨
       m.Status.CurrentState = InstanceManagerStateStopped ∨
       m.Status.CurrentState = InstanceManagerStateError ∨
       m.Status.CurrentState = InstanceManagerStateStarting ∨
       m.DeletionTimestamp ≠ none ∨
       h.ds.IsNodeDelinquent m.Spec.NodeID spec.VolumeName = true ∨
       instances.lookup instanceName = none)) :
    (syncStatusWithInstanceManager h im instanceName spec status instances).CurrentState
        = InstanceStateUnknown ∨
    (syncStatusWithInstanceManager h im instanceName spec status instances).CurrentState
        = InstanceStateError := by
  unfold syncStatusWithInstanceManager
  rw [syncDeferred_eq]
  rcases syncStatusBody_cases h im instanceName spec status instances with
    ⟨_, hb⟩ | ⟨_, hb⟩ | ⟨_, _, hb⟩ | ⟨_, hF, _⟩ | ⟨m, inst, him, c1, c2, c3, hl, _⟩
  · left; rw [hb]; simp [syncManagerGone, resetInstanceErrorCondition, hStarted]
  · right; rw [hb]; simp [syncProcessGone, resetInstanceErrorCondition, hStarted]
  · right; rw [hb]; simp [resetInstanceErrorCondition]
  · rw [hStarted] at hF; cases hF
  · exfalso
    rcases hUnavailable with hn | ⟨m2, hm2, hd⟩
    · rw [hn] at him; cases him
    · rw [hm2] at him
      cases him
      rcases hd with hd | hd | hd | hd | hd | hd | hd
      · exact c1 (Or.inl hd)
      · exact c2 (Or.inl hd)
      · exact c2 (Or.inr (Or.inl hd))
      · exact c3 hd
      · exact c2 (Or.inr (Or.inr hd))
      · exact c1 (Or.inr hd)
      · rw [hd] at hl; cases hl

/-- C3, witness: scenario S3, a started instance whose manager `m1` is in state `Unknown`,
is marked `Unknown`. -/
theorem sync_started_unavailable_witness :
    startedStatus.Started = true ∧
    ((syncStatusWithInstanceManager
        (handlerOf (managerOf InstanceManagerStateUnknown []) (.ok none) none)
        (some (managerOf InstanceManagerStateUnknown [])) "e1"
        (specOf "n1" "img" DataEngineTypeV1 InstanceStateRunning false) startedStatus
        []).CurrentState = InstanceStateUnknown ∨
      (syncStatusWithInstanceManager
        (handlerOf (managerOf InstanceManagerStateUnknown []) (.ok none) none)
        (some (managerOf InstanceManagerStateUnknown [])) "e1"
        (specOf "n1" "img" DataEngineTypeV1 InstanceStateRunning false) startedStatus
        []).CurrentState = InstanceStateError) :=
  ⟨rfl, sync_started_unavailable _ _ _ _ _ _ rfl (Or.inr ⟨_, rfl, Or.inl rfl⟩)⟩

/-! ## C9: deletion on desire `Stopped` -/

/-- C9: for every reconcile that reaches phase D with `spec.DesireState == Stopped`, the
adapter's `DeleteInstance` is invoked if and only if a manager was resolved, it has no
deletion timestamp, the process snapshot contains the instance name, and the process is not
a V2-data-engine process in state `Stopped`; and `shouldDeleteInstance p` is false exactly
when the data engine of `p` is V2 and its state is `Stopped`. -/
theorem delete_invoked_iff (h : InstanceHandler) (obj : Obj) (spec : InstanceSpec)
    (status : InstanceStatus) (instanceName : String) (im : Option InstanceManager)
    (instances : InstanceMap) (hr : ReachesPhaseD h obj spec status instanceName im instances)
    (hd : spec.DesireState = InstanceStateStopped) :
    (Effect.deleteInstance ∈ (ReconcileInstanceState h obj spec status).effects ↔
      ∃ m inst, im = some m ∧ m.DeletionTimestamp = none ∧
        instances.lookup instanceName = some inst ∧
        ¬ (IsDataEngineV2 inst.Spec.DataEngine = true ∧
            inst.Status.State = InstanceStateStopped)) ∧
    (∀ p : InstanceProcess, shouldDeleteInstance p = false ↔
      (IsDataEngineV2 p.Spec.DataEngine = true ∧ p.Status.State = InstanceStateStopped)) := by
  refine ⟨?_, shouldDeleteInstance_eq_false⟩
  have hne : InstanceStateStopped ≠ InstanceStateRunning := by decide
  -- the trace of the switch on DesireState decides
  have key : Effect.deleteInstance ∈
      (actOnDesireState h obj im instanceName spec (applyIntents im spec status).1 instances).2.2 ↔
      ∃ m inst, im = some m ∧ m.DeletionTimestamp = none ∧
        instances.lookup instanceName = some inst ∧
        ¬ (IsDataEngineV2 inst.Spec.DataEngine = true ∧
            inst.Status.State = InstanceStateStopped) := by
    simp only [← shouldDeleteInstance_eq_false]
    simp only [actOnDesireState, deleteIfPresent, hd, hne, if_false, if_true]
    cases im with
    | none => simp
    | some m =>
      by_cases hdel : m.DeletionTimestamp = none
      · cases hl : instances.lookup instanceName with
        | none => simp [hdel]
        | some inst =>
          by_cases hs : shouldDeleteInstance inst = true
          · have := deleteInstance_effects h obj
            simp only [hdel, hs, if_true]
            constructor
            · intro _; exact ⟨m, inst, rfl, hdel, rfl, by simp [hs]⟩
            · intro _
              generalize deleteInstance h obj = d at this ⊢
              obtain ⟨e, eff⟩ := d
              cases e <;> simpa using this
          · simp [hdel, hs]
      · simp [hdel]
  rw [← key]
  generalize hact : actOnDesireState h obj im instanceName spec (applyIntents im spec status).1
    instances = act
  obtain ⟨st, e, effects⟩ := act
  have hi := applyIntents_effects im spec status Effect.deleteInstance
  cases e with
  | some e =>
    rw [reconcile_phaseD_error h obj spec status instanceName im instances hr st e effects hact]
    simp only [List.mem_append]
    constructor
    · rintro (h1 | h1)
      · exact absurd (hi h1) (by simp)
      · exact h1
    · exact Or.inr
  | none =>
    rw [reconcile_synthesis h obj spec status instanceName im instances hr st effects hact]
    have hp := postStateAdjust_effects im instanceName spec
      (syncStatusWithInstanceManager h im instanceName spec st instances) instances
      Effect.deleteInstance
    simp only [List.mem_append]
    constructor
    · rintro ((h1 | h1) | h1)
      · exact absurd (hi h1) (by simp)
      · exact h1
      · exact absurd (hp h1) (by simp)
    · intro h1; exact Or.inl (Or.inr h1)

/-- C9, witness: scenario S6, desire `Stopped` with a V2 process in state `Stopped`: the
reconcile reaches phase D, `DeleteInstance` is not invoked and the returned state is
`Stopped`. -/
theorem delete_invoked_iff_witness :
    (ReachesPhaseD
        (handlerOf (managerOf InstanceManagerStateRunning
          [("e1", processOf DataEngineTypeV2 InstanceStateStopped)]) (.ok none) none)
        engineObj (specOf "" "img" DataEngineTypeV2 InstanceStateStopped false) namedStatus "e1"
        (some (managerOf InstanceManagerStateRunning
          [("e1", processOf DataEngineTypeV2 InstanceStateStopped)]))
        [("e1", processOf DataEngineTypeV2 InstanceStateStopped)] ∧
      (specOf "" "img" DataEngineTypeV2 InstanceStateStopped false).DesireState
        = InstanceStateStopped) ∧
    Effect.deleteInstance ∉
      (ReconcileInstanceState
        (handlerOf (managerOf InstanceManagerStateRunning
          [("e1", processOf DataEngineTypeV2 InstanceStateStopped)]) (.ok none) none)
        engineObj (specOf "" "img" DataEngineTypeV2 InstanceStateStopped false)
        namedStatus).effects ∧
    (ReconcileInstanceState
        (handlerOf (managerOf InstanceManagerStateRunning
          [("e1", processOf DataEngineTypeV2 InstanceStateStopped)]) (.ok none) none)
        engineObj (specOf "" "img" DataEngineTypeV2 InstanceStateStopped false)
        namedStatus).status.CurrentState = InstanceStateStopped := by
  have hr : ReachesPhaseD
      (handlerOf (managerOf InstanceManagerStateRunning
        [("e1", processOf DataEngineTypeV2 InstanceStateStopped)]) (.ok none) none)
      engineObj (specOf "" "img" DataEngineTypeV2 InstanceStateStopped false) namedStatus "e1"
      (some (managerOf InstanceManagerStateRunning
        [("e1", processOf DataEngineTypeV2 InstanceStateStopped)]))
      [("e1", processOf DataEngineTypeV2 InstanceStateStopped)] := ⟨rfl, rfl, rfl, rfl⟩
  refine ⟨⟨hr, rfl⟩, ?_, by decide⟩
  rw [(delete_invoked_iff _ _ _ _ _ _ _ hr rfl).1]
  rintro ⟨m, inst, hm, -, hl, hnot⟩
  cases hm
  cases hl
  exact hnot ⟨rfl, rfl⟩

/-! ## C8: the image is set once -/

/-- C8: for every call of `syncStatusWithInstanceManager` that reaches the process-state
`Running` case with the manager pod found, `CurrentImage` at return equals its value on entry
when that value was non-empty, whatever `spec.Image` is, and equals `spec.Image` when it was
empty on entry. -/
theorem currentImage_kept_while_running (h : InstanceHandler) (m : InstanceManager)
    (instanceName : String) (spec : InstanceSpec) (status : InstanceStatus)
    (instances : InstanceMap) (inst : InstanceProcess) (pod : Pod)
    (c1 : ¬ (m.Status.CurrentState = InstanceManagerStateUnknown ∨
        h.ds.IsNodeDelinquent m.Spec.NodeID spec.VolumeName = true))
    (c2 : ¬ (m.Status.CurrentState = InstanceManagerStateStopped ∨
        m.Status.CurrentState = InstanceManagerStateError ∨ m.DeletionTimestamp ≠ none))
    (c3 : m.Status.CurrentState ≠ InstanceManagerStateStarting)
    (hl : instances.lookup instanceName = some inst)
    (hrun : inst.Status.State = InstanceStateRunning)
    (hpod : h.ds.GetPodRO m.Namespace m.Name = .ok (some pod)) :
    (status.CurrentImage ≠ "" →
      (syncStatusWithInstanceManager h (some m) instanceName spec status instances).CurrentImage
        = status.CurrentImage) ∧
    (status.CurrentImage = "" →
      (syncStatusWithInstanceManager h (some m) instanceName spec status instances).CurrentImage
        = spec.Image) := by
  rw [sync_running_pod h m instanceName spec status instances inst pod c1 c2 c3 hl hrun hpod]
  constructor
  · intro hne; simp [syncInstanceCondition, hne]
  · intro he; simp [syncInstanceCondition, he]

/-- C8, witness: scenario S4, a status running image `v1` under a spec that asks for `v2`
keeps `v1`. -/
theorem currentImage_kept_while_running_witness :
    (runningSnapshot.lookup "e1" = some runningProcess ∧
      runningProcess.Status.State = InstanceStateRunning ∧
      runningHandler.ds.GetPodRO runningManager.Namespace runningManager.Name
        = .ok (some managerPod)) ∧
    ((upgradingStatus.CurrentImage ≠ "" →
      (syncStatusWithInstanceManager runningHandler (some runningManager) "e1"
        (specOf "n1" "v2" DataEngineTypeV1 InstanceStateRunning false) upgradingStatus
        runningSnapshot).CurrentImage = upgradingStatus.CurrentImage) ∧
     (upgradingStatus.CurrentImage = "" →
      (syncStatusWithInstanceManager runningHandler (some runningManager) "e1"
        (specOf "n1" "v2" DataEngineTypeV1 InstanceStateRunning false) upgradingStatus
        runningSnapshot).CurrentImage
          = (specOf "n1" "v2" DataEngineTypeV1 InstanceStateRunning false).Image)) ∧
    (syncStatusWithInstanceManager runningHandler (some runningManager) "e1"
        (specOf "n1" "v2" DataEngineTypeV1 InstanceStateRunning false) upgradingStatus
        runningSnapshot).CurrentImage = "v1" :=
  ⟨⟨rfl, rfl, rfl⟩,
    currentImage_kept_while_running runningHandler runningManager "e1"
      (specOf "n1" "v2" DataEngineTypeV1 InstanceStateRunning false) upgradingStatus
      runningSnapshot runningProcess managerPod (by decide) (by decide) (by decide)
      rfl rfl rfl,
    by decide⟩

/-! ## C7: the runtime fields of a running process -/

/-- C7, counterexample: scenario S2 with the manager pod absent from the data store: the
process is found running on the running manager `m1`, yet `IP` and `Port` are not taken from
the manager and the process. -/
theorem running_without_pod_keeps_fields :
    (syncStatusWithInstanceManager podlessHandler (some runningManager) "e1" runningSpec
        namedStatus runningSnapshot).CurrentState = InstanceStateRunning ∧
    (syncStatusWithInstanceManager podlessHandler (some runningManager) "e1" runningSpec
        namedStatus runningSnapshot).IP ≠ runningManager.Status.IP ∧
    (syncStatusWithInstanceManager podlessHandler (some runningManager) "e1" runningSpec
        namedStatus runningSnapshot).Port ≠ runningProcess.Status.PortStart := by
  decide

/-- C7, amended: for every call of `syncStatusWithInstanceManager` that finds the process in
the snapshot with state `Running` on a non-delinquent manager in state `Running` that is not
being deleted, at return `CurrentState == Running` and `InstanceManagerName == im.Name`
whatever the manager-pod lookup returns; when the pod is found, `IP == im.Status.IP`,
`StorageIP` is the pod's storage address, `Port == process.PortStart`,
`UblkID == process.UblkID` and `UUID == process.UUID`; when the pod is absent or the lookup
fails, `IP`, `StorageIP`, `Port`, `UblkID` and `UUID` are as on entry. -/
theorem running_process_fields (h : InstanceHandler) (m : InstanceManager)
    (instanceName : String) (spec : InstanceSpec) (status : InstanceStatus)
    (instances : InstanceMap) (inst : InstanceProcess)
    (hstate : m.Status.CurrentState = InstanceManagerStateRunning)
    (hdel : m.DeletionTimestamp = none)
    (hnd : h.ds.IsNodeDelinquent m.Spec.NodeID spec.VolumeName = false)
    (hl : instances.lookup instanceName = some inst)
    (hrun : inst.Status.State = InstanceStateRunning) :
    (syncStatusWithInstanceManager h (some m) instanceName spec status instances).CurrentState
      = InstanceStateRunning ∧
    (syncStatusWithInstanceManager h (some m) instanceName spec status
      instances).InstanceManagerName = m.Name ∧
    (∀ pod, h.ds.GetPodRO m.Namespace m.Name = .ok (some pod) →
      (syncStatusWithInstanceManager h (some m) instanceName spec status instances).IP
        = m.Status.IP ∧
      (syncStatusWithInstanceManager h (some m) instanceName spec status instances).StorageIP
        = h.ds.GetStorageIPFromPod pod ∧
      (syncStatusWithInstanceManager h (some m) instanceName spec status instances).Port
        = inst.Status.PortStart ∧
      (syncStatusWithInstanceManager h (some m) instanceName spec status instances).UblkID
        = inst.Status.UblkID ∧
      (syncStatusWithInstanceManager h (some m) instanceName spec status instances).UUID
        = inst.Status.UUID) ∧
    ((∀ pod, h.ds.GetPodRO m.Namespace m.Name ≠ .ok (some pod)) →
      (syncStatusWithInstanceManager h (some m) instanceName spec status instances).IP
        = status.IP ∧
      (syncStatusWithInstanceManager h (some m) instanceName spec status instances).StorageIP
        = status.StorageIP ∧
      (syncStatusWithInstanceManager h (some m) instanceName spec status instances).Port
        = status.Port ∧
      (syncStatusWithInstanceManager h (some m) instanceName spec status instances).UblkID
        = status.UblkID ∧
      (syncStatusWithInstanceManager h (some m) instanceName spec status instances).UUID
        = status.UUID) := by
  have c1 : ¬ (m.Status.CurrentState = InstanceManagerStateUnknown ∨
      h.ds.IsNodeDelinquent m.Spec.NodeID spec.VolumeName = true) := by
    rw [hstate, hnd]; decide
  have c2 : ¬ (m.Status.CurrentState = InstanceManagerStateStopped ∨
      m.Status.CurrentState = InstanceManagerStateError ∨ m.DeletionTimestamp ≠ none) := by
    rw [hstate, hdel]; decide
  have c3 : m.Status.CurrentState ≠ InstanceManagerStateStarting := by
    rw [hstate]; decide
  have found : ∀ pod, h.ds.GetPodRO m.Namespace m.Name = .ok (some pod) →
      syncStatusWithInstanceManager h (some m) instanceName spec status instances =
        syncInstanceCondition inst
          { status with
            InstanceManagerName := m.Name
            CurrentState := InstanceStateRunning
            StorageIP := h.ds.GetStorageIPFromPod pod
            IP := m.Status.IP
            Port := inst.Status.PortStart
            UblkID := inst.Status.UblkID
            CurrentImage := if status.CurrentImage = "" then spec.Image else status.CurrentImage
            UUID := inst.Status.UUID } :=
    fun pod hpod => sync_running_pod h m instanceName spec status instances inst pod c1 c2 c3 hl
      hrun hpod
  have missing : (∀ pod, h.ds.GetPodRO m.Namespace m.Name ≠ .ok (some pod)) →
      syncStatusWithInstanceManager h (some m) instanceName spec status instances =
        { status with InstanceManagerName := m.Name, CurrentState := InstanceStateRunning } :=
    fun hpod => sync_running_nopod h m instanceName spec status instances inst c1 c2 c3 hl
      hrun hpod
  refine ⟨?_, ?_, ?_, ?_⟩
  · by_cases hp : ∃ pod, h.ds.GetPodRO m.Namespace m.Name = .ok (some pod)
    · obtain ⟨pod, hpod⟩ := hp
      rw [found pod hpod]; rfl
    · rw [missing (fun pod hpod => hp ⟨pod, hpod⟩)]
  · by_cases hp : ∃ pod, h.ds.GetPodRO m.Namespace m.Name = .ok (some pod)
    · obtain ⟨pod, hpod⟩ := hp
      rw [found pod hpod]; rfl
    · rw [missing (fun pod hpod => hp ⟨pod, hpod⟩)]
  · intro pod hpod
    rw [found pod hpod]
    exact ⟨rfl, rfl, rfl, rfl, rfl⟩
  · intro hpod
    rw [missing hpod]
    exact ⟨rfl, rfl, rfl, rfl, rfl⟩

/-- C7, witness: scenario S2 with the manager pod found: `Port = 10001`, `IP = 10.0.0.5`,
`UUID = u1`, `InstanceManagerName = m1`. -/
theorem running_process_fields_witness :
    (runningManager.Status.CurrentState = InstanceManagerStateRunning ∧
      runningManager.DeletionTimestamp = none ∧
      runningSnapshot.lookup "e1" = some runningProcess ∧
      runningProcess.Status.State = InstanceStateRunning) ∧
    (syncStatusWithInstanceManager runningHandler (some runningManager) "e1" runningSpec
      namedStatus runningSnapshot).CurrentState = InstanceStateRunning ∧
    (syncStatusWithInstanceManager runningHandler (some runningManager) "e1" runningSpec
      namedStatus runningSnapshot).InstanceManagerName = "m1" ∧
    (syncStatusWithInstanceManager runningHandler (some runningManager) "e1" runningSpec
      namedStatus runningSnapshot).IP = "10.0.0.5" ∧
    (syncStatusWithInstanceManager runningHandler (some runningManager) "e1" runningSpec
      namedStatus runningSnapshot).Port = 10001 ∧
    (syncStatusWithInstanceManager runningHandler (some runningManager) "e1" runningSpec
      namedStatus runningSnapshot).UUID = "u1" :=
  have hw := running_process_fields runningHandler runningManager "e1" runningSpec namedStatus
    runningSnapshot runningProcess rfl rfl rfl rfl rfl
  have hp := hw.2.2.1 managerPod rfl
  ⟨⟨rfl, rfl, rfl, rfl⟩, hw.1, hw.2.1, hp.1, hp.2.2.1, hp.2.2.2.2⟩

/-! ## Frame of the phases -/

/-- The switch on `DesireState` changes `Started` only as the desire says: it is reset only
by desire `Stopped` and set only by desire `Running` with the process running in the
snapshot of a resolved manager. -/
theorem actOnDesireState_started (h : InstanceHandler) (obj : Obj)
    (im : Option InstanceManager) (instanceName : String) (spec : InstanceSpec)
    (status : InstanceStatus) (instances : InstanceMap) :
    (status.Started = true →
      (actOnDesireState h obj im instanceName spec status instances).1.Started = false →
      spec.DesireState = InstanceStateStopped) ∧
    (status.Started = false →
      (actOnDesireState h obj im instanceName spec status instances).1.Started = true →
      spec.DesireState = InstanceStateRunning ∧
        ∃ m inst, im = some m ∧ instances.lookup instanceName = some inst ∧
          inst.Status.State = InstanceStateRunning) := by
  obtain ⟨started, salv, e, eff, _, _, hT, hF, hx⟩ :=
    actOnDesireState_shape h obj im instanceName spec instances status.CurrentState
  rw [hx status rfl]
  constructor
  · intro ht hf
    cases started with
    | none => simp [settleDesire, ht] at hf
    | some b =>
      cases b with
      | false => exact hF rfl
      | true => simp [settleDesire] at hf
  · intro hf ht
    cases started with
    | none => simp [settleDesire, hf] at ht
    | some b =>
      cases b with
      | false => simp [settleDesire] at ht
      | true =>
        obtain ⟨hd, ⟨m, hm⟩, hrun⟩ := hT rfl
        obtain ⟨inst, hl, hr⟩ := (processRunning_iff instances instanceName).mp hrun
        exact ⟨hd, m, inst, hm, hl, hr⟩

/-- The process-state switch leaves the manager name, `Started` and the latches alone. -/
theorem syncProcessState_frame (h : InstanceHandler) (m : InstanceManager)
    (spec : InstanceSpec) (status : InstanceStatus) (inst : InstanceProcess) :
    (syncProcessState h m spec status inst).InstanceManagerName = status.InstanceManagerName ∧
    (syncProcessState h m spec status inst).Started = status.Started ∧
    (syncProcessState h m spec status inst).LogFetched = status.LogFetched ∧
    (syncProcessState h m spec status inst).SalvageExecuted = status.SalvageExecuted := by
  by_cases hrun : inst.Status.State = InstanceStateRunning
  · by_cases hp : ∃ pod, h.ds.GetPodRO m.Namespace m.Name = .ok (some pod)
    · obtain ⟨pod, hpod⟩ := hp
      rw [syncProcessState_running_pod h m spec status inst pod hrun hpod]
      exact ⟨rfl, rfl, rfl, rfl⟩
    · rw [syncProcessState_running_nopod h m spec status inst hrun
        (fun pod hpod => hp ⟨pod, hpod⟩)]
      exact ⟨rfl, rfl, rfl, rfl⟩
  · obtain ⟨state, _, _, _, heq⟩ := syncProcessState_not_running h m spec status inst hrun
    rw [heq]
    exact ⟨rfl, rfl, rfl, rfl⟩

/-- The status synthesis leaves `Started` and the latches alone. -/
theorem sync_frame (h : InstanceHandler) (im : Option InstanceManager)
    (instanceName : String) (spec : InstanceSpec) (status : InstanceStatus)
    (instances : InstanceMap) :
    (syncStatusWithInstanceManager h im instanceName spec status instances).Started
      = status.Started ∧
    (syncStatusWithInstanceManager h im instanceName spec status instances).LogFetched
      = status.LogFetched ∧
    (syncStatusWithInstanceManager h im instanceName spec status instances).SalvageExecuted
      = status.SalvageExecuted := by
  unfold syncStatusWithInstanceManager
  rw [syncDeferred_eq]
  rcases syncStatusBody_cases h im instanceName spec status instances with
    ⟨_, hb⟩ | ⟨_, hb⟩ | ⟨_, _, hb⟩ | ⟨_, _, hb⟩ | ⟨m, inst, _, _, _, _, _, hb⟩
  · rw [hb]; exact ⟨rfl, rfl, rfl⟩
  · rw [hb]; exact ⟨rfl, rfl, rfl⟩
  · rw [hb]; exact ⟨rfl, rfl, rfl⟩
  · rw [hb]; exact ⟨rfl, rfl, rfl⟩
  · rw [hb]
    obtain ⟨_, h2, h3, h4⟩ :=
      syncProcessState_frame h m spec { status with InstanceManagerName := m.Name } inst
    exact ⟨h2, h3, h4⟩

/-- The post-state adjustment leaves `Started` and the latches alone. -/
theorem postStateAdjust_frame (im : Option InstanceManager) (instanceName : String)
    (spec : InstanceSpec) (status : InstanceStatus) (instances : InstanceMap) :
    (postStateAdjust im instanceName spec status instances).1.Started = status.Started ∧
    (postStateAdjust im instanceName spec status instances).1.LogFetched = status.LogFetched ∧
    (postStateAdjust im instanceName spec status instances).1.SalvageExecuted
      = status.SalvageExecuted ∧
    (postStateAdjust im instanceName spec status instances).1.InstanceManagerName
      = status.InstanceManagerName ∧
    (postStateAdjust im instanceName spec status instances).1.CurrentImage
      = status.CurrentImage := by
  rcases postStateAdjust_cases im instanceName spec status instances with
    ⟨h1, _⟩ | ⟨_, h1, _⟩ | ⟨_, _, m, inst, _, _, h1⟩
  · rw [h1]; exact ⟨rfl, rfl, rfl, rfl, rfl⟩
  · rw [h1]; exact ⟨rfl, rfl, rfl, rfl, rfl⟩
  · rw [h1]; exact ⟨rfl, rfl, rfl, rfl, rfl⟩

/-- The outcome of a reconcile that runs the status synthesis. -/
theorem reconcile_of_runsSynthesis (h : InstanceHandler) (obj : Obj) (spec : InstanceSpec)
    (status : InstanceStatus) (instanceName : String) (im : Option InstanceManager)
    (instances : InstanceMap)
    (hs : RunsSynthesis h obj spec status instanceName im instances) :
    ReconcileInstanceState h obj spec status =
      { status := (postStateAdjust im instanceName spec
            (syncStatusWithInstanceManager h im instanceName spec
              (statusBeforeSync h obj spec status instanceName im instances) instances)
            instances).1,
        err := (postStateAdjust im instanceName spec
            (syncStatusWithInstanceManager h im instanceName spec
              (statusBeforeSync h obj spec status instanceName im instances) instances)
            instances).2.1,
        effects := (applyIntents im spec status).2 ++
          (actOnDesireState h obj im instanceName spec (applyIntents im spec status).1
            instances).2.2 ++
          (postStateAdjust im instanceName spec
            (syncStatusWithInstanceManager h im instanceName spec
              (statusBeforeSync h obj spec status instanceName im instances) instances)
            instances).2.2 } := by
  obtain ⟨hr, hnone⟩ := hs
  unfold statusBeforeSync
  generalize hact : actOnDesireState h obj im instanceName spec (applyIntents im spec status).1
    instances = act at hnone ⊢
  obtain ⟨st, e, effects⟩ := act
  cases hnone
  exact reconcile_synthesis h obj spec status instanceName im instances hr st effects hact

/-! ## C4: transitions of `Started` -/

/-- C4: for every invocation of `ReconcileInstanceState` and every return path: if
`status.Started` is true on entry and false at return then `spec.DesireState == Stopped`; and
if it is false on entry and true at return then `spec.DesireState == Running`, a manager was
resolved, and that manager's process snapshot contains the instance name with process state
`Running`. -/
theorem started_transitions (h : InstanceHandler) (obj : Obj) (spec : InstanceSpec)
    (status : InstanceStatus) :
    (status.Started = true →
      (ReconcileInstanceState h obj spec status).status.Started = false →
      spec.DesireState = InstanceStateStopped) ∧
    (status.Started = false →
      (ReconcileInstanceState h obj spec status).status.Started = true →
      spec.DesireState = InstanceStateRunning ∧
        ∃ instanceName m instances inst,
          ReachesPhaseD h obj spec status instanceName (some m) instances ∧
          instances.lookup instanceName = some inst ∧
          inst.Status.State = InstanceStateRunning) := by
  rcases reconcile_paths h obj spec status with
    ⟨h1, _⟩ | ⟨im, e, _, _, h1⟩ | ⟨instanceName, im, instances, hr⟩
  · rw [h1]
    refine ⟨fun ht hf => ?_, fun hf ht => ?_⟩
    · rw [ht] at hf; cases hf
    · rw [hf] at ht; cases ht
  · rw [h1, applyIntents_status]
    refine ⟨fun ht hf => ?_, fun hf ht => ?_⟩
    · simp only at hf; rw [ht] at hf; cases hf
    · simp only at ht; rw [hf] at ht; cases ht
  · have hB : (applyIntents im spec status).1.Started = status.Started := by
      rw [applyIntents_status]
    have key : (ReconcileInstanceState h obj spec status).status.Started =
        (actOnDesireState h obj im instanceName spec (applyIntents im spec status).1
          instances).1.Started := by
      generalize hact : actOnDesireState h obj im instanceName spec
        (applyIntents im spec status).1 instances = act
      obtain ⟨st, e, effects⟩ := act
      cases e with
      | some e =>
        rw [reconcile_phaseD_error h obj spec status instanceName im instances hr st e effects
          hact]
      | none =>
        rw [reconcile_synthesis h obj spec status instanceName im instances hr st effects hact]
        simp only
        rw [(postStateAdjust_frame _ _ _ _ _).1, (sync_frame _ _ _ _ _ _).1]
    rw [key]
    obtain ⟨k1, k2⟩ := actOnDesireState_started h obj im instanceName spec
      (applyIntents im spec status).1 instances
    rw [hB] at k1 k2
    refine ⟨k1, fun hf ht => ?_⟩
    obtain ⟨hd, m, inst, him, hl, hrun⟩ := k2 hf ht
    rw [him] at hr
    exact ⟨hd, instanceName, m, instances, inst, hr, hl, hrun⟩

/-! ## C10: node mismatch -/

/-- A synthesis that ends in `Running` had a manager. -/
theorem sync_running_has_manager (h : InstanceHandler) (im : Option InstanceManager)
    (instanceName : String) (spec : InstanceSpec) (status : InstanceStatus)
    (instances : InstanceMap)
    (hrun : (syncStatusWithInstanceManager h im instanceName spec status instances).CurrentState
      = InstanceStateRunning) :
    ∃ m, im = some m := by
  cases im with
  | some m => exact ⟨m, rfl⟩
  | none =>
    exfalso
    unfold syncStatusWithInstanceManager at hrun
    rw [syncDeferred_eq] at hrun
    simp only [syncStatusBody, syncManagerGone, resetInstanceErrorCondition] at hrun
    cases hst : status.Started <;> simp +decide [hst] at hrun

/-- C10: for every reconcile in which the status synthesis leaves `CurrentState == Running`,
a manager `m` was resolved; when `spec.DesireState != Stopped` and
`spec.NodeID != m.Spec.NodeID` the reconcile returns the node-mismatch error and the
returned status has `CurrentState == Error`, `IP == ""` and `StorageIP == ""`; and when
`spec.NodeID == m.Spec.NodeID` or `spec.DesireState == Stopped` the synthesized status, with
its `Running` state, is returned unchanged with a nil error. -/
theorem node_mismatch_override (h : InstanceHandler) (obj : Obj) (spec : InstanceSpec)
    (status : InstanceStatus) (instanceName : String) (im : Option InstanceManager)
    (instances : InstanceMap)
    (hs : RunsSynthesis h obj spec status instanceName im instances)
    (hrun : (syncStatusWithInstanceManager h im instanceName spec
      (statusBeforeSync h obj spec status instanceName im instances) instances).CurrentState
        = InstanceStateRunning) :
    ∃ m, im = some m ∧
      (spec.DesireState ≠ InstanceStateStopped ∧ spec.NodeID ≠ m.Spec.NodeID →
        (ReconcileInstanceState h obj spec status).err = some .nodeMismatch ∧
        (ReconcileInstanceState h obj spec status).status.CurrentState = InstanceStateError ∧
        (ReconcileInstanceState h obj spec status).status.IP = "" ∧
        (ReconcileInstanceState h obj spec status).status.StorageIP = "") ∧
      (spec.NodeID = m.Spec.NodeID ∨ spec.DesireState = InstanceStateStopped →
        (ReconcileInstanceState h obj spec status).err = none ∧
        (ReconcileInstanceState h obj spec status).status =
          syncStatusWithInstanceManager h im instanceName spec
            (statusBeforeSync h obj spec status instanceName im instances) instances ∧
        (ReconcileInstanceState h obj spec status).status.CurrentState
          = InstanceStateRunning) := by
  obtain ⟨m, rfl⟩ := sync_running_has_manager h im instanceName spec _ instances hrun
  refine ⟨m, rfl, ?_, ?_⟩
  · rintro ⟨hd, hn⟩
    rw [reconcile_of_runsSynthesis h obj spec status instanceName (some m) instances hs]
    simp only [postStateAdjust]
    rw [if_pos hrun, if_pos hd, if_pos hn]
    exact ⟨rfl, rfl, rfl, rfl⟩
  · intro hcase
    rw [reconcile_of_runsSynthesis h obj spec status instanceName (some m) instances hs]
    simp only [postStateAdjust]
    rw [if_pos hrun]
    by_cases hd : spec.DesireState ≠ InstanceStateStopped
    · have hn : ¬ spec.NodeID ≠ m.Spec.NodeID := by
        rcases hcase with hc | hc
        · exact fun hne => hne hc
        · exact absurd hc hd
      rw [if_pos hd, if_neg hn]
      exact ⟨rfl, rfl, hrun⟩
    · rw [if_neg hd]
      exact ⟨rfl, rfl, hrun⟩

/-- C10, witness: scenario S7, the spec pins the instance to node `n2` while the process
runs on manager `m1` of node `n1`: the reconcile returns the node-mismatch error with state
`Error` and both addresses cleared. -/
theorem node_mismatch_override_witness :
    (RunsSynthesis runningHandler engineObj
        (specOf "n2" "img" DataEngineTypeV1 InstanceStateRunning false) namedStatus "e1"
        (some runningManager) runningSnapshot ∧
      (syncStatusWithInstanceManager runningHandler (some runningManager) "e1"
        (specOf "n2" "img" DataEngineTypeV1 InstanceStateRunning false)
        (statusBeforeSync runningHandler engineObj
          (specOf "n2" "img" DataEngineTypeV1 InstanceStateRunning false) namedStatus "e1"
          (some runningManager) runningSnapshot) runningSnapshot).CurrentState
        = InstanceStateRunning) ∧
    (ReconcileInstanceState runningHandler engineObj
      (specOf "n2" "img" DataEngineTypeV1 InstanceStateRunning false) namedStatus).err
        = some .nodeMismatch ∧
    (ReconcileInstanceState runningHandler engineObj
      (specOf "n2" "img" DataEngineTypeV1 InstanceStateRunning false)
      namedStatus).status.CurrentState = InstanceStateError ∧
    (ReconcileInstanceState runningHandler engineObj
      (specOf "n2" "img" DataEngineTypeV1 InstanceStateRunning false) namedStatus).status.IP
        = "" ∧
    (ReconcileInstanceState runningHandler engineObj
      (specOf "n2" "img" DataEngineTypeV1 InstanceStateRunning false)
      namedStatus).status.StorageIP = "" := by
  have hs : RunsSynthesis runningHandler engineObj
      (specOf "n2" "img" DataEngineTypeV1 InstanceStateRunning false) namedStatus "e1"
      (some runningManager) runningSnapshot := ⟨⟨rfl, rfl, rfl, rfl⟩, rfl⟩
  have hrun : (syncStatusWithInstanceManager runningHandler (some runningManager) "e1"
      (specOf "n2" "img" DataEngineTypeV1 InstanceStateRunning false)
      (statusBeforeSync runningHandler engineObj
        (specOf "n2" "img" DataEngineTypeV1 InstanceStateRunning false) namedStatus "e1"
        (some runningManager) runningSnapshot) runningSnapshot).CurrentState
      = InstanceStateRunning := by decide
  obtain ⟨m, hm, hmis, -⟩ := node_mismatch_override runningHandler engineObj
    (specOf "n2" "img" DataEngineTypeV1 InstanceStateRunning false) namedStatus "e1"
    (some runningManager) runningSnapshot hs hrun
  cases hm
  exact ⟨⟨hs, hrun⟩, hmis ⟨by decide, by decide⟩⟩

/-! ## C2: `CurrentImage` against `CurrentState` -/

/-- The status handed to the synthesis differs from the input status only in `Started`, the
two latches and the conditions. -/
theorem statusBeforeSync_eq (h : InstanceHandler) (obj : Obj) (spec : InstanceSpec)
    (status : InstanceStatus) (instanceName : String) (im : Option InstanceManager)
    (instances : InstanceMap) :
    ∃ started salvaged,
      statusBeforeSync h obj spec status instanceName im instances =
        { status with
          Started := started
          LogFetched := spec.LogRequested
          SalvageExecuted := salvaged
          Conditions := SetCondition status.Conditions InstanceConditionTypeInstanceCreation
            ConditionStatusTrue "" "" } := by
  unfold statusBeforeSync
  obtain ⟨a, b, hab⟩ := actOnDesireState_status h obj im instanceName spec
    (applyIntents im spec status).1 instances
  rw [hab, applyIntents_status]
  exact ⟨a, b, rfl⟩

/-- What the synthesis leaves in `CurrentImage`, by the state it ends in, outside the
branch of a `Starting` manager with `Started` false. -/
theorem sync_image_cases (h : InstanceHandler) (im : Option InstanceManager)
    (instanceName : String) (spec : InstanceSpec) (status : InstanceStatus)
    (instances : InstanceMap)
    (hNP : ¬ ∃ m, im = some m ∧ m.Status.CurrentState = InstanceManagerStateStarting ∧
      status.Started = false) :
    (syncStatusWithInstanceManager h im instanceName spec status instances).CurrentState
      = InstanceStateUnknown ∨
    ((syncStatusWithInstanceManager h im instanceName spec status instances).CurrentState
        ≠ InstanceStateRunning ∧
      (syncStatusWithInstanceManager h im instanceName spec status instances).CurrentImage
        = "") ∨
    ((syncStatusWithInstanceManager h im instanceName spec status instances).CurrentState
        = InstanceStateRunning ∧
      ∃ m, im = some m ∧
        ((∃ pod, h.ds.GetPodRO m.Namespace m.Name = .ok (some pod) ∧
          (syncStatusWithInstanceManager h im instanceName spec status instances).CurrentImage
            = if status.CurrentImage = "" then spec.Image else status.CurrentImage) ∨
         ((∀ pod, h.ds.GetPodRO m.Namespace m.Name ≠ .ok (some pod)) ∧
          (syncStatusWithInstanceManager h im instanceName spec status instances).CurrentImage
            = status.CurrentImage))) := by
  rcases syncStatusBody_cases h im instanceName spec status instances with
    ⟨_, hb⟩ | ⟨_, hb⟩ | ⟨_, _, hb⟩ | ⟨⟨m, hm, hst⟩, hF, _⟩ | ⟨m, inst, him, c1, c2, c3, hl, hb⟩
  · unfold syncStatusWithInstanceManager
    rw [syncDeferred_eq, hb]
    cases hst : status.Started
    · right; left
      simp +decide [syncManagerGone, resetInstanceErrorCondition, hst]
    · left
      simp +decide [syncManagerGone, resetInstanceErrorCondition, hst]
  · unfold syncStatusWithInstanceManager
    rw [syncDeferred_eq, hb]
    right; left
    cases hst : status.Started <;>
      simp +decide [syncProcessGone, resetInstanceErrorCondition, hst]
  · unfold syncStatusWithInstanceManager
    rw [syncDeferred_eq, hb]
    right; left
    simp +decide [resetInstanceErrorCondition]
  · exact absurd ⟨m, hm, hst, hF⟩ hNP
  · subst him
    by_cases hrun : inst.Status.State = InstanceStateRunning
    · right; right
      by_cases hp : ∃ pod, h.ds.GetPodRO m.Namespace m.Name = .ok (some pod)
      · obtain ⟨pod, hpod⟩ := hp
        rw [sync_running_pod h m instanceName spec status instances inst pod c1 c2 c3 hl hrun
          hpod]
        exact ⟨rfl, m, rfl, Or.inl ⟨pod, hpod, rfl⟩⟩
      · rw [sync_running_nopod h m instanceName spec status instances inst c1 c2 c3 hl hrun
          (fun pod hpod => hp ⟨pod, hpod⟩)]
        exact ⟨rfl, m, rfl, Or.inr ⟨fun pod hpod => hp ⟨pod, hpod⟩, rfl⟩⟩
    · right; left
      obtain ⟨state, hs1, _, _, heq⟩ := syncProcessState_not_running h m spec
        { status with InstanceManagerName := m.Name } inst hrun
      unfold syncStatusWithInstanceManager
      rw [syncDeferred_eq, hb, heq]
      exact ⟨hs1, rfl⟩

/-- C2, counterexample: scenario S3, a started instance running image `img` whose manager
falls to state `Unknown`: the reconcile runs the status synthesis and returns
`CurrentState == Unknown` with `CurrentImage` still `img`, so a non-empty `CurrentImage`
does not imply `Running`. -/
theorem unknown_state_keeps_image :
    RunsSynthesis (handlerOf (managerOf InstanceManagerStateUnknown []) (.ok none) none)
      engineObj runningSpec startedStatus "e1"
      (some (managerOf InstanceManagerStateUnknown [])) [] ∧
    ¬ ((ReconcileInstanceState
          (handlerOf (managerOf InstanceManagerStateUnknown []) (.ok none) none)
          engineObj runningSpec startedStatus).status.CurrentImage ≠ "" ↔
        (ReconcileInstanceState
          (handlerOf (managerOf InstanceManagerStateUnknown []) (.ok none) none)
          engineObj runningSpec startedStatus).status.CurrentState = InstanceStateRunning) :=
  ⟨⟨⟨rfl, rfl, rfl, rfl⟩, rfl⟩, by decide⟩

/-- C2, amended: at the return of every reconcile that ran the status synthesis through a
branch that assigns `CurrentState` (every branch but the one of a `Starting` manager with
`Started` false, which leaves the status as it is): a non-empty `CurrentImage` implies that
the returned `CurrentState` is `Running` or `Unknown` or that the reconcile returned the
node-mismatch error, so `CurrentImage` is empty whenever the returned state is `Starting`,
`Stopping`, `Stopped`, or `Error` without that error; and when the returned `CurrentState`
is `Running`, `CurrentImage` is non-empty provided it was non-empty on entry, or
`spec.Image` is non-empty and the manager pod was found. -/
theorem currentImage_after_synthesis (h : InstanceHandler) (obj : Obj) (spec : InstanceSpec)
    (status : InstanceStatus) (instanceName : String) (im : Option InstanceManager)
    (instances : InstanceMap)
    (hs : RunsSynthesis h obj spec status instanceName im instances)
    (hNP : ¬ ∃ m, im = some m ∧ m.Status.CurrentState = InstanceManagerStateStarting ∧
      (statusBeforeSync h obj spec status instanceName im instances).Started = false) :
    ((ReconcileInstanceState h obj spec status).status.CurrentImage ≠ "" →
      (ReconcileInstanceState h obj spec status).status.CurrentState = InstanceStateRunning ∨
      (ReconcileInstanceState h obj spec status).status.CurrentState = InstanceStateUnknown ∨
      (ReconcileInstanceState h obj spec status).err = some .nodeMismatch) ∧
    ((ReconcileInstanceState h obj spec status).status.CurrentState = InstanceStateRunning →
      (status.CurrentImage ≠ "" ∨
        (spec.Image ≠ "" ∧
          ∃ m pod, im = some m ∧ h.ds.GetPodRO m.Namespace m.Name = .ok (some pod))) →
      (ReconcileInstanceState h obj spec status).status.CurrentImage ≠ "") := by
  rw [reconcile_of_runsSynthesis h obj spec status instanceName im instances hs]
  simp only
  have himg : (statusBeforeSync h obj spec status instanceName im instances).CurrentImage
      = status.CurrentImage := by
    obtain ⟨a, b, hab⟩ := statusBeforeSync_eq h obj spec status instanceName im instances
    rw [hab]
  have hsync := sync_image_cases h im instanceName spec
    (statusBeforeSync h obj spec status instanceName im instances) instances hNP
  rw [himg] at hsync
  generalize syncStatusWithInstanceManager h im instanceName spec
    (statusBeforeSync h obj spec status instanceName im instances) instances = synced at hsync ⊢
  rcases postStateAdjust_cases im instanceName spec synced instances with
    ⟨h1, _⟩ | ⟨_, h1, h2⟩ | ⟨hE, _, m, inst, _, _, h1⟩
  · rw [h1]
    rcases hsync with hU | ⟨hnr, hempty⟩ | ⟨hR, m, hm, hpod⟩
    · exact ⟨fun _ => Or.inr (Or.inl hU), fun hr => absurd (hU ▸ hr) (by decide)⟩
    · exact ⟨fun hne => absurd hempty hne, fun hr => absurd hr hnr⟩
    · refine ⟨fun _ => Or.inl hR, fun _ hcase => ?_⟩
      rcases hpod with ⟨pod, hpod, hval⟩ | ⟨hno, hval⟩
      · rw [hval]
        by_cases he : status.CurrentImage = ""
        · rw [if_pos he]
          rcases hcase with hc | ⟨hc, _⟩
          · exact absurd he hc
          · exact hc
        · rw [if_neg he]; exact he
      · rw [hval]
        rcases hcase with hc | ⟨_, m2, pod, hm2, hpod⟩
        · exact hc
        · rw [hm] at hm2
          cases hm2
          exact absurd hpod (hno pod)
  · rw [h1, h2]
    refine ⟨fun _ => Or.inr (Or.inr rfl), fun hr => ?_⟩
    have hr2 : InstanceStateError = InstanceStateRunning := hr
    exact absurd hr2 (by decide)
  · rw [h1]
    simp only
    rcases hsync with hU | ⟨_, hempty⟩ | ⟨hR, _⟩
    · rw [hE] at hU; exact absurd hU (by decide)
    · exact ⟨fun hne => absurd hempty hne, fun hr => absurd (hE ▸ hr) (by decide)⟩
    · rw [hE] at hR; exact absurd hR (by decide)

/-- C2, witness: scenario S2, the process observed running with the manager pod found: the
reconcile runs the synthesis, returns `Running` and sets `CurrentImage` to `img`. -/
theorem currentImage_after_synthesis_witness :
    RunsSynthesis runningHandler engineObj runningSpec namedStatus "e1" (some runningManager)
      runningSnapshot ∧
    (ReconcileInstanceState runningHandler engineObj runningSpec namedStatus).status.CurrentState
      = InstanceStateRunning ∧
    (ReconcileInstanceState runningHandler engineObj runningSpec namedStatus).status.CurrentImage
      ≠ "" :=
  have hs : RunsSynthesis runningHandler engineObj runningSpec namedStatus "e1"
      (some runningManager) runningSnapshot := ⟨⟨rfl, rfl, rfl, rfl⟩, rfl⟩
  have hrun : (ReconcileInstanceState runningHandler engineObj runningSpec
      namedStatus).status.CurrentState = InstanceStateRunning := by decide
  ⟨hs, hrun,
    (currentImage_after_synthesis runningHandler engineObj runningSpec namedStatus "e1"
      (some runningManager) runningSnapshot hs
      (by rintro ⟨m, hm, hst, -⟩; cases hm; exact absurd hst (by decide))).2 hrun
      (Or.inr ⟨by decide, runningManager, managerPod, rfl, rfl⟩)⟩

/-! ## C6: cold start -/

/-- Outside the states `Running` and `Error` the post-state adjustment does nothing. -/
theorem postStateAdjust_other (im : Option InstanceManager) (instanceName : String)
    (spec : InstanceSpec) (status : InstanceStatus) (instances : InstanceMap)
    (h1 : status.CurrentState ≠ InstanceStateRunning)
    (h2 : status.CurrentState ≠ InstanceStateError) :
    postStateAdjust im instanceName spec status instances = (status, none, []) := by
  unfold postStateAdjust
  rw [if_neg h1, if_neg h2]

/-- The synthesis for an instance that is not started and not in the snapshot of a `Running`
manager: the state is `Stopped` and the manager name is cleared. -/
theorem sync_absent_not_started (h : InstanceHandler) (m : InstanceManager)
    (instanceName : String) (spec : InstanceSpec) (status : InstanceStatus)
    (instances : InstanceMap)
    (hstate : m.Status.CurrentState = InstanceManagerStateRunning)
    (hst : status.Started = false) (hno : instances.lookup instanceName = none) :
    (syncStatusWithInstanceManager h (some m) instanceName spec status instances).CurrentState
      = InstanceStateStopped ∧
    (syncStatusWithInstanceManager h (some m) instanceName spec status
      instances).InstanceManagerName = "" := by
  unfold syncStatusWithInstanceManager
  rw [syncDeferred_eq]
  rcases syncStatusBody_cases h (some m) instanceName spec status instances with
    ⟨_, hb⟩ | ⟨_, hb⟩ | ⟨_, hT, _⟩ | ⟨⟨m2, hm2, hS⟩, _, _⟩ | ⟨m2, inst, _, _, _, _, hl, _⟩
  · rw [hb]; simp [syncManagerGone, resetInstanceErrorCondition, hst]
  · rw [hb]; simp [syncProcessGone, resetInstanceErrorCondition, hst]
  · rw [hst] at hT; cases hT
  · cases hm2
    rw [hstate] at hS
    exact absurd hS (by decide)
  · rw [hno] at hl; cases hl

/-- C6, counterexample: scenario S1, the cold start from the zero-value status: the single
reconcile does not invoke `CreateInstance`, and the returned `InstanceManagerName` is not
`m1`. -/
theorem cold_start_first_pass_creates_nothing :
    Effect.createInstance ∉
      (ReconcileInstanceState
        (handlerOf (managerOf InstanceManagerStateRunning []) (.ok (some managerPod))
          (some notFoundError))
        engineObj runningSpec InstanceStatus.zero).effects ∧
    (ReconcileInstanceState
        (handlerOf (managerOf InstanceManagerStateRunning []) (.ok (some managerPod))
          (some notFoundError))
        engineObj runningSpec InstanceStatus.zero).status.InstanceManagerName ≠ "m1" := by
  decide

/-- C6, amended: cold start (S1): for a spec with non-empty `NodeID` and `Image`, desire
`Running` and no log request, the zero-value status, the data engine enabled, the node
healthy, and a manager in state `Running` whose snapshot does not contain the instance: one
call of `ReconcileInstanceState` invokes no adapter operation (the zero-value `CurrentState`
is not `Stopped`, so the creation path is not entered) and returns without error with
`CurrentState == Stopped`, `InstanceManagerName == ""` and `LogFetched == false`; the next
call, on the returned status, calls `GetInstance` and, when that reports `NotFound`,
`CreateInstance`, and when it returns without error the state is again `Stopped` with an
empty `InstanceManagerName`. -/
theorem cold_start_two_passes (h : InstanceHandler) (obj : Obj) (spec : InstanceSpec)
    (instanceName : String) (m : InstanceManager) (instances : InstanceMap)
    (hobj : obj.isRuntimeObject = true) (hname : getNameFromObj obj = .ok instanceName)
    (himg : spec.Image ≠ "") (hnode : spec.NodeID ≠ "")
    (hdes : spec.DesireState = InstanceStateRunning) (hlog : spec.LogRequested = false)
    (hen : h.ds.IsDataEngineEnabled spec.DataEngine = .ok true)
    (hup : h.ds.IsNodeDownOrDeletedOrDelinquent spec.NodeID spec.VolumeName = .ok false)
    (hm : h.ds.GetInstanceManagerByInstanceRO obj = .ok (some m))
    (hstate : m.Status.CurrentState = InstanceManagerStateRunning)
    (hsnap : snapshotInstances h obj (some m) = .ok instances)
    (hno : instances.lookup instanceName = none) :
    ((ReconcileInstanceState h obj spec InstanceStatus.zero).effects = [] ∧
      (ReconcileInstanceState h obj spec InstanceStatus.zero).err = none ∧
      (ReconcileInstanceState h obj spec InstanceStatus.zero).status.CurrentState
        = InstanceStateStopped ∧
      (ReconcileInstanceState h obj spec InstanceStatus.zero).status.InstanceManagerName = "" ∧
      (ReconcileInstanceState h obj spec InstanceStatus.zero).status.LogFetched = false) ∧
    (Effect.getInstance ∈
        (ReconcileInstanceState h obj spec
          (ReconcileInstanceState h obj spec InstanceStatus.zero).status).effects ∧
      (∀ e, h.instanceManagerHandler.GetInstance obj = some e → e.isNotFound = true →
        Effect.createInstance ∈
          (ReconcileInstanceState h obj spec
            (ReconcileInstanceState h obj spec InstanceStatus.zero).status).effects) ∧
      ((ReconcileInstanceState h obj spec
          (ReconcileInstanceState h obj spec InstanceStatus.zero).status).err = none →
        (ReconcileInstanceState h obj spec
          (ReconcileInstanceState h obj spec InstanceStatus.zero).status).status.CurrentState
            = InstanceStateStopped ∧
        (ReconcileInstanceState h obj spec
          (ReconcileInstanceState h obj spec
            InstanceStatus.zero).status).status.InstanceManagerName = "")) := by
  have hres : ∀ s : InstanceStatus, s.InstanceManagerName = "" →
      resolveInstanceManager h obj spec s = .manager (some m) := by
    intro s hs
    simp [resolveInstanceManager, hs, himg, hnode, hen, hup, hm]
  have hreach : ∀ s : InstanceStatus, s.InstanceManagerName = "" →
      ReachesPhaseD h obj spec s instanceName (some m) instances :=
    fun s hs => ⟨hobj, hname, hres s hs, hsnap⟩
  have hint : ∀ s : InstanceStatus, (applyIntents (some m) spec s).2 = [] := by
    intro s; simp [applyIntents, hlog]
  -- the status after the synthesis, for any status that is not started
  have hsync : ∀ st : InstanceStatus, st.Started = false →
      postStateAdjust (some m) instanceName spec
        (syncStatusWithInstanceManager h (some m) instanceName spec st instances) instances
        = (syncStatusWithInstanceManager h (some m) instanceName spec st instances, none, []) := by
    intro st hst
    have hS := (sync_absent_not_started h m instanceName spec st instances hstate hst hno).1
    exact postStateAdjust_other _ _ _ _ _ (by rw [hS]; decide) (by rw [hS]; decide)
  -- first pass
  have hact0 : actOnDesireState h obj (some m) instanceName spec
      (applyIntents (some m) spec InstanceStatus.zero).1 instances
      = ((applyIntents (some m) spec InstanceStatus.zero).1, none, []) := by
    rw [applyIntents_status]
    simp +decide [actOnDesireState, processRunning, hdes, hno, InstanceStatus.zero]
  have hst0 : (applyIntents (some m) spec InstanceStatus.zero).1.Started = false := by
    rw [applyIntents_status]; rfl
  have hout0 := reconcile_synthesis h obj spec InstanceStatus.zero instanceName (some m)
    instances (hreach _ rfl) _ _ hact0
  rw [hsync _ hst0, hint] at hout0
  have hS0 := sync_absent_not_started h m instanceName spec
    (applyIntents (some m) spec InstanceStatus.zero).1 instances hstate hst0 hno
  have hL0 : (syncStatusWithInstanceManager h (some m) instanceName spec
      (applyIntents (some m) spec InstanceStatus.zero).1 instances).LogFetched = false := by
    rw [(sync_frame _ _ _ _ _ _).2.1, applyIntents_status]
    exact hlog
  have hT0 : (syncStatusWithInstanceManager h (some m) instanceName spec
      (applyIntents (some m) spec InstanceStatus.zero).1 instances).Started = false := by
    rw [(sync_frame _ _ _ _ _ _).1]; exact hst0
  refine ⟨?_, ?_⟩
  · rw [hout0]
    exact ⟨rfl, rfl, hS0.1, hS0.2, hL0⟩
  · rw [hout0]
    simp only
    generalize syncStatusWithInstanceManager h (some m) instanceName spec
      (applyIntents (some m) spec InstanceStatus.zero).1 instances = s1 at hS0 hT0
    obtain ⟨hC1, hN1⟩ := hS0
    -- second pass: the creation path is entered
    have hB1 : (applyIntents (some m) spec s1).1.Started = false ∧
        (applyIntents (some m) spec s1).1.CurrentState = InstanceStateStopped := by
      rw [applyIntents_status]; exact ⟨hT0, hC1⟩
    have hget : Effect.getInstance ∈ (createInstance h spec.DataEngine obj).2 ∧
        (∀ e, h.instanceManagerHandler.GetInstance obj = some e → e.isNotFound = true →
          Effect.createInstance ∈ (createInstance h spec.DataEngine obj).2) := by
      unfold createInstance
      cases hg : h.instanceManagerHandler.GetInstance obj with
      | none => exact ⟨by simp, fun e he => by cases he⟩
      | some err =>
        simp only
        by_cases hnf : err.isNotFound = true
        · simp only [hnf, Bool.not_true, Bool.false_and, Bool.false_eq_true, if_false]
          cases hc : h.instanceManagerHandler.CreateInstance obj with
          | none => exact ⟨by simp, fun _ _ _ => by simp⟩
          | some cerr =>
            simp only
            split_ifs
            · exact ⟨by simp, fun _ _ _ => by simp⟩
            · exact ⟨by simp, fun _ _ _ => by simp⟩
        · refine ⟨?_, fun e he hne => ?_⟩
          · split_ifs
            · simp
            · cases hc : h.instanceManagerHandler.CreateInstance obj with
              | none => simp
              | some cerr => simp only; split_ifs <;> simp
          · cases he
            exact absurd hne hnf
    generalize hcr : createInstance h spec.DataEngine obj = cr at hget
    obtain ⟨ce, ceff⟩ := cr
    have hnn : ¬ (applyIntents (some m) spec s1).1.CurrentState ≠ InstanceStateStopped :=
      not_not.mpr hB1.2
    cases ce with
    | some err =>
      have hact1 : actOnDesireState h obj (some m) instanceName spec
          (applyIntents (some m) spec s1).1 instances
          = ((applyIntents (some m) spec s1).1, some err, ceff) := by
        unfold actOnDesireState
        rw [if_pos hdes]
        simp only [processRunning, hno, Bool.false_eq_true, if_false]
        rw [if_neg hnn, hcr]
      rw [reconcile_phaseD_error h obj spec s1 instanceName (some m) instances (hreach s1 hN1)
        _ _ _ hact1, hint]
      exact ⟨by simpa using hget.1, fun e he hnf => by simpa using hget.2 e he hnf,
        fun hnone => by cases hnone⟩
    | none =>
      by_cases hsal : spec.SalvageRequested = true
      · have hact1 : actOnDesireState h obj (some m) instanceName spec
            (applyIntents (some m) spec s1).1 instances
            = ({ (applyIntents (some m) spec s1).1 with SalvageExecuted := true }, none,
                ceff) := by
          unfold actOnDesireState
          rw [if_pos hdes]
          simp only [processRunning, hno, Bool.false_eq_true, if_false]
          rw [if_neg hnn, hcr]
          simp only
          rw [if_pos hsal]
        have hout1 := reconcile_synthesis h obj spec s1 instanceName (some m) instances
          (hreach s1 hN1) _ _ hact1
        have hT1 : ({ (applyIntents (some m) spec s1).1 with
            SalvageExecuted := true } : InstanceStatus).Started = false := hB1.1
        rw [hsync _ hT1, hint] at hout1
        rw [hout1]
        have hS1 := sync_absent_not_started h m instanceName spec
          { (applyIntents (some m) spec s1).1 with SalvageExecuted := true } instances hstate
          hT1 hno
        exact ⟨by simpa using hget.1, fun e he hnf => by simpa using hget.2 e he hnf,
          fun _ => hS1⟩
      · have hact1 : actOnDesireState h obj (some m) instanceName spec
            (applyIntents (some m) spec s1).1 instances
            = ((applyIntents (some m) spec s1).1, none, ceff) := by
          unfold actOnDesireState
          rw [if_pos hdes]
          simp only [processRunning, hno, Bool.false_eq_true, if_false]
          rw [if_neg hnn, hcr]
          simp only
          rw [if_neg hsal]
        have hout1 := reconcile_synthesis h obj spec s1 instanceName (some m) instances
          (hreach s1 hN1) _ _ hact1
        rw [hsync _ hB1.1, hint] at hout1
        rw [hout1]
        have hS1 := sync_absent_not_started h m instanceName spec
          (applyIntents (some m) spec s1).1 instances hstate hB1.1 hno
        exact ⟨by simpa using hget.1, fun e he hnf => by simpa using hget.2 e he hnf,
          fun _ => hS1⟩

/-- C6, witness: scenario S1 with manager `m1` running on `n1` and an adapter that reports
`NotFound`: the first reconcile calls nothing and returns `Stopped` with an empty manager
name, the second one calls `CreateInstance`. -/
theorem cold_start_two_passes_witness :
    (engineObj.isRuntimeObject = true ∧ runningSpec.Image ≠ "" ∧ runningSpec.NodeID ≠ "" ∧
      runningSpec.DesireState = InstanceStateRunning ∧ runningSpec.LogRequested = false ∧
      (managerOf InstanceManagerStateRunning []).Status.CurrentState
        = InstanceManagerStateRunning ∧
      List.lookup "e1" ([] : InstanceMap) = none) ∧
    ((ReconcileInstanceState
        (handlerOf (managerOf InstanceManagerStateRunning []) (.ok (some managerPod))
          (some notFoundError)) engineObj runningSpec InstanceStatus.zero).effects = [] ∧
      (ReconcileInstanceState
        (handlerOf (managerOf InstanceManagerStateRunning []) (.ok (some managerPod))
          (some notFoundError)) engineObj runningSpec InstanceStatus.zero).status.CurrentState
        = InstanceStateStopped ∧
      (ReconcileInstanceState
        (handlerOf (managerOf InstanceManagerStateRunning []) (.ok (some managerPod))
          (some notFoundError)) engineObj runningSpec
        InstanceStatus.zero).status.InstanceManagerName = "") ∧
    Effect.createInstance ∈
      (ReconcileInstanceState
        (handlerOf (managerOf InstanceManagerStateRunning []) (.ok (some managerPod))
          (some notFoundError)) engineObj runningSpec
        (ReconcileInstanceState
          (handlerOf (managerOf InstanceManagerStateRunning []) (.ok (some managerPod))
            (some notFoundError)) engineObj runningSpec InstanceStatus.zero).status).effects :=
  have hw := cold_start_two_passes
    (handlerOf (managerOf InstanceManagerStateRunning []) (.ok (some managerPod))
      (some notFoundError))
    engineObj runningSpec "e1" (managerOf InstanceManagerStateRunning []) []
    rfl rfl (by decide) (by decide) rfl rfl rfl rfl rfl rfl rfl rfl
  ⟨⟨rfl, by decide, by decide, rfl, rfl, rfl, rfl⟩,
    ⟨hw.1.1, hw.1.2.2.1, hw.1.2.2.2.1⟩,
    hw.2.2.1 notFoundError rfl rfl⟩

/-! ## C5: idempotence of the reconcile

### Sequences of `SetCondition` calls -/

theorem SetCondition_cons (c : Condition) (rest : List Condition) (o : Condition) :
    SetCondition (c :: rest) o.Type_ o.Status o.Reason o.Message =
      if c.Type_ = o.Type_ then o :: rest
      else c :: SetCondition rest o.Type_ o.Status o.Reason o.Message := by
  simp only [SetCondition]

theorem headAfter_type (ops : List Condition) (c : Condition) :
    (headAfter ops c).Type_ = c.Type_ := by
  induction ops generalizing c with
  | nil => rfl
  | cons o os ih =>
    unfold headAfter
    rw [List.foldl_cons]
    by_cases hk : c.Type_ = o.Type_
    · rw [if_pos hk]
      exact (ih o).trans hk.symm
    · rw [if_neg hk]
      exact ih c

/-- A sequence of `SetCondition` calls acts on a non-empty list position by position. -/
theorem SetConditions_cons (ops : List Condition) (c : Condition) (rest : List Condition) :
    SetConditions ops (c :: rest) =
      headAfter ops c ::
        SetConditions (ops.filter (fun o => decide (o.Type_ ≠ c.Type_))) rest := by
  induction ops generalizing c rest with
  | nil => rfl
  | cons o os ih =>
    unfold SetConditions headAfter
    rw [List.foldl_cons, List.foldl_cons, SetCondition_cons]
    by_cases hk : c.Type_ = o.Type_
    · rw [if_pos hk, if_pos hk]
      have hf : List.filter (fun x => decide (x.Type_ ≠ c.Type_)) (o :: os)
          = List.filter (fun x => decide (x.Type_ ≠ o.Type_)) os := by
        rw [List.filter_cons_of_neg (by simp [hk]), hk]
      rw [hf]
      exact ih o rest
    · rw [if_neg hk, if_neg hk]
      have hf : List.filter (fun x => decide (x.Type_ ≠ c.Type_)) (o :: os)
          = o :: List.filter (fun x => decide (x.Type_ ≠ c.Type_)) os := by
        rw [List.filter_cons_of_pos (by simpa using fun h => hk h.symm)]
      rw [hf]
      exact ih c _

theorem headAfter_append_one (os : List Condition) (o c : Condition) :
    headAfter (os ++ [o]) c = if c.Type_ = o.Type_ then o else headAfter os c := by
  unfold headAfter
  rw [List.foldl_append]
  simp only [List.foldl_cons, List.foldl_nil]
  have := headAfter_type os c
  unfold headAfter at this
  rw [this]

theorem headAfter_idem (ops : List Condition) (c : Condition) :
    headAfter ops (headAfter ops c) = headAfter ops c := by
  induction ops using List.reverseRecOn generalizing c with
  | nil => rfl
  | append_singleton os o ih =>
    rw [headAfter_append_one os o c]
    by_cases hk : c.Type_ = o.Type_
    · rw [if_pos hk, headAfter_append_one, if_pos rfl]
    · rw [if_neg hk, headAfter_append_one, headAfter_type, if_neg hk, ih]

theorem SetConditions_nil_idem (n : Nat) :
    ∀ ops : List Condition, ops.length ≤ n →
      SetConditions ops (SetConditions ops []) = SetConditions ops [] := by
  induction n with
  | zero =>
    intro ops hlen
    have : ops = [] := List.length_eq_zero.mp (Nat.le_zero.mp hlen)
    subst this
    rfl
  | succ n ih =>
    intro ops hlen
    cases ops with
    | nil => rfl
    | cons o os =>
      have h1 : SetConditions (o :: os) [] = SetConditions os [o] := rfl
      rw [h1, SetConditions_cons os o [], SetConditions_cons (o :: os)]
      have ht : (headAfter os o).Type_ = o.Type_ := headAfter_type os o
      have hh : headAfter (o :: os) (headAfter os o) = headAfter os o := by
        have e : headAfter (o :: os) (headAfter os o) = headAfter os o := by
          show List.foldl _ _ (o :: os) = _
          rw [List.foldl_cons, if_pos ht]
          rfl
        exact e
      have hf : List.filter (fun x => decide (x.Type_ ≠ (headAfter os o).Type_)) (o :: os)
          = List.filter (fun x => decide (x.Type_ ≠ o.Type_)) os := by
        rw [ht, List.filter_cons_of_neg (by simp)]
      rw [hh, hf]
      congr 1
      apply ih
      have := List.length_filter_le (fun x => decide (x.Type_ ≠ o.Type_)) os
      simp only [List.length_cons] at hlen
      omega

/-- Running the same sequence of `SetCondition` calls a second time changes nothing. -/
theorem SetConditions_idem (ops : List Condition) (conditions : List Condition) :
    SetConditions ops (SetConditions ops conditions) = SetConditions ops conditions := by
  induction conditions generalizing ops with
  | nil => exact SetConditions_nil_idem ops.length ops (Nat.le_refl _)
  | cons c rest ih =>
    rw [SetConditions_cons ops c rest, SetConditions_cons ops, headAfter_idem, headAfter_type,
      ih]

theorem SetConditions_append (a b : List Condition) (conditions : List Condition) :
    SetConditions (a ++ b) conditions = SetConditions b (SetConditions a conditions) := by
  unfold SetConditions
  rw [List.foldl_append]

/-! ### Shape of the phases as functions of the status -/

/-- The manager resolution reads the status only through `InstanceManagerName`. -/
theorem resolveInstanceManager_congr (h : InstanceHandler) (obj : Obj) (spec : InstanceSpec)
    (s t : InstanceStatus) (hn : t.InstanceManagerName = s.InstanceManagerName) :
    resolveInstanceManager h obj spec t = resolveInstanceManager h obj spec s := by
  unfold resolveInstanceManager
  rw [hn]

/-- The branch of the synthesis body is chosen by the manager and the snapshot alone. -/
theorem syncStatusBody_shape (h : InstanceHandler) (im : Option InstanceManager)
    (instanceName : String) (spec : InstanceSpec) (instances : InstanceMap) :
    (∀ x, syncStatusBody h im instanceName spec x instances = syncManagerGone x) ∨
    (∀ x, syncStatusBody h im instanceName spec x instances = syncProcessGone x) ∨
    ((∃ m, im = some m) ∧ ∀ x, syncStatusBody h im instanceName spec x instances =
      if x.Started then
        resetInstanceErrorCondition
          { x with CurrentState := InstanceStateError, CurrentImage := "", IP := "",
                   StorageIP := "", Port := 0, UblkID := 0, UUID := "" }
      else x) ∨
    (∃ m inst, im = some m ∧ ∀ x, syncStatusBody h im instanceName spec x instances =
      syncProcessState h m spec { x with InstanceManagerName := m.Name } inst) := by
  cases im with
  | none => left; intro x; rfl
  | some m =>
    by_cases c1 : m.Status.CurrentState = InstanceManagerStateUnknown ∨
        h.ds.IsNodeDelinquent m.Spec.NodeID spec.VolumeName = true
    · left; intro x; unfold syncStatusBody; simp only; rw [if_pos c1]
    by_cases c2 : m.Status.CurrentState = InstanceManagerStateStopped ∨
        m.Status.CurrentState = InstanceManagerStateError ∨ m.DeletionTimestamp ≠ none
    · right; left; intro x; unfold syncStatusBody; simp only; rw [if_neg c1, if_pos c2]
    by_cases c3 : m.Status.CurrentState = InstanceManagerStateStarting
    · right; right; left
      refine ⟨⟨m, rfl⟩, fun x => ?_⟩
      unfold syncStatusBody; simp only; rw [if_neg c1, if_neg c2, if_pos c3]
    cases hl : instances.lookup instanceName with
    | none =>
      right; left; intro x
      unfold syncStatusBody; simp only; rw [if_neg c1, if_neg c2, if_neg c3, hl]
    | some inst =>
      right; right; right
      exact ⟨m, inst, rfl, fun x => syncStatusBody_present h m instanceName spec x instances inst
        c1 c2 c3 hl⟩

/-- Outside the process-state `Running` case the assigned state is a function of `Started`
alone. -/
theorem syncProcessState_not_running_shape (h : InstanceHandler) (m : InstanceManager)
    (spec : InstanceSpec) (inst : InstanceProcess)
    (hrun : inst.Status.State ≠ InstanceStateRunning) :
    ∃ f : Bool → String, (∀ b, f b ≠ InstanceStateRunning) ∧
      ∀ x, syncProcessState h m spec x inst =
        resetInstanceErrorCondition
          { x with CurrentState := f x.Started, CurrentImage := "", IP := "", StorageIP := "",
                   Port := 0, UblkID := 0, UUID := "" } := by
  by_cases c1 : inst.Status.State = InstanceStateStarting
  · refine ⟨fun _ => InstanceStateStarting, fun _ => by simp +decide, fun x => ?_⟩
    unfold syncProcessState
    rw [if_pos c1]
  by_cases c3 : inst.Status.State = InstanceStateStopping
  · refine ⟨fun b => if b then InstanceStateError else InstanceStateStopping,
      fun b => by cases b <;> decide, fun x => ?_⟩
    unfold syncProcessState
    rw [if_neg c1, if_neg hrun, if_pos c3]
  by_cases c4 : inst.Status.State = InstanceStateStopped
  · refine ⟨fun b => if b then InstanceStateError else InstanceStateStopped,
      fun b => by cases b <;> decide, fun x => ?_⟩
    unfold syncProcessState
    rw [if_neg c1, if_neg hrun, if_neg c3, if_pos c4]
  · refine ⟨fun _ => InstanceStateError, fun _ => by simp +decide, fun x => ?_⟩
    unfold syncProcessState
    rw [if_neg c1, if_neg hrun, if_neg c3, if_neg c4]

/-! ### The synthesis and the adjustment as a field plan -/

/-- Copying the process conditions is a sequence of `SetCondition` calls. -/
theorem syncInstanceCondition_eq (inst : InstanceProcess) (x : InstanceStatus) :
    syncInstanceCondition inst x =
      { x with
        Conditions := SetConditions
          (inst.Status.Conditions.map (fun cf =>
            ({ Type_ := cf.1, Status := if cf.2 then ConditionStatusTrue else ConditionStatusFalse,
               Reason := "", Message := "" } : Condition)))
          x.Conditions } := by
  unfold syncInstanceCondition SetConditions
  rw [List.foldl_map]

/-- The status synthesis follows a field plan fixed by the manager, the snapshot, the
value of `Started` and the entry state. -/
theorem sync_plan (h : InstanceHandler) (im : Option InstanceManager)
    (instanceName : String) (spec : InstanceSpec) (instances : InstanceMap)
    (st : Bool) (c : String) :
    ∃ p : FieldPlan, p.Idem ∧ (p.state = InstanceStateRunning → ∃ m, im = some m) ∧
      ∀ x : InstanceStatus, x.Started = st → x.CurrentState = c →
        syncStatusWithInstanceManager h im instanceName spec x instances = p.apply x := by
  rcases syncStatusBody_shape h im instanceName spec instances with
    hb | hb | ⟨hm, hb⟩ | ⟨m, inst, him, hb⟩
  · -- the manager is gone
    cases st with
    | true =>
      refine ⟨{ name := id, state := InstanceStateUnknown, image := id, ip := fun _ => "",
                storageIP := fun _ => "", port := fun _ => 0, ublkID := fun _ => 0,
                uuid := fun _ => "",
                ops := [⟨EngineConditionFilesystemReadOnly, ConditionStatusFalse, "", ""⟩] },
        ⟨fun _ => rfl, fun _ => rfl, fun _ => rfl, fun _ => rfl, fun _ => rfl, fun _ => rfl,
          fun _ => rfl⟩, fun hs => absurd hs (by decide), fun x hst _ => ?_⟩
      unfold syncStatusWithInstanceManager
      rw [syncDeferred_eq, hb x]
      simp +decide [syncManagerGone, resetInstanceErrorCondition, FieldPlan.apply, SetConditions,
        hst]
    | false =>
      refine ⟨{ name := fun _ => "", state := InstanceStateStopped, image := fun _ => "",
                ip := fun _ => "", storageIP := fun _ => "", port := fun _ => 0,
                ublkID := fun _ => 0, uuid := fun _ => "",
                ops := [⟨EngineConditionFilesystemReadOnly, ConditionStatusFalse, "", ""⟩] },
        ⟨fun _ => rfl, fun _ => rfl, fun _ => rfl, fun _ => rfl, fun _ => rfl, fun _ => rfl,
          fun _ => rfl⟩, fun hs => absurd hs (by decide), fun x hst _ => ?_⟩
      unfold syncStatusWithInstanceManager
      rw [syncDeferred_eq, hb x]
      simp +decide [syncManagerGone, resetInstanceErrorCondition, FieldPlan.apply, SetConditions,
        hst]
  · -- the process is gone
    cases st with
    | true =>
      refine ⟨{ name := id, state := InstanceStateError, image := fun _ => "",
                ip := fun _ => "", storageIP := fun _ => "", port := fun _ => 0,
                ublkID := fun _ => 0, uuid := fun _ => "",
                ops := [⟨EngineConditionFilesystemReadOnly, ConditionStatusFalse, "", ""⟩] },
        ⟨fun _ => rfl, fun _ => rfl, fun _ => rfl, fun _ => rfl, fun _ => rfl, fun _ => rfl,
          fun _ => rfl⟩, fun hs => absurd hs (by decide), fun x hst _ => ?_⟩
      unfold syncStatusWithInstanceManager
      rw [syncDeferred_eq, hb x]
      simp +decide [syncProcessGone, resetInstanceErrorCondition, FieldPlan.apply, SetConditions,
        hst]
    | false =>
      refine ⟨{ name := fun _ => "", state := InstanceStateStopped, image := fun _ => "",
                ip := fun _ => "", storageIP := fun _ => "", port := fun _ => 0,
                ublkID := fun _ => 0, uuid := fun _ => "",
                ops := [⟨EngineConditionFilesystemReadOnly, ConditionStatusFalse, "", ""⟩] },
        ⟨fun _ => rfl, fun _ => rfl, fun _ => rfl, fun _ => rfl, fun _ => rfl, fun _ => rfl,
          fun _ => rfl⟩, fun hs => absurd hs (by decide), fun x hst _ => ?_⟩
      unfold syncStatusWithInstanceManager
      rw [syncDeferred_eq, hb x]
      simp +decide [syncProcessGone, resetInstanceErrorCondition, FieldPlan.apply, SetConditions,
        hst]
  · -- the manager is starting
    cases st with
    | true =>
      refine ⟨{ name := id, state := InstanceStateError, image := fun _ => "",
                ip := fun _ => "", storageIP := fun _ => "", port := fun _ => 0,
                ublkID := fun _ => 0, uuid := fun _ => "",
                ops := [⟨EngineConditionFilesystemReadOnly, ConditionStatusFalse, "", ""⟩] },
        ⟨fun _ => rfl, fun _ => rfl, fun _ => rfl, fun _ => rfl, fun _ => rfl, fun _ => rfl,
          fun _ => rfl⟩, fun hs => absurd hs (by decide), fun x hst _ => ?_⟩
      unfold syncStatusWithInstanceManager
      rw [syncDeferred_eq, hb x]
      simp +decide [resetInstanceErrorCondition, FieldPlan.apply, SetConditions, hst]
    | false =>
      refine ⟨{ name := if c = InstanceStateStopped then fun _ => "" else id, state := c,
                image := id, ip := id, storageIP := id, port := id, ublkID := id, uuid := id,
                ops := [] },
        ⟨fun _ => by split_ifs <;> rfl, fun _ => rfl, fun _ => rfl, fun _ => rfl, fun _ => rfl,
          fun _ => rfl, fun _ => rfl⟩, fun _ => hm, fun x hst hx => ?_⟩
      unfold syncStatusWithInstanceManager
      rw [syncDeferred_eq, hb x]
      by_cases hc : c = InstanceStateStopped
      · simp +decide [FieldPlan.apply, SetConditions, hst, hx, hc]
      · simp +decide [FieldPlan.apply, SetConditions, hst, hx, hc]
  · -- the process is in the snapshot
    by_cases hrun : inst.Status.State = InstanceStateRunning
    · by_cases hp : ∃ pod, h.ds.GetPodRO m.Namespace m.Name = .ok (some pod)
      · obtain ⟨pod, hpod⟩ := hp
        refine ⟨{ name := fun _ => m.Name, state := InstanceStateRunning,
                  image := fun v => if v = "" then spec.Image else v,
                  ip := fun _ => m.Status.IP,
                  storageIP := fun _ => h.ds.GetStorageIPFromPod pod,
                  port := fun _ => inst.Status.PortStart,
                  ublkID := fun _ => inst.Status.UblkID,
                  uuid := fun _ => inst.Status.UUID,
                  ops := inst.Status.Conditions.map (fun cf =>
                    ({ Type_ := cf.1,
                       Status := if cf.2 then ConditionStatusTrue else ConditionStatusFalse,
                       Reason := "", Message := "" } : Condition)) },
          ⟨fun _ => rfl, fun v => ?_, fun _ => rfl, fun _ => rfl, fun _ => rfl, fun _ => rfl,
            fun _ => rfl⟩, fun _ => ⟨m, him⟩, fun x _ _ => ?_⟩
        · simp only
          by_cases hv : v = ""
          · rw [if_pos hv]; split_ifs <;> rfl
          · rw [if_neg hv, if_neg hv]
        · unfold syncStatusWithInstanceManager
          rw [syncDeferred_eq, hb x, syncProcessState_running_pod h m spec _ inst pod hrun hpod,
            syncInstanceCondition_eq]
          simp +decide [FieldPlan.apply]
      · refine ⟨{ name := fun _ => m.Name, state := InstanceStateRunning, image := id, ip := id,
                  storageIP := id, port := id, ublkID := id, uuid := id, ops := [] },
          ⟨fun _ => rfl, fun _ => rfl, fun _ => rfl, fun _ => rfl, fun _ => rfl, fun _ => rfl,
            fun _ => rfl⟩, fun _ => ⟨m, him⟩, fun x _ _ => ?_⟩
        unfold syncStatusWithInstanceManager
        rw [syncDeferred_eq, hb x, syncProcessState_running_nopod h m spec _ inst hrun
          (fun pod hpod => hp ⟨pod, hpod⟩)]
        simp +decide [FieldPlan.apply, SetConditions]
    · obtain ⟨f, hf, hsps⟩ := syncProcessState_not_running_shape h m spec inst hrun
      refine ⟨{ name := fun _ => if f st = InstanceStateStopped then "" else m.Name,
                state := f st, image := fun _ => "", ip := fun _ => "",
                storageIP := fun _ => "", port := fun _ => 0, ublkID := fun _ => 0,
                uuid := fun _ => "",
                ops := [⟨EngineConditionFilesystemReadOnly, ConditionStatusFalse, "", ""⟩] },
        ⟨fun _ => rfl, fun _ => rfl, fun _ => rfl, fun _ => rfl, fun _ => rfl, fun _ => rfl,
          fun _ => rfl⟩, fun hs => absurd hs (hf st), fun x hst _ => ?_⟩
      unfold syncStatusWithInstanceManager
      rw [syncDeferred_eq, hb x, hsps]
      simp +decide [resetInstanceErrorCondition, FieldPlan.apply, SetConditions, hst]

/-- The post-state adjustment turns a field plan into a field plan. -/
theorem adjust_plan (im : Option InstanceManager) (instanceName : String)
    (spec : InstanceSpec) (instances : InstanceMap) (p : FieldPlan)
    (hm : p.state = InstanceStateRunning → ∃ m, im = some m) :
    ∃ q : FieldPlan, (p.Idem → q.Idem) ∧
      ∀ x : InstanceStatus,
        (postStateAdjust im instanceName spec (p.apply x) instances).1 = q.apply x := by
  by_cases c1 : p.state = InstanceStateRunning
  · obtain ⟨m, rfl⟩ := hm c1
    by_cases c2 : spec.DesireState ≠ InstanceStateStopped
    · by_cases c3 : spec.NodeID ≠ m.Spec.NodeID
      · refine ⟨{ p with state := InstanceStateError, ip := fun _ => "",
                         storageIP := fun _ => "" }, fun hp => ?_, fun x => ?_⟩
        · obtain ⟨h1, h2, _, _, h5, h6, h7⟩ := hp
          exact ⟨h1, h2, fun _ => rfl, fun _ => rfl, h5, h6, h7⟩
        · have c1x : (p.apply x).CurrentState = InstanceStateRunning := c1
          unfold postStateAdjust
          rw [if_pos c1x, if_pos c2]
          simp only
          rw [if_pos c3]
          rfl
      · refine ⟨p, id, fun x => ?_⟩
        have c1x : (p.apply x).CurrentState = InstanceStateRunning := c1
        unfold postStateAdjust
        rw [if_pos c1x, if_pos c2]
        simp only
        rw [if_neg c3]
    · refine ⟨p, id, fun x => ?_⟩
      have c1x : (p.apply x).CurrentState = InstanceStateRunning := c1
      unfold postStateAdjust
      rw [if_pos c1x, if_neg c2]
  · by_cases c2 : p.state = InstanceStateError
    · cases im with
      | none =>
        refine ⟨p, id, fun x => ?_⟩
        have c1x : ¬ (p.apply x).CurrentState = InstanceStateRunning := c1
        have c2x : (p.apply x).CurrentState = InstanceStateError := c2
        unfold postStateAdjust
        rw [if_neg c1x, if_pos c2x]
      | some m =>
        cases hl : instances.lookup instanceName with
        | none =>
          refine ⟨p, id, fun x => ?_⟩
          have c1x : ¬ (p.apply x).CurrentState = InstanceStateRunning := c1
          have c2x : (p.apply x).CurrentState = InstanceStateError := c2
          unfold postStateAdjust
          rw [if_neg c1x, if_pos c2x]
          simp only [hl]
        | some inst =>
          by_cases c3 : spec.DesireState = InstanceStateRunning
          · refine ⟨{ p with ops := p.ops ++
                [⟨InstanceConditionTypeInstanceCreation, ConditionStatusFalse,
                  InstanceConditionReasonInstanceCreationFailure, inst.Status.ErrorMsg⟩] },
              fun hp => hp, fun x => ?_⟩
            have c1x : ¬ (p.apply x).CurrentState = InstanceStateRunning := c1
            have c2x : (p.apply x).CurrentState = InstanceStateError := c2
            unfold postStateAdjust
            rw [if_neg c1x, if_pos c2x]
            simp only [hl]
            rw [if_pos c3]
            simp only [FieldPlan.apply, SetConditions_append]
            rfl
          · refine ⟨p, id, fun x => ?_⟩
            have c1x : ¬ (p.apply x).CurrentState = InstanceStateRunning := c1
            have c2x : (p.apply x).CurrentState = InstanceStateError := c2
            unfold postStateAdjust
            rw [if_neg c1x, if_pos c2x]
            simp only [hl]
            rw [if_neg c3]
    · refine ⟨p, id, fun x => ?_⟩
      rw [postStateAdjust_other im instanceName spec (p.apply x) instances c1 c2]

/-- The status synthesis followed by the post-state adjustment follows an idempotent field
plan fixed by the manager, the snapshot, the spec, the value of `Started` and the entry
state. -/
theorem synthesis_plan (h : InstanceHandler) (im : Option InstanceManager)
    (instanceName : String) (spec : InstanceSpec) (instances : InstanceMap)
    (st : Bool) (c : String) :
    ∃ p : FieldPlan, p.Idem ∧
      ∀ x : InstanceStatus, x.Started = st → x.CurrentState = c →
        (postStateAdjust im instanceName spec
          (syncStatusWithInstanceManager h im instanceName spec x instances) instances).1
          = p.apply x := by
  obtain ⟨p, hp, hm, hs⟩ := sync_plan h im instanceName spec instances st c
  obtain ⟨q, hq, ha⟩ := adjust_plan im instanceName spec instances p hm
  exact ⟨q, hq hp, fun x hst hx => by rw [hs x hst hx, ha x]⟩

/-! ### The two reconciles -/

/-- The one-shot intents settle in one pass. -/
theorem applyIntents_idem (im : Option InstanceManager) (spec : InstanceSpec)
    (s : InstanceStatus) :
    (applyIntents im spec (applyIntents im spec s).1).1 = (applyIntents im spec s).1 := by
  rw [applyIntents_status, applyIntents_status]
  have hc := SetConditions_idem
    [⟨InstanceConditionTypeInstanceCreation, ConditionStatusTrue, "", ""⟩] s.Conditions
  have hc2 : SetCondition
      (SetCondition s.Conditions InstanceConditionTypeInstanceCreation ConditionStatusTrue "" "")
      InstanceConditionTypeInstanceCreation ConditionStatusTrue "" ""
      = SetCondition s.Conditions InstanceConditionTypeInstanceCreation ConditionStatusTrue
        "" "" := hc
  simp only [hc2, Bool.and_assoc, Bool.and_self]

/-- The return path of a reconcile up to the switch on `DesireState` is the same for every
status with the same `InstanceManagerName`. -/
theorem reconcile_paths_congr (h : InstanceHandler) (obj : Obj) (spec : InstanceSpec)
    (s : InstanceStatus) :
    (∀ t : InstanceStatus, t.InstanceManagerName = s.InstanceManagerName →
      (ReconcileInstanceState h obj spec t).status = t) ∨
    (∃ im, ∀ t : InstanceStatus, t.InstanceManagerName = s.InstanceManagerName →
      (ReconcileInstanceState h obj spec t).status = (applyIntents im spec t).1) ∨
    (∃ instanceName im instances, ∀ t : InstanceStatus,
      t.InstanceManagerName = s.InstanceManagerName →
      ReachesPhaseD h obj spec t instanceName im instances) := by
  by_cases c1 : obj.isRuntimeObject = false
  · left; intro t _; simp [ReconcileInstanceState, c1]
  have c1t : obj.isRuntimeObject = true := by simpa using c1
  cases c2 : getNameFromObj obj with
  | error e => left; intro t _; simp [ReconcileInstanceState, c1, c2]
  | ok instanceName =>
    cases c3 : resolveInstanceManager h obj spec s with
    | stop err =>
      left; intro t ht
      have c3t := (resolveInstanceManager_congr h obj spec s t ht).trans c3
      simp [ReconcileInstanceState, c1, c2, c3t]
    | manager im =>
      cases c4 : snapshotInstances h obj im with
      | error e =>
        right; left
        refine ⟨im, fun t ht => ?_⟩
        have c3t := (resolveInstanceManager_congr h obj spec s t ht).trans c3
        simp [ReconcileInstanceState, c1, c2, c3t, c4]
      | ok instances =>
        right; right
        exact ⟨instanceName, im, instances, fun t ht =>
          ⟨c1t, c2, (resolveInstanceManager_congr h obj spec s t ht).trans c3, c4⟩⟩

/-- The status after the intents, in closed form. -/
theorem applyIntents_latch (im : Option InstanceManager) (spec : InstanceSpec)
    (status : InstanceStatus) : (applyIntents im spec status).1 = latchIntents spec status :=
  applyIntents_status im spec status

/-- A second pass of intents, desire update and idempotent field plan over the result of a
first pass reproduces that result. -/
theorem plan_round_trip (p : FieldPlan) (hp : p.Idem) (spec : InstanceSpec)
    (started : Option Bool) (salv : Bool) (hsalv : salv = true → spec.SalvageRequested = true)
    (status : InstanceStatus) :
    p.apply (settleDesire started salv (latchIntents spec
        (p.apply (settleDesire started salv (latchIntents spec status))))) =
      p.apply (settleDesire started salv (latchIntents spec status)) := by
  obtain ⟨h1, h2, h3, h4, h5, h6, h7⟩ := hp
  have hgd : started.getD (started.getD status.Started) = started.getD status.Started := by
    cases started <;> rfl
  have hse : (salv || (salv || status.SalvageExecuted && spec.SalvageRequested) &&
      spec.SalvageRequested) = (salv || status.SalvageExecuted && spec.SalvageRequested) := by
    cases hs : salv
    · cases status.SalvageExecuted <;> cases spec.SalvageRequested <;> rfl
    · rw [hsalv hs]; rfl
  have hc := SetConditions_idem
    (⟨InstanceConditionTypeInstanceCreation, ConditionStatusTrue, "", ""⟩ :: p.ops)
    status.Conditions
  have hc2 : SetConditions p.ops
      (SetCondition
        (SetConditions p.ops
          (SetCondition status.Conditions InstanceConditionTypeInstanceCreation
            ConditionStatusTrue "" ""))
        InstanceConditionTypeInstanceCreation ConditionStatusTrue "" "") =
      SetConditions p.ops
        (SetCondition status.Conditions InstanceConditionTypeInstanceCreation
          ConditionStatusTrue "" "") := hc
  simp only [FieldPlan.apply, settleDesire, latchIntents, h1, h2, h3, h4, h5, h6, h7, hgd, hse,
    hc2]


/-- C5, counterexample: the zero-value status under a spec that requests salvage, with a
running manager that does not host the process and an adapter that reports `NotFound`: the
first reconcile only marks the instance `Stopped`, the second one creates the process and
sets `SalvageExecuted`, so the status after the second call differs from the status after
the first. -/
theorem second_reconcile_sets_salvage :
    (ReconcileInstanceState
        (handlerOf (managerOf InstanceManagerStateRunning []) (.ok (some managerPod))
          (some notFoundError))
        engineObj (specOf "n1" "img" DataEngineTypeV1 InstanceStateRunning true)
        (ReconcileInstanceState
          (handlerOf (managerOf InstanceManagerStateRunning []) (.ok (some managerPod))
            (some notFoundError))
          engineObj (specOf "n1" "img" DataEngineTypeV1 InstanceStateRunning true)
          InstanceStatus.zero).status).status ≠
      (ReconcileInstanceState
        (handlerOf (managerOf InstanceManagerStateRunning []) (.ok (some managerPod))
          (some notFoundError))
        engineObj (specOf "n1" "img" DataEngineTypeV1 InstanceStateRunning true)
        InstanceStatus.zero).status := by
  decide

/-- C5, amended: for every spec, every input status and every fixed external environment,
if the first call of `ReconcileInstanceState` leaves `CurrentState` and
`InstanceManagerName` as they were on entry, then a second call on the resulting status
changes nothing: the status after the second call equals the status after the first, field
for field. -/
theorem reconcile_idempotent_when_settled (h : InstanceHandler) (obj : Obj)
    (spec : InstanceSpec) (status : InstanceStatus)
    (hstate : (ReconcileInstanceState h obj spec status).status.CurrentState
      = status.CurrentState)
    (hname : (ReconcileInstanceState h obj spec status).status.InstanceManagerName
      = status.InstanceManagerName) :
    (ReconcileInstanceState h obj spec (ReconcileInstanceState h obj spec status).status).status
      = (ReconcileInstanceState h obj spec status).status := by
  rcases reconcile_paths_congr h obj spec status with
    hE | ⟨im, hS⟩ | ⟨instanceName, im, instances, hR⟩
  · have e0 := hE status rfl
    rw [e0]
    exact e0
  · have e0 := hS status rfl
    have hn : (applyIntents im spec status).1.InstanceManagerName
        = status.InstanceManagerName := by rw [applyIntents_status]
    rw [e0, hS _ hn, applyIntents_idem]
  · obtain ⟨started, salv, e, eff, hsalv, herr, -, -, hD⟩ :=
      actOnDesireState_shape h obj im instanceName spec instances status.CurrentState
    have hb0 : (applyIntents im spec status).1.CurrentState = status.CurrentState := by
      rw [applyIntents_status]
    have hn0 : (applyIntents im spec status).1.InstanceManagerName
        = status.InstanceManagerName := by rw [applyIntents_status]
    have hact0 := hD _ hb0
    cases e with
    | some err =>
      obtain ⟨rfl, rfl⟩ := herr (by simp)
      have hs1 : (ReconcileInstanceState h obj spec status).status
          = (applyIntents im spec status).1 := by
        rw [reconcile_phaseD_error h obj spec status instanceName im instances (hR status rfl)
          _ err eff hact0]
        rfl
      rw [hs1]
      have hact1 := hD (applyIntents im spec (applyIntents im spec status).1).1
        (by rw [applyIntents_idem]; exact hb0)
      rw [reconcile_phaseD_error h obj spec _ instanceName im instances (hR _ hn0) _ err eff
        hact1]
      exact applyIntents_idem im spec status
    | none =>
      obtain ⟨p, hp, hQ⟩ := synthesis_plan h im instanceName spec instances
        (started.getD status.Started) status.CurrentState
      -- the first call
      have hs1 : (ReconcileInstanceState h obj spec status).status =
          p.apply (settleDesire started salv (latchIntents spec status)) := by
        rw [reconcile_synthesis h obj spec status instanceName im instances (hR status rfl)
          _ eff hact0, applyIntents_latch]
        exact hQ _ rfl rfl
      rw [hs1] at hstate hname ⊢
      -- the second call
      have hact1 := hD (applyIntents im spec
        (p.apply (settleDesire started salv (latchIntents spec status)))).1
        (by rw [applyIntents_latch]; exact hstate)
      rw [reconcile_synthesis h obj spec _ instanceName im instances (hR _ hname) _ eff hact1,
        applyIntents_latch]
      have hgd : started.getD (started.getD status.Started) = started.getD status.Started := by
        cases started <;> rfl
      have h2 := hQ (settleDesire started salv (latchIntents spec
        (p.apply (settleDesire started salv (latchIntents spec status))))) hgd hstate
      exact h2.trans (plan_round_trip p hp spec started salv hsalv status)

/-- C5, witness: the running instance of scenario S4 is settled: the first reconcile keeps
`CurrentState` and `InstanceManagerName`, and a second reconcile reproduces the status. -/
theorem reconcile_idempotent_when_settled_witness :
    ((ReconcileInstanceState runningHandler engineObj runningSpec
        upgradingStatus).status.CurrentState = upgradingStatus.CurrentState ∧
      (ReconcileInstanceState runningHandler engineObj runningSpec
        upgradingStatus).status.InstanceManagerName = upgradingStatus.InstanceManagerName) ∧
    (ReconcileInstanceState runningHandler engineObj runningSpec
        (ReconcileInstanceState runningHandler engineObj runningSpec
          upgradingStatus).status).status =
      (ReconcileInstanceState runningHandler engineObj runningSpec upgradingStatus).status :=
  ⟨⟨by decide, by decide⟩,
    reconcile_idempotent_when_settled runningHandler engineObj runningSpec upgradingStatus
      (by decide) (by decide)⟩

/-! ## The adapter calls of a reconcile -/

/-- Past phase C, every adapter call other than `LogInstance` comes from the switch on
`DesireState`. -/
theorem reconcile_effects_iff (h : InstanceHandler) (obj : Obj) (spec : InstanceSpec)
    (status : InstanceStatus) (instanceName : String) (im : Option InstanceManager)
    (instances : InstanceMap) (hr : ReachesPhaseD h obj spec status instanceName im instances)
    (e : Effect) (hne : e ≠ Effect.logInstance) :
    e ∈ (ReconcileInstanceState h obj spec status).effects ↔
      e ∈ (actOnDesireState h obj im instanceName spec (applyIntents im spec status).1
        instances).2.2 := by
  generalize hact : actOnDesireState h obj im instanceName spec (applyIntents im spec status).1
    instances = act
  obtain ⟨st, err, effects⟩ := act
  have hi := applyIntents_effects im spec status e
  cases err with
  | some err =>
    rw [reconcile_phaseD_error h obj spec status instanceName im instances hr st err effects hact]
    simp only [List.mem_append]
    constructor
    · rintro (h1 | h1)
      · exact absurd (hi h1) hne
      · exact h1
    · exact Or.inr
  | none =>
    rw [reconcile_synthesis h obj spec status instanceName im instances hr st effects hact]
    have hp := postStateAdjust_effects im instanceName spec
      (syncStatusWithInstanceManager h im instanceName spec st instances) instances e
    simp only [List.mem_append]
    constructor
    · rintro ((h1 | h1) | h1)
      · exact absurd (hi h1) hne
      · exact h1
      · exact absurd (hp h1) hne
    · intro h1; exact Or.inl (Or.inr h1)

/-- Past phase C, `Started` and `SalvageExecuted` at return are those the switch on
`DesireState` left. -/
theorem reconcile_latches (h : InstanceHandler) (obj : Obj) (spec : InstanceSpec)
    (status : InstanceStatus) (instanceName : String) (im : Option InstanceManager)
    (instances : InstanceMap) (hr : ReachesPhaseD h obj spec status instanceName im instances) :
    (ReconcileInstanceState h obj spec status).status.Started =
      (actOnDesireState h obj im instanceName spec (applyIntents im spec status).1
        instances).1.Started ∧
    (ReconcileInstanceState h obj spec status).status.SalvageExecuted =
      (actOnDesireState h obj im instanceName spec (applyIntents im spec status).1
        instances).1.SalvageExecuted := by
  generalize hact : actOnDesireState h obj im instanceName spec (applyIntents im spec status).1
    instances = act
  obtain ⟨st, err, effects⟩ := act
  cases err with
  | some err =>
    rw [reconcile_phaseD_error h obj spec status instanceName im instances hr st err effects hact]
    exact ⟨rfl, rfl⟩
  | none =>
    rw [reconcile_synthesis h obj spec status instanceName im instances hr st effects hact]
    obtain ⟨p1, _, p3, _, _⟩ := postStateAdjust_frame im instanceName spec
      (syncStatusWithInstanceManager h im instanceName spec st instances) instances
    obtain ⟨s1, _, s3⟩ := sync_frame h im instanceName spec st instances
    exact ⟨p1.trans s1, p3.trans s3⟩

/-- The outcomes of `createInstance`, by the answers of the adapter. -/
theorem createInstance_cases (h : InstanceHandler) (dataEngine : String) (obj : Obj) :
    (h.instanceManagerHandler.GetInstance obj = none ∧
      createInstance h dataEngine obj = (none, [Effect.getInstance])) ∨
    (∃ e, h.instanceManagerHandler.GetInstance obj = some e ∧
      e.isNotFound = false ∧ ¬ (IsDataEngineV2 dataEngine = true ∧ e.isStopped = true) ∧
      createInstance h dataEngine obj = (some (.getInstance e), [Effect.getInstance])) ∨
    (∃ e, h.instanceManagerHandler.GetInstance obj = some e ∧
      (e.isNotFound = true ∨ (IsDataEngineV2 dataEngine = true ∧ e.isStopped = true)) ∧
      ((h.instanceManagerHandler.CreateInstance obj = none ∧
          createInstance h dataEngine obj =
            (none, [Effect.getInstance, Effect.createInstance,
              Effect.event EventReasonStart])) ∨
        (∃ c, h.instanceManagerHandler.CreateInstance obj = some c ∧ c.alreadyExists = true ∧
          createInstance h dataEngine obj =
            (none, [Effect.getInstance, Effect.createInstance])) ∨
        (∃ c, h.instanceManagerHandler.CreateInstance obj = some c ∧ c.alreadyExists = false ∧
          createInstance h dataEngine obj =
            (some (.createInstance c), [Effect.getInstance, Effect.createInstance,
              Effect.event EventReasonFailedStarting])))) := by
  cases hg : h.instanceManagerHandler.GetInstance obj with
  | none => left; exact ⟨rfl, by simp [createInstance, hg]⟩
  | some e =>
    right
    by_cases hc : e.isNotFound = false ∧ ¬ (IsDataEngineV2 dataEngine = true ∧ e.isStopped = true)
    · left
      refine ⟨e, rfl, hc.1, hc.2, ?_⟩
      have hc2 := hc.2
      simp only [not_and, Bool.not_eq_true] at hc2
      cases hv : IsDataEngineV2 dataEngine <;> cases hs : e.isStopped <;>
        simp_all [createInstance]
    · right
      have hc1 : e.isNotFound = true ∨ (IsDataEngineV2 dataEngine = true ∧ e.isStopped = true) := by
        by_contra hcon
        rw [not_or] at hcon
        exact hc ⟨by simpa using hcon.1, hcon.2⟩
      refine ⟨e, rfl, hc1, ?_⟩
      have hguard : ¬ ((!e.isNotFound && !(IsDataEngineV2 dataEngine && e.isStopped)) = true) := by
        rcases hc1 with h1 | ⟨h1, h2⟩
        · simp [h1]
        · simp [h1, h2]
      cases hcr : h.instanceManagerHandler.CreateInstance obj with
      | none =>
        left
        refine ⟨rfl, ?_⟩
        unfold createInstance
        rw [hg]
        simp only
        rw [if_neg hguard, hcr]
      | some c =>
        right
        by_cases ha : c.alreadyExists = true
        · left
          refine ⟨c, rfl, ha, ?_⟩
          unfold createInstance
          rw [hg]
          simp only
          rw [if_neg hguard, hcr]
          simp [ha]
        · right
          have ha2 : c.alreadyExists = false := by simpa using ha
          refine ⟨c, rfl, ha2, ?_⟩
          unfold createInstance
          rw [hg]
          simp only
          rw [if_neg hguard, hcr]
          simp [ha2]

/-- The creation path always starts with `GetInstance` and never calls `DeleteInstance`. -/
theorem createInstance_effects (h : InstanceHandler) (dataEngine : String) (obj : Obj) :
    Effect.getInstance ∈ (createInstance h dataEngine obj).2 ∧
    Effect.deleteInstance ∉ (createInstance h dataEngine obj).2 := by
  rcases createInstance_cases h dataEngine obj with ⟨_, hc⟩ | ⟨e, _, _, _, hc⟩ |
    ⟨e, _, _, ⟨_, hc⟩ | ⟨c, _, _, hc⟩ | ⟨c, _, _, hc⟩⟩ <;> rw [hc] <;> simp

/-- The `Running` arm of the switch on `DesireState` (source lines 364-388). -/
theorem actOnDesireState_running (h : InstanceHandler) (obj : Obj)
    (im : Option InstanceManager) (instanceName : String) (spec : InstanceSpec)
    (x : InstanceStatus) (instances : InstanceMap)
    (hd : spec.DesireState = InstanceStateRunning) :
    ((im = none ∨ (processRunning instances instanceName = false ∧
          x.CurrentState ≠ InstanceStateStopped)) ∧
      actOnDesireState h obj im instanceName spec x instances = (x, none, [])) ∨
    ((∃ m, im = some m) ∧ processRunning instances instanceName = true ∧
      actOnDesireState h obj im instanceName spec x instances =
        ({ x with Started := true }, none, [])) ∨
    ((∃ m, im = some m) ∧ processRunning instances instanceName = false ∧
      x.CurrentState = InstanceStateStopped ∧
      actOnDesireState h obj im instanceName spec x instances =
        (if (createInstance h spec.DataEngine obj).1 = none ∧ spec.SalvageRequested = true
          then { x with SalvageExecuted := true } else x,
         (createInstance h spec.DataEngine obj).1, (createInstance h spec.DataEngine obj).2)) := by
  unfold actOnDesireState
  rw [if_pos hd]
  cases im with
  | none => left; exact ⟨Or.inl rfl, rfl⟩
  | some m =>
    simp only
    by_cases hrun : processRunning instances instanceName = true
    · right; left
      rw [if_pos hrun]
      exact ⟨⟨m, rfl⟩, hrun, rfl⟩
    · rw [if_neg hrun]
      have hrun2 : processRunning instances instanceName = false := by simpa using hrun
      by_cases hc : x.CurrentState ≠ InstanceStateStopped
      · left
        rw [if_pos hc]
        exact ⟨Or.inr ⟨hrun2, hc⟩, rfl⟩
      · right; right
        rw [if_neg hc]
        refine ⟨⟨m, rfl⟩, hrun2, by simpa using hc, ?_⟩
        generalize createInstance h spec.DataEngine obj = cr
        obtain ⟨ce, ceff⟩ := cr
        cases ce with
        | some err => simp
        | none =>
          by_cases hs : spec.SalvageRequested = true
          · simp [hs]
          · simp [hs]

/-! ## C11: the creation path -/

/-- C11: for every reconcile that reaches phase D with `spec.DesireState == Running`: the
creation path (`createInstance`, which starts with `GetInstance`) is entered if and only if a
manager was resolved, the snapshot does not contain the instance in state `Running`, and
`status.CurrentState` on entry is `Stopped`; when no manager was resolved neither
`CreateInstance` nor `DeleteInstance` is invoked and `Started` is as on entry; and a
`SalvageExecuted` that phase B left false is true at return only when the creation path was
entered and returned success and `spec.SalvageRequested` is true. -/
theorem creation_path_entered_iff (h : InstanceHandler) (obj : Obj) (spec : InstanceSpec)
    (status : InstanceStatus) (instanceName : String) (im : Option InstanceManager)
    (instances : InstanceMap) (hr : ReachesPhaseD h obj spec status instanceName im instances)
    (hd : spec.DesireState = InstanceStateRunning) :
    (Effect.getInstance ∈ (ReconcileInstanceState h obj spec status).effects ↔
      (∃ m, im = some m) ∧
      (¬ ∃ inst, instances.lookup instanceName = some inst ∧
          inst.Status.State = InstanceStateRunning) ∧
      status.CurrentState = InstanceStateStopped) ∧
    (im = none →
      Effect.createInstance ∉ (ReconcileInstanceState h obj spec status).effects ∧
      Effect.deleteInstance ∉ (ReconcileInstanceState h obj spec status).effects ∧
      (ReconcileInstanceState h obj spec status).status.Started = status.Started) ∧
    ((applyIntents im spec status).1.SalvageExecuted = false →
      (ReconcileInstanceState h obj spec status).status.SalvageExecuted = true →
      Effect.getInstance ∈ (ReconcileInstanceState h obj spec status).effects ∧
      (createInstance h spec.DataEngine obj).1 = none ∧ spec.SalvageRequested = true) := by
  have hget := reconcile_effects_iff h obj spec status instanceName im instances hr
    Effect.getInstance (by simp)
  have hcre := reconcile_effects_iff h obj spec status instanceName im instances hr
    Effect.createInstance (by simp)
  have hdel := reconcile_effects_iff h obj spec status instanceName im instances hr
    Effect.deleteInstance (by simp)
  obtain ⟨hst, hsal⟩ := reconcile_latches h obj spec status instanceName im instances hr
  have hcs : (applyIntents im spec status).1.CurrentState = status.CurrentState := by
    rw [applyIntents_status]
  have hbs : (applyIntents im spec status).1.Started = status.Started := by
    rw [applyIntents_status]
  rw [hget, hcre, hdel, hst, hsal, ← processRunning_iff, ← hcs, ← hbs]
  generalize (applyIntents im spec status).1 = x
  rcases actOnDesireState_running h obj im instanceName spec x instances hd with
    ⟨hc, ha⟩ | ⟨hm, hrun, ha⟩ | ⟨hm, hrun, hc, ha⟩
  · rw [ha]
    refine ⟨?_, fun _ => ⟨by simp, by simp, rfl⟩, ?_⟩
    · constructor
      · intro hmem; simp at hmem
      · rintro ⟨⟨m, hm⟩, hrun, hstop⟩
        rcases hc with hc | ⟨_, hc⟩
        · rw [hm] at hc; cases hc
        · exact absurd hstop hc
    · intro h1 h2
      rw [h1] at h2
      cases h2
  · rw [ha]
    refine ⟨?_, ?_, ?_⟩
    · constructor
      · intro hmem; simp at hmem
      · rintro ⟨_, hnot, _⟩
        exact absurd hrun hnot
    · intro hnone
      obtain ⟨m, hm⟩ := hm
      rw [hm] at hnone
      cases hnone
    · intro h1 h2
      simp only at h2
      rw [h1] at h2
      cases h2
  · rw [ha]
    have hce := createInstance_effects h spec.DataEngine obj
    refine ⟨?_, ?_, ?_⟩
    · constructor
      · intro _
        exact ⟨hm, by simp [hrun], hc⟩
      · intro _
        exact hce.1
    · intro hnone
      obtain ⟨m, hm⟩ := hm
      rw [hm] at hnone
      cases hnone
    · intro h1 h2
      simp only at h2
      by_cases hcond : (createInstance h spec.DataEngine obj).1 = none ∧
          spec.SalvageRequested = true
      · exact ⟨hce.1, hcond.1, hcond.2⟩
      · rw [if_neg hcond, h1] at h2
        cases h2

/-- C11, witness: a stopped status, a running manager without the process, `GetInstance`
reporting not-found: the reconcile reaches phase D with desire `Running`, enters the creation
path and sets `SalvageExecuted`. -/
theorem creation_path_entered_iff_witness :
    (ReachesPhaseD creatingHandler engineObj salvageSpec stoppedStatus "e1" (some emptyManager) []
      ∧ salvageSpec.DesireState = InstanceStateRunning) ∧
    Effect.getInstance ∈
      (ReconcileInstanceState creatingHandler engineObj salvageSpec stoppedStatus).effects ∧
    (ReconcileInstanceState creatingHandler engineObj salvageSpec
      stoppedStatus).status.SalvageExecuted = true :=
  ⟨⟨⟨rfl, rfl, rfl, rfl⟩, rfl⟩,
    (creation_path_entered_iff creatingHandler engineObj salvageSpec stoppedStatus "e1"
      (some emptyManager) [] ⟨rfl, rfl, rfl, rfl⟩ rfl).1.mpr
      ⟨⟨emptyManager, rfl⟩, by simp, rfl⟩,
    by decide⟩

/-- The `Stopped` arm of the switch on `DesireState` (source lines 390-402). -/
theorem actOnDesireState_stopped (h : InstanceHandler) (obj : Obj)
    (im : Option InstanceManager) (instanceName : String) (spec : InstanceSpec)
    (x : InstanceStatus) (instances : InstanceMap)
    (hd : spec.DesireState = InstanceStateStopped) :
    (deleteIfPresent h obj im instanceName instances = (none, []) ∧
      actOnDesireState h obj im instanceName spec x instances =
        ({ x with Started := false }, none, [])) ∨
    (h.instanceManagerHandler.DeleteInstance obj = none ∧
      actOnDesireState h obj im instanceName spec x instances =
        ({ x with Started := false }, none,
          [Effect.deleteInstance, Effect.event EventReasonStop])) ∨
    (∃ err, h.instanceManagerHandler.DeleteInstance obj = some err ∧
      actOnDesireState h obj im instanceName spec x instances =
        (x, some (.deleteInstance err),
          [Effect.deleteInstance, Effect.event EventReasonFailedStopping])) := by
  have hne : ¬ spec.DesireState = InstanceStateRunning := by rw [hd]; decide
  have hdel : deleteIfPresent h obj im instanceName instances = (none, []) ∨
      deleteIfPresent h obj im instanceName instances = deleteInstance h obj := by
    unfold deleteIfPresent
    cases im with
    | none => left; rfl
    | some m =>
      simp only
      by_cases c1 : m.DeletionTimestamp = none
      · rw [if_pos c1]
        cases instances.lookup instanceName with
        | none => left; rfl
        | some inst =>
          simp only
          by_cases c2 : shouldDeleteInstance inst = true
          · rw [if_pos c2]; right; rfl
          · rw [if_neg c2]; left; rfl
      · rw [if_neg c1]; left; rfl
  unfold actOnDesireState
  rw [if_neg hne, if_pos hd]
  rcases hdel with hdel | hdel
  · left
    rw [hdel]
    exact ⟨rfl, rfl⟩
  · right
    rw [hdel]
    unfold deleteInstance
    cases hx : h.instanceManagerHandler.DeleteInstance obj with
    | none => left; exact ⟨rfl, rfl⟩
    | some err => right; exact ⟨err, rfl, rfl⟩

/-! ## C13: the outcome of `createInstance` -/

/-- C13: the outcome of `createInstance` as a function of the adapter's results: if
`GetInstance` succeeds it returns success after that single call, without an event; if
`GetInstance` fails with not-found, or with stopped while the data engine is V2, it calls
`CreateInstance` exactly once and returns success with exactly one `Start` event when
`CreateInstance` succeeds, success with no event when it reports already-exists, and the
error with one `FailedStarting` event otherwise; for every other `GetInstance` error,
including stopped on a V1 data engine, it returns an error without calling
`CreateInstance`. -/
theorem createInstance_outcome (h : InstanceHandler) (dataEngine : String) (obj : Obj) :
    (h.instanceManagerHandler.GetInstance obj = none →
      createInstance h dataEngine obj = (none, [Effect.getInstance])) ∧
    (∀ e, h.instanceManagerHandler.GetInstance obj = some e →
      (e.isNotFound = true ∨ (IsDataEngineV2 dataEngine = true ∧ e.isStopped = true)) →
      (h.instanceManagerHandler.CreateInstance obj = none →
        createInstance h dataEngine obj =
          (none, [Effect.getInstance, Effect.createInstance,
            Effect.event EventReasonStart])) ∧
      (∀ c, h.instanceManagerHandler.CreateInstance obj = some c → c.alreadyExists = true →
        createInstance h dataEngine obj =
          (none, [Effect.getInstance, Effect.createInstance])) ∧
      (∀ c, h.instanceManagerHandler.CreateInstance obj = some c → c.alreadyExists = false →
        createInstance h dataEngine obj =
          (some (.createInstance c), [Effect.getInstance, Effect.createInstance,
            Effect.event EventReasonFailedStarting]))) ∧
    (∀ e, h.instanceManagerHandler.GetInstance obj = some e → e.isNotFound = false →
      ¬ (IsDataEngineV2 dataEngine = true ∧ e.isStopped = true) →
      createInstance h dataEngine obj = (some (.getInstance e), [Effect.getInstance])) ∧
    (∀ e, h.instanceManagerHandler.GetInstance obj = some e → e.isNotFound = false →
      IsDataEngineV1 dataEngine = true → e.isStopped = true →
      createInstance h dataEngine obj = (some (.getInstance e), [Effect.getInstance])) := by
  have hall := createInstance_cases h dataEngine obj
  have hother : ∀ e, h.instanceManagerHandler.GetInstance obj = some e → e.isNotFound = false →
      ¬ (IsDataEngineV2 dataEngine = true ∧ e.isStopped = true) →
      createInstance h dataEngine obj = (some (.getInstance e), [Effect.getInstance]) := by
    intro e hg hnf hns
    rcases hall with ⟨hg2, _⟩ | ⟨e2, hg2, _, _, hc⟩ | ⟨e2, hg2, hcond, _⟩
    · rw [hg] at hg2; cases hg2
    · rw [hg] at hg2; cases hg2; exact hc
    · rw [hg] at hg2; cases hg2
      rcases hcond with h1 | h1
      · rw [hnf] at h1; cases h1
      · exact absurd h1 hns
  refine ⟨?_, ?_, hother, ?_⟩
  · intro hg
    rcases hall with ⟨_, hc⟩ | ⟨e2, hg2, _⟩ | ⟨e2, hg2, _⟩
    · exact hc
    · rw [hg] at hg2; cases hg2
    · rw [hg] at hg2; cases hg2
  · intro e hg hcond
    rcases hall with ⟨hg2, _⟩ | ⟨e2, hg2, hnf, hns, _⟩ | ⟨e2, hg2, _, hsub⟩
    · rw [hg] at hg2; cases hg2
    · rw [hg] at hg2; cases hg2
      rcases hcond with h1 | h1
      · rw [hnf] at h1; cases h1
      · exact absurd h1 hns
    · rcases hsub with ⟨hcr, hc⟩ | ⟨c, hcr, ha, hc⟩ | ⟨c, hcr, ha, hc⟩
      · refine ⟨fun _ => hc, fun c2 hcr2 _ => ?_, fun c2 hcr2 _ => ?_⟩
        · rw [hcr] at hcr2; cases hcr2
        · rw [hcr] at hcr2; cases hcr2
      · refine ⟨fun hcr2 => ?_, fun c2 hcr2 _ => ?_, fun c2 hcr2 ha2 => ?_⟩
        · rw [hcr] at hcr2; cases hcr2
        · exact hc
        · rw [hcr] at hcr2; cases hcr2
          rw [ha] at ha2; cases ha2
      · refine ⟨fun hcr2 => ?_, fun c2 hcr2 ha2 => ?_, fun c2 hcr2 _ => ?_⟩
        · rw [hcr] at hcr2; cases hcr2
        · rw [hcr] at hcr2; cases hcr2
          rw [ha] at ha2; cases ha2
        · rw [hcr] at hcr2; cases hcr2
          exact hc
  · intro e hg hnf hv1 _
    refine hother e hg hnf ?_
    rintro ⟨hv2, _⟩
    simp only [IsDataEngineV1, IsDataEngineV2, decide_eq_true_eq] at hv1 hv2
    rw [hv1] at hv2
    revert hv2
    decide

/-! ## C12: `Started` on desire `Stopped` -/

/-- C12, counterexample: scenario S5 with a failing adapter: the instance is started on the
live manager `m1`, the desire is `Stopped`, and `DeleteInstance` fails.  The reconcile reaches
phase D, invokes `DeleteInstance`, returns its error, and `Started` is still true at
return. -/
theorem failed_delete_keeps_started :
    ReachesPhaseD failingDeleteHandler engineObj stoppingSpec startedStatus "e1"
      (some runningManager) runningSnapshot ∧
    stoppingSpec.DesireState = InstanceStateStopped ∧
    Effect.deleteInstance ∈
      (ReconcileInstanceState failingDeleteHandler engineObj stoppingSpec startedStatus).effects ∧
    (ReconcileInstanceState failingDeleteHandler engineObj stoppingSpec startedStatus).err
      = some (.deleteInstance adapterError) ∧
    (ReconcileInstanceState failingDeleteHandler engineObj stoppingSpec
      startedStatus).status.Started = true := by
  refine ⟨⟨rfl, rfl, rfl, rfl⟩, rfl, ?_, ?_, ?_⟩ <;> decide

/-- C12, amended: for every reconcile that reaches phase D with `spec.DesireState == Stopped`:
when `DeleteInstance` is not invoked, or is invoked and succeeds, `Started` is false at
return; when `DeleteInstance` is invoked and fails, the reconcile returns that error after a
`FailedStopping` event and `Started` is as on entry. -/
theorem stopped_desire_resets_started (h : InstanceHandler) (obj : Obj) (spec : InstanceSpec)
    (status : InstanceStatus) (instanceName : String) (im : Option InstanceManager)
    (instances : InstanceMap) (hr : ReachesPhaseD h obj spec status instanceName im instances)
    (hd : spec.DesireState = InstanceStateStopped) :
    ((Effect.deleteInstance ∉ (ReconcileInstanceState h obj spec status).effects ∨
        h.instanceManagerHandler.DeleteInstance obj = none) →
      (ReconcileInstanceState h obj spec status).status.Started = false) ∧
    (∀ err, Effect.deleteInstance ∈ (ReconcileInstanceState h obj spec status).effects →
      h.instanceManagerHandler.DeleteInstance obj = some err →
      (ReconcileInstanceState h obj spec status).err = some (.deleteInstance err) ∧
      Effect.event EventReasonFailedStopping ∈
        (ReconcileInstanceState h obj spec status).effects ∧
      (ReconcileInstanceState h obj spec status).status.Started = status.Started) := by
  have hdel := reconcile_effects_iff h obj spec status instanceName im instances hr
    Effect.deleteInstance (by simp)
  have hev := reconcile_effects_iff h obj spec status instanceName im instances hr
    (Effect.event EventReasonFailedStopping) (by simp)
  obtain ⟨hst, -⟩ := reconcile_latches h obj spec status instanceName im instances hr
  have hbs : (applyIntents im spec status).1.Started = status.Started := by
    rw [applyIntents_status]
  rw [hdel, hev, hst, ← hbs]
  rcases actOnDesireState_stopped h obj im instanceName spec (applyIntents im spec status).1
    instances hd with ⟨_, ha⟩ | ⟨hx, ha⟩ | ⟨e, hx, ha⟩
  · rw [ha]
    refine ⟨fun _ => rfl, fun err hmem _ => ?_⟩
    simp at hmem
  · rw [ha]
    refine ⟨fun _ => rfl, fun err _ hx2 => ?_⟩
    rw [hx] at hx2
    cases hx2
  · refine ⟨?_, fun err _ hx2 => ?_⟩
    · rw [ha]
      rintro (hno | hno)
      · simp at hno
      · rw [hx] at hno
        cases hno
    · rw [hx] at hx2
      cases hx2
      rw [reconcile_phaseD_error h obj spec status instanceName im instances hr _ _ _ ha, ha]
      exact ⟨rfl, by simp, rfl⟩

/-- C12, witness: scenario S5, a V1 process in state `Running` on a live manager with desire
`Stopped`: `DeleteInstance` is invoked, succeeds, and `Started` is false at return. -/
theorem stopped_desire_resets_started_witness :
    (ReachesPhaseD runningHandler engineObj stoppingSpec startedStatus "e1"
        (some runningManager) runningSnapshot ∧
      stoppingSpec.DesireState = InstanceStateStopped) ∧
    Effect.deleteInstance ∈
      (ReconcileInstanceState runningHandler engineObj stoppingSpec startedStatus).effects ∧
    (ReconcileInstanceState runningHandler engineObj stoppingSpec
      startedStatus).status.Started = false :=
  ⟨⟨⟨rfl, rfl, rfl, rfl⟩, rfl⟩, by decide,
    (stopped_desire_resets_started runningHandler engineObj stoppingSpec startedStatus "e1"
      (some runningManager) runningSnapshot ⟨rfl, rfl, rfl, rfl⟩ rfl).1 (Or.inr rfl)⟩

/-! ## C18: a manager that is still starting -/

/-- The body of the synthesis on a live manager in state `Starting` (source lines 104-119). -/
theorem syncStatusBody_starting (h : InstanceHandler) (m : InstanceManager)
    (instanceName : String) (spec : InstanceSpec) (status : InstanceStatus)
    (instances : InstanceMap)
    (hs : m.Status.CurrentState = InstanceManagerStateStarting)
    (hdq : h.ds.IsNodeDelinquent m.Spec.NodeID spec.VolumeName = false)
    (hdt : m.DeletionTimestamp = none) :
    syncStatusBody h (some m) instanceName spec status instances =
      if status.Started = true then
        resetInstanceErrorCondition
          { status with CurrentState := InstanceStateError, CurrentImage := "", IP := "",
                        StorageIP := "", Port := 0, UblkID := 0, UUID := "" }
      else status := by
  have c1 : ¬ (m.Status.CurrentState = InstanceManagerStateUnknown ∨
      h.ds.IsNodeDelinquent m.Spec.NodeID spec.VolumeName = true) := by
    rw [hs, hdq]; decide
  have c2 : ¬ (m.Status.CurrentState = InstanceManagerStateStopped ∨
      m.Status.CurrentState = InstanceManagerStateError ∨ m.DeletionTimestamp ≠ none) := by
    rw [hs, hdt]; decide
  unfold syncStatusBody
  simp only
  rw [if_neg c1, if_neg c2, if_pos hs]

/-- C18: for every call of `syncStatusWithInstanceManager` with a non-nil, non-delinquent
manager that is not being deleted and whose state is `Starting`: if `status.Started` is true
the returned `CurrentState` is `Error` and `CurrentImage`, `IP`, `StorageIP`, `Port`, `UblkID`
and `UUID` are cleared; if `status.Started` is false the returned status is the entry status
in every field except `InstanceManagerName`, which is cleared when `CurrentState` is
`Stopped`; in both cases the result does not depend on the process snapshot. -/
theorem sync_starting_manager (h : InstanceHandler) (m : InstanceManager)
    (instanceName : String) (spec : InstanceSpec) (status : InstanceStatus)
    (instances : InstanceMap)
    (hs : m.Status.CurrentState = InstanceManagerStateStarting)
    (hdq : h.ds.IsNodeDelinquent m.Spec.NodeID spec.VolumeName = false)
    (hdt : m.DeletionTimestamp = none) :
    (status.Started = true →
      (syncStatusWithInstanceManager h (some m) instanceName spec status instances).CurrentState
        = InstanceStateError ∧
      (syncStatusWithInstanceManager h (some m) instanceName spec status instances).CurrentImage
        = "" ∧
      (syncStatusWithInstanceManager h (some m) instanceName spec status instances).IP = "" ∧
      (syncStatusWithInstanceManager h (some m) instanceName spec status instances).StorageIP
        = "" ∧
      (syncStatusWithInstanceManager h (some m) instanceName spec status instances).Port = 0 ∧
      (syncStatusWithInstanceManager h (some m) instanceName spec status instances).UblkID = 0 ∧
      (syncStatusWithInstanceManager h (some m) instanceName spec status instances).UUID = "") ∧
    (status.Started = false →
      syncStatusWithInstanceManager h (some m) instanceName spec status instances =
        { status with
          InstanceManagerName :=
            if status.CurrentState = InstanceStateStopped then ""
            else status.InstanceManagerName }) ∧
    (∀ other : InstanceMap,
      syncStatusWithInstanceManager h (some m) instanceName spec status other =
        syncStatusWithInstanceManager h (some m) instanceName spec status instances) := by
  refine ⟨fun hst => ?_, fun hst => ?_, fun other => ?_⟩
  · unfold syncStatusWithInstanceManager
    rw [syncStatusBody_starting h m instanceName spec status instances hs hdq hdt, if_pos hst,
      syncDeferred_eq]
    exact ⟨rfl, rfl, rfl, rfl, rfl, rfl, rfl⟩
  · have hne : ¬ status.Started = true := by rw [hst]; decide
    unfold syncStatusWithInstanceManager
    rw [syncStatusBody_starting h m instanceName spec status instances hs hdq hdt, if_neg hne,
      syncDeferred_eq]
  · unfold syncStatusWithInstanceManager
    rw [syncStatusBody_starting h m instanceName spec status instances hs hdq hdt,
      syncStatusBody_starting h m instanceName spec status other hs hdq hdt]

/-- C18, witness: the started status of scenario S3 against manager `m1` while it is still
starting: the returned state is `Error` although the snapshot holds the running process. -/
theorem sync_starting_manager_witness :
    (startingManager.Status.CurrentState = InstanceManagerStateStarting ∧
      runningHandler.ds.IsNodeDelinquent startingManager.Spec.NodeID runningSpec.VolumeName
        = false ∧
      startingManager.DeletionTimestamp = none) ∧
    (syncStatusWithInstanceManager runningHandler (some startingManager) "e1" runningSpec
      startedStatus runningSnapshot).CurrentState = InstanceStateError :=
  ⟨⟨rfl, rfl, rfl⟩,
    ((sync_starting_manager runningHandler startingManager "e1" runningSpec startedStatus
      runningSnapshot rfl rfl rfl).1 rfl).1⟩

/-! ## Reading a condition back -/

/-- A condition that was just set is the one read back under its key. -/
theorem GetCondition_SetCondition_same (conditions : List Condition)
    (t v r msg : String) :
    GetCondition (SetCondition conditions t v r msg) t =
      some { Type_ := t, Status := v, Reason := r, Message := msg } := by
  induction conditions with
  | nil => simp [SetCondition, GetCondition]
  | cons c rest ih =>
    unfold SetCondition
    by_cases hc : c.Type_ = t
    · rw [if_pos hc]
      simp [GetCondition]
    · rw [if_neg hc]
      unfold GetCondition at ih ⊢
      rw [List.find?_cons_of_neg _ (by simpa using hc)]
      exact ih

/-- Setting a condition leaves the conditions under the other keys alone. -/
theorem GetCondition_SetCondition_other (conditions : List Condition)
    (t v r msg k : String) (hk : t ≠ k) :
    GetCondition (SetCondition conditions t v r msg) k = GetCondition conditions k := by
  induction conditions with
  | nil => simp [SetCondition, GetCondition, hk]
  | cons c rest ih =>
    unfold SetCondition
    by_cases hc : c.Type_ = t
    · rw [if_pos hc]
      unfold GetCondition
      have h1 : ¬ c.Type_ = k := by rw [hc]; exact hk
      rw [List.find?_cons_of_neg _ (by simpa using hk), List.find?_cons_of_neg _ (by simpa using h1)]
    · rw [if_neg hc]
      unfold GetCondition at ih ⊢
      by_cases h1 : c.Type_ = k
      · rw [List.find?_cons_of_pos _ (by simpa using h1), List.find?_cons_of_pos _ (by simpa using h1)]
      · rw [List.find?_cons_of_neg _ (by simpa using h1), List.find?_cons_of_neg _ (by simpa using h1)]
        exact ih

/-- Copying the process conditions leaves alone every key the process does not report. -/
theorem GetCondition_syncInstanceCondition (inst : InstanceProcess) (status : InstanceStatus)
    (k : String) (hk : ∀ cf ∈ inst.Status.Conditions, cf.1 ≠ k) :
    GetCondition (syncInstanceCondition inst status).Conditions k =
      GetCondition status.Conditions k := by
  unfold syncInstanceCondition
  simp only
  generalize inst.Status.Conditions = pcs at hk
  generalize status.Conditions = cs
  induction pcs generalizing cs with
  | nil => rfl
  | cons cf rest ih =>
    rw [List.foldl_cons, ih (fun x hx => hk x (List.mem_cons_of_mem _ hx))]
    exact GetCondition_SetCondition_other cs _ _ _ _ k (hk cf (List.mem_cons_self _ _))

/-- What the status synthesis does to the conditions: every branch that assigns a state
other than `Running` resets the filesystem-read-only condition; the pass-through branch and
the `Running` case without a manager pod leave the conditions alone; the `Running` case with
the manager pod copies the process conditions. -/
theorem sync_conditions_cases (h : InstanceHandler) (im : Option InstanceManager)
    (instanceName : String) (spec : InstanceSpec) (status : InstanceStatus)
    (instances : InstanceMap) :
    ((syncStatusWithInstanceManager h im instanceName spec status instances).CurrentState
        ≠ InstanceStateRunning ∧
      (syncStatusWithInstanceManager h im instanceName spec status instances).Conditions =
        SetCondition status.Conditions EngineConditionFilesystemReadOnly
          ConditionStatusFalse "" "") ∨
    ((syncStatusWithInstanceManager h im instanceName spec status instances).CurrentState
        = status.CurrentState ∧
      (syncStatusWithInstanceManager h im instanceName spec status instances).Conditions =
        status.Conditions) ∨
    ((syncStatusWithInstanceManager h im instanceName spec status instances).CurrentState
        = InstanceStateRunning ∧
      (syncStatusWithInstanceManager h im instanceName spec status instances).Conditions =
        status.Conditions) ∨
    (∃ m inst, im = some m ∧ instances.lookup instanceName = some inst ∧
      (syncStatusWithInstanceManager h im instanceName spec status instances).CurrentState
        = InstanceStateRunning ∧
      (syncStatusWithInstanceManager h im instanceName spec status instances).Conditions =
        (syncInstanceCondition inst status).Conditions) := by
  rcases syncStatusBody_cases h im instanceName spec status instances with
    ⟨_, hb⟩ | ⟨_, hb⟩ | ⟨_, _, hb⟩ | ⟨_, _, hb⟩ | ⟨m, inst, hm, c1, c2, c3, hl, hb⟩
  · left
    unfold syncStatusWithInstanceManager
    rw [hb, syncDeferred_eq]
    refine ⟨?_, rfl⟩
    cases hst : status.Started <;> simp +decide [syncManagerGone, resetInstanceErrorCondition, hst]
  · left
    unfold syncStatusWithInstanceManager
    rw [hb, syncDeferred_eq]
    refine ⟨?_, rfl⟩
    cases hst : status.Started <;> simp +decide [syncProcessGone, resetInstanceErrorCondition, hst]
  · left
    unfold syncStatusWithInstanceManager
    rw [hb, syncDeferred_eq]
    refine ⟨?_, rfl⟩
    simp +decide [resetInstanceErrorCondition]
  · right; left
    unfold syncStatusWithInstanceManager
    rw [hb, syncDeferred_eq]
    exact ⟨rfl, rfl⟩
  · subst hm
    by_cases hrun : inst.Status.State = InstanceStateRunning
    · by_cases hp : ∃ pod, h.ds.GetPodRO m.Namespace m.Name = .ok (some pod)
      · obtain ⟨pod, hpod⟩ := hp
        right; right; right
        rw [sync_running_pod h m instanceName spec status instances inst pod c1 c2 c3 hl hrun hpod]
        exact ⟨m, inst, rfl, hl, rfl, rfl⟩
      · right; right; left
        rw [sync_running_nopod h m instanceName spec status instances inst c1 c2 c3 hl hrun
          (fun pod hpod => hp ⟨pod, hpod⟩)]
        exact ⟨rfl, rfl⟩
    · left
      obtain ⟨state, hs1, _, _, heq⟩ := syncProcessState_not_running h m spec
        { status with InstanceManagerName := m.Name } inst hrun
      unfold syncStatusWithInstanceManager
      rw [hb, heq, syncDeferred_eq]
      exact ⟨hs1, rfl⟩

/-- The post-state adjustment acts on no condition but the instance-creation one. -/
theorem postStateAdjust_conditions (im : Option InstanceManager) (instanceName : String)
    (spec : InstanceSpec) (status : InstanceStatus) (instances : InstanceMap) (k : String)
    (hk : InstanceConditionTypeInstanceCreation ≠ k) :
    GetCondition (postStateAdjust im instanceName spec status instances).1.Conditions k =
      GetCondition status.Conditions k := by
  rcases postStateAdjust_cases im instanceName spec status instances with
    ⟨h1, _⟩ | ⟨_, h1, _⟩ | ⟨_, _, m, inst, _, _, h1⟩
  · rw [h1]
  · rw [h1]
  · rw [h1]
    by_cases hd : spec.DesireState = InstanceStateRunning
    · simp only [if_pos hd]
      exact GetCondition_SetCondition_other _ _ _ _ _ k hk
    · simp only [if_neg hd]

/-! ## C19: the filesystem-read-only condition on leaving `Running` -/

/-- Outside the node-mismatch override, a reconcile that is entered with state `Running` and
returns with another state has reset the filesystem-read-only condition to `False`. -/
theorem readonly_condition_reset_without_mismatch (h : InstanceHandler) (obj : Obj)
    (spec : InstanceSpec) (status : InstanceStatus)
    (hin : status.CurrentState = InstanceStateRunning)
    (hout : (ReconcileInstanceState h obj spec status).status.CurrentState
      ≠ InstanceStateRunning)
    (herr : (ReconcileInstanceState h obj spec status).err ≠ some .nodeMismatch) :
    GetCondition (ReconcileInstanceState h obj spec status).status.Conditions
        EngineConditionFilesystemReadOnly =
      some { Type_ := EngineConditionFilesystemReadOnly, Status := ConditionStatusFalse,
             Reason := "", Message := "" } := by
  rcases reconcile_paths h obj spec status with ⟨hs, _⟩ | ⟨im, e, _, _, hs⟩ |
    ⟨instanceName, im, instances, hr⟩
  · rw [hs] at hout
    exact absurd hin hout
  · rw [hs] at hout
    simp only [applyIntents_status] at hout
    exact absurd hin hout
  · generalize hact : actOnDesireState h obj im instanceName spec (applyIntents im spec status).1
      instances = act
    obtain ⟨st, err, effects⟩ := act
    obtain ⟨started, salv, hst⟩ := actOnDesireState_status h obj im instanceName spec
      (applyIntents im spec status).1 instances
    rw [hact] at hst
    simp only at hst
    have hstate : st.CurrentState = InstanceStateRunning := by
      rw [hst, applyIntents_status]
      exact hin
    cases err with
    | some err =>
      rw [reconcile_phaseD_error h obj spec status instanceName im instances hr st err effects
        hact] at hout
      exact absurd hstate hout
    | none =>
      rw [reconcile_synthesis h obj spec status instanceName im instances hr st effects hact]
        at hout herr ⊢
      simp only at hout herr ⊢
      rw [postStateAdjust_conditions im instanceName spec _ instances
        EngineConditionFilesystemReadOnly (by decide)]
      rcases postStateAdjust_cases im instanceName spec
          (syncStatusWithInstanceManager h im instanceName spec st instances) instances with
        ⟨h1, _⟩ | ⟨_, _, h1⟩ | ⟨h1, _, _⟩
      · rw [h1] at hout
        rcases sync_conditions_cases h im instanceName spec st instances with
          ⟨_, hc⟩ | ⟨hs, _⟩ | ⟨hs, _⟩ | ⟨_, _, _, _, hs, _⟩
        · rw [hc]
          exact GetCondition_SetCondition_same _ _ _ _ _
        · rw [hs] at hout; exact absurd hstate hout
        · exact absurd hs hout
        · exact absurd hs hout
      · exact absurd h1 herr
      · rcases sync_conditions_cases h im instanceName spec st instances with
          ⟨_, hc⟩ | ⟨hs, _⟩ | ⟨hs, _⟩ | ⟨_, _, _, _, hs, _⟩
        · rw [hc]
          exact GetCondition_SetCondition_same _ _ _ _ _
        · rw [hs, hstate] at h1; exact absurd h1 (by decide)
        · rw [hs] at h1; exact absurd h1 (by decide)
        · rw [hs] at h1; exact absurd h1 (by decide)

/-- C19, at the failing input: the started instance of scenario S3 runs on manager `m1` of
node `n1`, its process reports a read-only filesystem, and the spec pins the instance to node
`n2`.  The reconcile reaches phase D, the synthesis yields `Running`, the node-mismatch
override turns the state into `Error`, and the filesystem-read-only condition is still `True`
at return. -/
theorem node_mismatch_keeps_readonly_condition :
    ReachesPhaseD readOnlyHandler engineObj movedSpec startedStatus "e1" (some readOnlyManager)
      [("e1", readOnlyProcess)] ∧
    startedStatus.CurrentState = InstanceStateRunning ∧
    (ReconcileInstanceState readOnlyHandler engineObj movedSpec startedStatus).err
      = some .nodeMismatch ∧
    (ReconcileInstanceState readOnlyHandler engineObj movedSpec
      startedStatus).status.CurrentState = InstanceStateError ∧
    GetCondition (ReconcileInstanceState readOnlyHandler engineObj movedSpec
        startedStatus).status.Conditions EngineConditionFilesystemReadOnly =
      some { Type_ := EngineConditionFilesystemReadOnly, Status := ConditionStatusTrue,
             Reason := "", Message := "" } := by
  refine ⟨⟨rfl, rfl, rfl, rfl⟩, rfl, ?_, ?_, ?_⟩ <;> decide

/-! ## C20: the instance-creation condition at return -/

/-- The `Error` case of the post-state adjustment when the snapshot of the resolved manager
holds the process (source lines 422-444). -/
theorem postStateAdjust_error (m : InstanceManager) (instanceName : String)
    (spec : InstanceSpec) (status : InstanceStatus) (instances : InstanceMap)
    (inst : InstanceProcess) (hs : status.CurrentState = InstanceStateError)
    (hl : instances.lookup instanceName = some inst) :
    (postStateAdjust (some m) instanceName spec status instances).1 =
      { status with
        Conditions :=
          if spec.DesireState = InstanceStateRunning then
            SetCondition status.Conditions InstanceConditionTypeInstanceCreation
              ConditionStatusFalse InstanceConditionReasonInstanceCreationFailure
              inst.Status.ErrorMsg
          else status.Conditions } := by
  have hne : ¬ status.CurrentState = InstanceStateRunning := by rw [hs]; decide
  unfold postStateAdjust
  rw [if_neg hne, if_pos hs]
  simp only [hl]
  by_cases c3 : spec.DesireState = InstanceStateRunning
  · simp only [if_pos c3]
  · simp only [if_neg c3]

/-- A synthesis that does not yield `Running` leaves the instance-creation condition alone. -/
theorem sync_keeps_creation_condition (h : InstanceHandler) (im : Option InstanceManager)
    (instanceName : String) (spec : InstanceSpec) (status : InstanceStatus)
    (instances : InstanceMap)
    (hk : (syncStatusWithInstanceManager h im instanceName spec status instances).CurrentState
        ≠ InstanceStateRunning ∨
      ∀ m inst, im = some m → instances.lookup instanceName = some inst →
        ∀ cf ∈ inst.Status.Conditions, cf.1 ≠ InstanceConditionTypeInstanceCreation) :
    GetCondition (syncStatusWithInstanceManager h im instanceName spec status
        instances).Conditions InstanceConditionTypeInstanceCreation =
      GetCondition status.Conditions InstanceConditionTypeInstanceCreation := by
  rcases sync_conditions_cases h im instanceName spec status instances with
    ⟨_, hc⟩ | ⟨_, hc⟩ | ⟨_, hc⟩ | ⟨m, inst, hm, hl, hs, hc⟩
  · rw [hc]
    exact GetCondition_SetCondition_other _ _ _ _ _ _ (by decide)
  · rw [hc]
  · rw [hc]
  · rw [hc]
    rcases hk with hk | hk
    · exact absurd hs hk
    · exact GetCondition_syncInstanceCondition inst status _ (hk m inst hm hl)

/-- Past phase B the status entering the synthesis carries the instance-creation condition
`True`. -/
theorem creation_condition_before_sync (h : InstanceHandler) (obj : Obj)
    (im : Option InstanceManager) (instanceName : String) (spec : InstanceSpec)
    (status : InstanceStatus) (instances : InstanceMap) :
    GetCondition (actOnDesireState h obj im instanceName spec (applyIntents im spec status).1
        instances).1.Conditions InstanceConditionTypeInstanceCreation =
      some { Type_ := InstanceConditionTypeInstanceCreation, Status := ConditionStatusTrue,
             Reason := "", Message := "" } := by
  obtain ⟨started, salv, hst⟩ := actOnDesireState_status h obj im instanceName spec
    (applyIntents im spec status).1 instances
  rw [hst, applyIntents_status]
  exact GetCondition_SetCondition_same _ _ _ _ _

/-- A reconcile that resolves its manager (phases A and B) either stops at the snapshot with
the status phase B left, or reaches phase D. -/
theorem reconcile_past_phaseB (h : InstanceHandler) (obj : Obj) (spec : InstanceSpec)
    (status : InstanceStatus) (instanceName : String) (im : Option InstanceManager)
    (h1 : obj.isRuntimeObject = true) (h2 : getNameFromObj obj = .ok instanceName)
    (h3 : resolveInstanceManager h obj spec status = .manager im) :
    (∃ e, ReconcileInstanceState h obj spec status =
        { status := (applyIntents im spec status).1, err := some e,
          effects := (applyIntents im spec status).2 }) ∨
    (∃ instances, ReachesPhaseD h obj spec status instanceName im instances) := by
  cases c4 : snapshotInstances h obj im with
  | error e => left; exact ⟨e, by simp [ReconcileInstanceState, h1, h2, h3, c4]⟩
  | ok instances => right; exact ⟨instances, h1, h2, h3, c4⟩

/-- With desire `Stopped` the `Running` case of the post-state adjustment does nothing
(source line 412). -/
theorem postStateAdjust_stopped_desire (im : Option InstanceManager) (instanceName : String)
    (spec : InstanceSpec) (status : InstanceStatus) (instances : InstanceMap)
    (hd : spec.DesireState = InstanceStateStopped)
    (hs : status.CurrentState = InstanceStateRunning) :
    (postStateAdjust im instanceName spec status instances).1 = status := by
  have hne : ¬ spec.DesireState ≠ InstanceStateStopped := by simp [hd]
  unfold postStateAdjust
  rw [if_pos hs, if_neg hne]

/-- C20, counterexample: manager `m1` hosts the process `e1`, which failed with the message
`no backend`.  With desire `Stopped` the reconcile returns with state `Error` and the
instance-creation condition still `True`; with desire `Running` the condition is `False` and
the message of the process is its message, while its reason is the fixed
`InstanceCreationFailure`.  The node-mismatch override also returns `Error` with the process
in the snapshot and the condition `True`; and a running process that itself reports the
instance-creation key as false leaves the condition `False` on a `Running` state. -/
theorem error_state_creation_condition :
    ReachesPhaseD failedHandler engineObj stoppingSpec namedStatus "e1" (some failedManager)
      [("e1", failedProcess)] ∧
    (ReconcileInstanceState failedHandler engineObj stoppingSpec namedStatus).status.CurrentState
      = InstanceStateError ∧
    GetCondition (ReconcileInstanceState failedHandler engineObj stoppingSpec
        namedStatus).status.Conditions InstanceConditionTypeInstanceCreation =
      some { Type_ := InstanceConditionTypeInstanceCreation, Status := ConditionStatusTrue,
             Reason := "", Message := "" } ∧
    (ReconcileInstanceState failedHandler engineObj runningSpec namedStatus).status.CurrentState
      = InstanceStateError ∧
    GetCondition (ReconcileInstanceState failedHandler engineObj runningSpec
        namedStatus).status.Conditions InstanceConditionTypeInstanceCreation =
      some { Type_ := InstanceConditionTypeInstanceCreation, Status := ConditionStatusFalse,
             Reason := "InstanceCreationFailure", Message := "no backend" } ∧
    failedProcess.Status.ErrorMsg = "no backend" ∧
    (ReconcileInstanceState readOnlyHandler engineObj movedSpec startedStatus).status.CurrentState
      = InstanceStateError ∧
    GetCondition (ReconcileInstanceState readOnlyHandler engineObj movedSpec
        startedStatus).status.Conditions InstanceConditionTypeInstanceCreation =
      some { Type_ := InstanceConditionTypeInstanceCreation, Status := ConditionStatusTrue,
             Reason := "", Message := "" } ∧
    (ReconcileInstanceState shadowingHandler engineObj runningSpec
      namedStatus).status.CurrentState = InstanceStateRunning ∧
    GetCondition (ReconcileInstanceState shadowingHandler engineObj runningSpec
        namedStatus).status.Conditions InstanceConditionTypeInstanceCreation =
      some { Type_ := InstanceConditionTypeInstanceCreation, Status := ConditionStatusFalse,
             Reason := "", Message := "" } := by
  refine ⟨⟨rfl, rfl, rfl, rfl⟩, ?_, ?_, ?_, ?_, rfl, ?_, ?_, ?_, ?_⟩ <;> decide

/-- C20, amended: for every reconcile that reaches phase D with a resolved manager whose
snapshot contains the process and returns with `CurrentState == Error`: when
`spec.DesireState` is `Running` and the error returned is not the node mismatch, the
instance-creation condition is `False` at return with reason `InstanceCreationFailure` and
the process's `ErrorMsg` as its message; when `spec.DesireState` is `Stopped` the condition
is `True`.  And for every reconcile that reaches phase B and returns with a `CurrentState`
other than `Error`, the instance-creation condition is `True` at return, provided the process
found in the snapshot reports no condition under the instance-creation key. -/
theorem creation_condition_at_return (h : InstanceHandler) (obj : Obj) (spec : InstanceSpec)
    (status : InstanceStatus) (instanceName : String) :
    (∀ m instances inst,
      ReachesPhaseD h obj spec status instanceName (some m) instances →
      instances.lookup instanceName = some inst →
      (ReconcileInstanceState h obj spec status).status.CurrentState = InstanceStateError →
      (spec.DesireState = InstanceStateRunning →
        (ReconcileInstanceState h obj spec status).err ≠ some .nodeMismatch →
        GetCondition (ReconcileInstanceState h obj spec status).status.Conditions
            InstanceConditionTypeInstanceCreation =
          some { Type_ := InstanceConditionTypeInstanceCreation, Status := ConditionStatusFalse,
                 Reason := InstanceConditionReasonInstanceCreationFailure,
                 Message := inst.Status.ErrorMsg }) ∧
      (spec.DesireState = InstanceStateStopped →
        GetCondition (ReconcileInstanceState h obj spec status).status.Conditions
            InstanceConditionTypeInstanceCreation =
          some { Type_ := InstanceConditionTypeInstanceCreation, Status := ConditionStatusTrue,
                 Reason := "", Message := "" })) ∧
    (∀ im, obj.isRuntimeObject = true → getNameFromObj obj = .ok instanceName →
      resolveInstanceManager h obj spec status = .manager im →
      (ReconcileInstanceState h obj spec status).status.CurrentState ≠ InstanceStateError →
      (∀ m instances inst, im = some m → snapshotInstances h obj im = .ok instances →
        instances.lookup instanceName = some inst →
        ∀ cf ∈ inst.Status.Conditions, cf.1 ≠ InstanceConditionTypeInstanceCreation) →
      GetCondition (ReconcileInstanceState h obj spec status).status.Conditions
          InstanceConditionTypeInstanceCreation =
        some { Type_ := InstanceConditionTypeInstanceCreation, Status := ConditionStatusTrue,
               Reason := "", Message := "" }) := by
  constructor
  · intro m instances inst hr hl hout
    generalize hact : actOnDesireState h obj (some m) instanceName spec
      (applyIntents (some m) spec status).1 instances = act
    obtain ⟨st, err, effects⟩ := act
    have hcond := creation_condition_before_sync h obj (some m) instanceName spec status instances
    obtain ⟨started, salv, hst⟩ := actOnDesireState_status h obj (some m) instanceName spec
      (applyIntents (some m) spec status).1 instances
    rw [hact] at hcond hst
    simp only at hcond hst
    cases err with
    | some err =>
      rw [reconcile_phaseD_error h obj spec status instanceName (some m) instances hr st err
        effects hact] at hout ⊢
      simp only at hout ⊢
      refine ⟨fun hd _ => ?_, fun _ => hcond⟩
      -- on desire `Running` the switch fails only from the creation path, entered on `Stopped`
      exfalso
      rcases actOnDesireState_running h obj (some m) instanceName spec
          (applyIntents (some m) spec status).1 instances hd with
        ⟨_, ha⟩ | ⟨_, _, ha⟩ | ⟨_, _, hc, ha⟩
      · rw [hact] at ha; cases ha
      · rw [hact] at ha; cases ha
      · rw [hst] at hout
        rw [hc] at hout
        exact absurd hout (by decide)
    | none =>
      rw [reconcile_synthesis h obj spec status instanceName (some m) instances hr st effects
        hact] at hout ⊢
      simp only at hout ⊢
      by_cases hse : (syncStatusWithInstanceManager h (some m) instanceName spec st
          instances).CurrentState = InstanceStateError
      · have hsc := sync_keeps_creation_condition h (some m) instanceName spec st instances
          (Or.inl (by rw [hse]; decide))
        rw [postStateAdjust_error m instanceName spec _ instances inst hse hl]
        refine ⟨fun hd _ => ?_, fun hd => ?_⟩
        · simp only [if_pos hd]
          exact GetCondition_SetCondition_same _ _ _ _ _
        · have hne : ¬ spec.DesireState = InstanceStateRunning := by rw [hd]; decide
          simp only [if_neg hne]
          rw [hsc]
          exact hcond
      · by_cases hsr : (syncStatusWithInstanceManager h (some m) instanceName spec st
            instances).CurrentState = InstanceStateRunning
        · rcases postStateAdjust_cases (some m) instanceName spec
              (syncStatusWithInstanceManager h (some m) instanceName spec st instances)
              instances with ⟨h1, _⟩ | ⟨_, _, h1⟩ | ⟨h1, _⟩
          · rw [h1, hsr] at hout
            exact absurd hout (by decide)
          · refine ⟨fun _ herr => absurd h1 herr, fun hd => ?_⟩
            rw [postStateAdjust_stopped_desire (some m) instanceName spec _ instances hd hsr,
              hsr] at hout
            exact absurd hout (by decide)
          · rw [hsr] at h1
            exact absurd h1 (by decide)
        · rw [postStateAdjust_other (some m) instanceName spec _ instances hsr hse] at hout
          exact absurd hout hse
  · intro im h1 h2 h3 hout hk
    rcases reconcile_past_phaseB h obj spec status instanceName im h1 h2 h3 with
      ⟨e, hs⟩ | ⟨instances, hr⟩
    · rw [hs]
      simp only [applyIntents_status]
      exact GetCondition_SetCondition_same _ _ _ _ _
    · generalize hact : actOnDesireState h obj im instanceName spec
        (applyIntents im spec status).1 instances = act
      obtain ⟨st, err, effects⟩ := act
      have hcond := creation_condition_before_sync h obj im instanceName spec status instances
      rw [hact] at hcond
      simp only at hcond
      cases err with
      | some err =>
        rw [reconcile_phaseD_error h obj spec status instanceName im instances hr st err
          effects hact]
        exact hcond
      | none =>
        rw [reconcile_synthesis h obj spec status instanceName im instances hr st effects
          hact] at hout ⊢
        simp only at hout ⊢
        have hsc := sync_keeps_creation_condition h im instanceName spec st instances
          (Or.inr (fun m inst hm hl => hk m instances inst hm hr.2.2.2 hl))
        rcases postStateAdjust_cases im instanceName spec
            (syncStatusWithInstanceManager h im instanceName spec st instances)
            instances with ⟨p1, _⟩ | ⟨_, p1, _⟩ | ⟨p1, _, _, _, _, _, p2⟩
        · rw [p1, hsc]
          exact hcond
        · rw [p1] at hout
          exact absurd rfl hout
        · rw [p2] at hout
          exact absurd p1 hout

/-- C20, witness: the failed process `e1` with desire `Running`: the reconcile reaches phase D
and returns state `Error` with the instance-creation condition `False`, reason
`InstanceCreationFailure`, and the message of the process. -/
theorem creation_condition_at_return_witness :
    GetCondition (ReconcileInstanceState failedHandler engineObj runningSpec
        namedStatus).status.Conditions InstanceConditionTypeInstanceCreation =
      some { Type_ := InstanceConditionTypeInstanceCreation, Status := ConditionStatusFalse,
             Reason := InstanceConditionReasonInstanceCreationFailure,
             Message := failedProcess.Status.ErrorMsg } :=
  ((creation_condition_at_return failedHandler engineObj runningSpec namedStatus "e1").1
    failedManager [("e1", failedProcess)] failedProcess ⟨rfl, rfl, rfl, rfl⟩ rfl
    (by decide)).1 rfl (by decide)

/-! ## C17: the key of a reconcile target -/

/-- Two lists cut at their first `sep` agree on both sides of the cut. -/
theorem append_sep_inj {α : Type} (sep : α) (a1 b1 a2 b2 : List α)
    (h1 : sep ∉ a1) (h2 : sep ∉ a2) (heq : a1 ++ sep :: b1 = a2 ++ sep :: b2) :
    a1 = a2 ∧ b1 = b2 := by
  induction a1 generalizing a2 with
  | nil =>
    cases a2 with
    | nil => simpa using heq
    | cons y ys =>
      simp only [List.nil_append, List.cons_append, List.cons.injEq] at heq
      exact absurd (heq.1 ▸ List.mem_cons_self _ _) h2
  | cons x xs ih =>
    cases a2 with
    | nil =>
      simp only [List.nil_append, List.cons_append, List.cons.injEq] at heq
      exact absurd (heq.1 ▸ List.mem_cons_self _ _) h1
    | cons y ys =>
      simp only [List.cons_append, List.cons.injEq] at heq
      obtain ⟨hxy, hrest⟩ := heq
      obtain ⟨ha, hb⟩ := ih ys (fun hm => h1 (List.mem_cons_of_mem _ hm))
        (fun hm => h2 (List.mem_cons_of_mem _ hm)) hrest
      exact ⟨by rw [hxy, ha], hb⟩

/-- The characters of a key with a namespace. -/
theorem keyFunc_toList (namespace_ name : String) (hn : namespace_ ≠ "") :
    (keyFunc namespace_ name).toList = namespace_.toList ++ '/' :: name.toList := by
  unfold keyFunc
  rw [if_neg hn]
  simp [String.toList, String.data_append]

/-- C17, counterexample: the pairs `("", "a/b")` and `("a", "b")` differ and are mapped to
the same key `a/b`. -/
theorem keyFunc_collision :
    keyFunc "" "a/b" = keyFunc "a" "b" ∧ (("", "a/b") : String × String) ≠ ("a", "b") := by
  decide

/-- C17, amended: `keyFunc(namespace, name)` is `name` when `namespace` is empty and
`namespace + "/" + name` otherwise, and for all namespaces and names that contain no `/`,
two (namespace, name) pairs that differ are mapped to different keys. -/
theorem keyFunc_injective (namespace1 name1 namespace2 name2 : String)
    (h1 : '/' ∉ namespace1.toList) (h2 : '/' ∉ name1.toList)
    (h3 : '/' ∉ namespace2.toList) (h4 : '/' ∉ name2.toList) :
    keyFunc "" name1 = name1 ∧
    (namespace1 ≠ "" → keyFunc namespace1 name1 = namespace1 ++ "/" ++ name1) ∧
    ((namespace1, name1) ≠ (namespace2, name2) →
      keyFunc namespace1 name1 ≠ keyFunc namespace2 name2) := by
  refine ⟨rfl, fun hn => by unfold keyFunc; rw [if_neg hn], ?_⟩
  intro hne heq
  apply hne
  have hl := congrArg String.toList heq
  by_cases e1 : namespace1 = ""
  · by_cases e2 : namespace2 = ""
    · subst e1 e2
      simp only [keyFunc, if_true] at heq
      rw [heq]
    · subst e1
      rw [keyFunc_toList namespace2 name2 e2] at hl
      simp only [keyFunc, if_true] at hl
      exact absurd (hl ▸ List.mem_append_right _ (List.mem_cons_self _ _)) h2
  · by_cases e2 : namespace2 = ""
    · subst e2
      rw [keyFunc_toList namespace1 name1 e1] at hl
      simp only [keyFunc, if_true] at hl
      exact absurd (hl.symm ▸ List.mem_append_right _ (List.mem_cons_self _ _)) h4
    · rw [keyFunc_toList namespace1 name1 e1, keyFunc_toList namespace2 name2 e2] at hl
      obtain ⟨ha, hb⟩ := append_sep_inj '/' _ _ _ _ h1 h3 hl
      rw [String.ext ha, String.ext hb]

/-- C17, witness: the pairs `("a", "b")` and `("b", "a")` are mapped to different keys. -/
theorem keyFunc_injective_witness :
    ('/' ∉ "a".toList ∧ '/' ∉ "b".toList) ∧ keyFunc "a" "b" ≠ keyFunc "b" "a" :=
  ⟨⟨by decide, by decide⟩,
    (keyFunc_injective "a" "b" "b" "a" (by decide) (by decide) (by decide) (by decide)).2.2
      (by decide)⟩

/-! ## C15: the queue operations of `processSingleItem` -/

/-- C15: for every string key taken from the queue and every outcome of the cache lookup and
of the handler: `syncHandler` returns a cache lookup error as it is and otherwise returns what
the handler returns for the key and the object the cache holds (nil when the key does not
exist); and `processSingleItem` issues exactly one of three queue operations followed by
exactly one `Done(key)` as the last queue operation: `Forget(key)`, returning nil, when that
result is no error; `AddAfter(key, d)`, returning the wrapped error, when the error wraps a
retry-after error carrying duration `d`, in which case the failure counts are unchanged;
`AddRateLimited(key)`, returning a requeuing error, for every other error, a cache lookup
error included. -/
theorem processSingleItem_queue_ops (c : controller) (q : RateLimitingQueue) (key : String) :
    (∀ err, c.GetByKey key = .error err → syncHandler c key = some err) ∧
    (∀ found, c.GetByKey key = .ok found → syncHandler c key = c.OnChange key found) ∧
    (syncHandler c key = none →
      (processSingleItem c q (QueueItem.key key)).1.calls =
        q.calls ++ [QueueOp.Forget (QueueItem.key key), QueueOp.Done (QueueItem.key key)] ∧
      (processSingleItem c q (QueueItem.key key)).2 = none) ∧
    (∀ err duration inner, syncHandler c key = some err →
      err.retryAfter = some (duration, inner) →
      (processSingleItem c q (QueueItem.key key)).1.calls =
        q.calls ++ [QueueOp.AddAfter (QueueItem.key key) duration,
          QueueOp.Done (QueueItem.key key)] ∧
      (processSingleItem c q (QueueItem.key key)).1.failures = q.failures ∧
      (processSingleItem c q (QueueItem.key key)).2 = some inner) ∧
    (∀ err, syncHandler c key = some err → err.retryAfter = none →
      (processSingleItem c q (QueueItem.key key)).1.calls =
        q.calls ++ [QueueOp.AddRateLimited (QueueItem.key key)
            (q.rateLimiter.When (q.failures (QueueItem.key key))),
          QueueOp.Done (QueueItem.key key)] ∧
      (processSingleItem c q (QueueItem.key key)).2 =
        some ("error syncing '" ++ key ++ "': " ++ err.msg ++ ", requeuing")) ∧
    (∀ found err duration inner, c.GetByKey key = .ok found →
      c.OnChange key found = some err → err.retryAfter = some (duration, inner) →
      (processSingleItem c q (QueueItem.key key)).1.calls =
        q.calls ++ [QueueOp.AddAfter (QueueItem.key key) duration,
          QueueOp.Done (QueueItem.key key)]) ∧
    (∀ found err, c.GetByKey key = .ok found →
      c.OnChange key found = some err → err.retryAfter = none →
      (processSingleItem c q (QueueItem.key key)).1.calls =
        q.calls ++ [QueueOp.AddRateLimited (QueueItem.key key)
            (q.rateLimiter.When (q.failures (QueueItem.key key))),
          QueueOp.Done (QueueItem.key key)]) ∧
    (∀ found, c.GetByKey key = .ok found → c.OnChange key found = none →
      (processSingleItem c q (QueueItem.key key)).1.calls =
        q.calls ++ [QueueOp.Forget (QueueItem.key key), QueueOp.Done (QueueItem.key key)]) := by
  have hlookup : ∀ err, c.GetByKey key = .error err → syncHandler c key = some err := by
    intro err hg
    simp [syncHandler, hg]
  have hhandler : ∀ found, c.GetByKey key = .ok found →
      syncHandler c key = c.OnChange key found := by
    intro found hg
    cases found with
    | none => simp [syncHandler, hg]
    | some obj => simp [syncHandler, hg]
  have hforget : syncHandler c key = none →
      (processSingleItem c q (QueueItem.key key)).1.calls =
        q.calls ++ [QueueOp.Forget (QueueItem.key key), QueueOp.Done (QueueItem.key key)] ∧
      (processSingleItem c q (QueueItem.key key)).2 = none := by
    intro hs
    simp [processSingleItem, hs, RateLimitingQueue.Forget, RateLimitingQueue.Done]
  have hafter : ∀ err duration inner, syncHandler c key = some err →
      err.retryAfter = some (duration, inner) →
      (processSingleItem c q (QueueItem.key key)).1.calls =
        q.calls ++ [QueueOp.AddAfter (QueueItem.key key) duration,
          QueueOp.Done (QueueItem.key key)] ∧
      (processSingleItem c q (QueueItem.key key)).1.failures = q.failures ∧
      (processSingleItem c q (QueueItem.key key)).2 = some inner := by
    intro err duration inner hs hr
    simp [processSingleItem, hs, hr, RateLimitingQueue.AddAfter, RateLimitingQueue.Done]
  have hlimited : ∀ err, syncHandler c key = some err → err.retryAfter = none →
      (processSingleItem c q (QueueItem.key key)).1.calls =
        q.calls ++ [QueueOp.AddRateLimited (QueueItem.key key)
            (q.rateLimiter.When (q.failures (QueueItem.key key))),
          QueueOp.Done (QueueItem.key key)] ∧
      (processSingleItem c q (QueueItem.key key)).2 =
        some ("error syncing '" ++ key ++ "': " ++ err.msg ++ ", requeuing") := by
    intro err hs hr
    simp [processSingleItem, hs, hr, RateLimitingQueue.AddRateLimited, RateLimitingQueue.Done]
  refine ⟨hlookup, hhandler, hforget, hafter, hlimited, ?_, ?_, ?_⟩
  · intro found err duration inner hg ho hr
    exact (hafter err duration inner ((hhandler found hg).trans ho) hr).1
  · intro found err hg ho hr
    exact (hlimited err ((hhandler found hg).trans ho) hr).1
  · intro found hg ho
    exact (hforget ((hhandler found hg).trans ho)).1

/-! ## C16: enqueue calls before the queue exists -/

/-- Before the queue exists `enqueue` buffers the key of its object, if it has one, and
nothing else. -/
theorem enqueue_buffered (c : controller) (obj : EventObject) (hq : c.workqueue = none) :
    (enqueue c obj).workqueue = none ∧
    (enqueue c obj).startKeys = c.startKeys ++ obj.entry.toList := by
  cases hk : obj.MetaNamespaceKey with
  | error e => simp [Longhorn.enqueue, EventObject.entry, hk, hq]
  | ok key => simp [Longhorn.enqueue, EventObject.entry, hk, hq]

/-- Before the queue exists an enqueue call touches only the buffer, which takes the entry
of the call at its end. -/
theorem EnqueueCall_apply_buffered (c : controller) (call : EnqueueCall)
    (hq : c.workqueue = none) :
    (call.apply c).workqueue = none ∧
    (call.apply c).startKeys = c.startKeys ++ call.entry.toList := by
  cases call with
  | Enqueue namespace_ name => simp [EnqueueCall.apply, EnqueueCall.entry, Longhorn.Enqueue, hq]
  | EnqueueKey key => simp [EnqueueCall.apply, EnqueueCall.entry, Longhorn.EnqueueKey, hq]
  | EnqueueAfter namespace_ name duration =>
    simp [EnqueueCall.apply, EnqueueCall.entry, Longhorn.EnqueueAfter, hq]
  | handleObject ev =>
    cases ev with
    | object obj => exact enqueue_buffered c obj hq
    | tombstone inner =>
      cases inner with
      | none => simp [EnqueueCall.apply, EnqueueCall.entry, CacheEvent.entry, handleObject, hq]
      | some obj => exact enqueue_buffered c obj hq
    | invalid => simp [EnqueueCall.apply, EnqueueCall.entry, CacheEvent.entry, handleObject, hq]

/-- Before the queue exists a sequence of enqueue calls appends its entries to the buffer in
call order. -/
theorem applyCalls_buffered (calls : List EnqueueCall) (c : controller)
    (hq : c.workqueue = none) :
    (applyCalls c calls).workqueue = none ∧
    (applyCalls c calls).startKeys = c.startKeys ++ calls.filterMap EnqueueCall.entry := by
  induction calls generalizing c with
  | nil => simp [applyCalls, hq]
  | cons call rest ih =>
    obtain ⟨h1, h2⟩ := EnqueueCall_apply_buffered c call hq
    obtain ⟨h3, h4⟩ := ih (call.apply c) h1
    unfold applyCalls at h3 h4 ⊢
    rw [List.foldl_cons]
    refine ⟨h3, ?_⟩
    rw [h4, h2, List.append_assoc]
    congr 1
    cases he : call.entry with
    | none => simp [List.filterMap_cons, he]
    | some s => simp [List.filterMap_cons, he]

/-- The replay of the buffer calls one operation per entry, in the order of the buffer. -/
theorem replayStartKeys_calls (startKeys : List startKey) (q : RateLimitingQueue) :
    (replayStartKeys q startKeys).calls = q.calls ++ startKeys.map startKey.replayed := by
  induction startKeys generalizing q with
  | nil => simp [replayStartKeys]
  | cons s rest ih =>
    unfold replayStartKeys at ih ⊢
    rw [List.foldl_cons, ih]
    by_cases h0 : s.after = 0
    · simp [h0, startKey.replayed, RateLimitingQueue.Add]
    · simp [h0, startKey.replayed, RateLimitingQueue.AddAfter]

/-- C16, counterexample: a cache event that carries no object with metadata, delivered to
`handleObject` on a controller that has no queue yet: for a value of an invalid type, and for
a tombstone around a value without metadata, the call returns without buffering, so the
buffered list has not grown by one entry. -/
theorem event_without_metadata_buffers_nothing :
    freshController.workqueue = none ∧
    [EnqueueCall.handleObject CacheEvent.invalid].length = 1 ∧
    (applyCalls freshController
      [EnqueueCall.handleObject CacheEvent.invalid]).startKeys.length
      = freshController.startKeys.length ∧
    [EnqueueCall.handleObject (CacheEvent.tombstone none)].length = 1 ∧
    (applyCalls freshController
      [EnqueueCall.handleObject (CacheEvent.tombstone none)]).startKeys.length
      = freshController.startKeys.length := by
  refine ⟨rfl, rfl, ?_, rfl, ?_⟩ <;> decide

/-- C16, amended: for every sequence of `Enqueue`, `EnqueueKey`, `EnqueueAfter` and
cache-event calls (`handleObject`, which hands the object of the event to `enqueue`) made
before the controller's work queue exists, no queue exists after the calls (no queue
operation happens at call time) and the buffered list grows, in call order, by exactly one
entry per call, except that a cache event that yields no key buffers nothing: a value of an
invalid type, a tombstone around a value without metadata, or an object for which
`cache.MetaNamespaceKeyFunc` returns an error; when `run` creates the queue it replays the
buffered entries in that same order, using `AddAfter(key, d)` for an entry buffered with a
non-zero delay `d` and `Add(key)` for every other entry, and afterwards the buffered list is
empty. -/
theorem buffered_calls_replayed (c : controller) (calls : List EnqueueCall)
    (hq : c.workqueue = none) :
    (applyCalls c calls).workqueue = none ∧
    (applyCalls c calls).startKeys = c.startKeys ++ calls.filterMap EnqueueCall.entry ∧
    (∀ call : EnqueueCall, call.entry = none ↔
      ∃ ev, call = EnqueueCall.handleObject ev ∧ ev.entry = none) ∧
    (∀ ev : CacheEvent, ev.entry = none ↔
      ev = CacheEvent.invalid ∨ ev = CacheEvent.tombstone none ∨
      ∃ obj e, (ev = CacheEvent.object obj ∨ ev = CacheEvent.tombstone (some obj)) ∧
        obj.MetaNamespaceKey = .error e) ∧
    ((∀ call ∈ calls, call.entry ≠ none) →
      (applyCalls c calls).startKeys.length = c.startKeys.length + calls.length) ∧
    (∃ q, (run (applyCalls c calls)).workqueue = some q ∧
      q.calls = (applyCalls c calls).startKeys.map startKey.replayed) ∧
    (∀ start : startKey,
      (start.after = 0 → start.replayed = QueueOp.Add (QueueItem.key start.key)) ∧
      (start.after ≠ 0 →
        start.replayed = QueueOp.AddAfter (QueueItem.key start.key) start.after)) ∧
    (run (applyCalls c calls)).startKeys = [] := by
  obtain ⟨h1, h2⟩ := applyCalls_buffered calls c hq
  have hobj : ∀ obj : EventObject, obj.entry = none ↔ ∃ e, obj.MetaNamespaceKey = .error e := by
    intro obj
    cases hk : obj.MetaNamespaceKey with
    | error e => simp [EventObject.entry, hk]
    | ok key => simp [EventObject.entry, hk]
  refine ⟨h1, h2, ?_, ?_, ?_, ?_, ?_, rfl⟩
  · intro call
    cases call with
    | Enqueue namespace_ name => simp [EnqueueCall.entry]
    | EnqueueKey key => simp [EnqueueCall.entry]
    | EnqueueAfter namespace_ name duration => simp [EnqueueCall.entry]
    | handleObject ev => simp [EnqueueCall.entry]
  · intro ev
    cases ev with
    | object obj =>
      simp only [CacheEvent.entry, hobj obj]
      constructor
      · rintro ⟨e, he⟩
        exact Or.inr (Or.inr ⟨obj, e, Or.inl rfl, he⟩)
      · rintro (hc | hc | ⟨o, e, hc | hc, he⟩)
        · cases hc
        · cases hc
        · cases hc; exact ⟨e, he⟩
        · cases hc
    | tombstone inner =>
      cases inner with
      | none => simp [CacheEvent.entry]
      | some obj =>
        simp only [CacheEvent.entry, hobj obj]
        constructor
        · rintro ⟨e, he⟩
          exact Or.inr (Or.inr ⟨obj, e, Or.inr rfl, he⟩)
        · rintro (hc | hc | ⟨o, e, hc | hc, he⟩)
          · cases hc
          · cases hc
          · cases hc
          · cases hc; exact ⟨e, he⟩
    | invalid => simp [CacheEvent.entry]
  · intro hall
    rw [h2, List.length_append]
    congr 1
    clear h2 h1
    induction calls with
    | nil => rfl
    | cons call rest ih =>
      have hc := hall call (List.mem_cons_self _ _)
      cases he : call.entry with
      | none => exact absurd he hc
      | some s =>
        rw [List.filterMap_cons, he]
        simp only [List.length_cons]
        rw [ih (fun x hx => hall x (List.mem_cons_of_mem _ hx))]
  · refine ⟨_, rfl, ?_⟩
    rw [replayStartKeys_calls]
    simp [NewNamedRateLimitingQueue]
  · intro start
    constructor
    · intro h0; simp [startKey.replayed, h0]
    · intro h0; simp [startKey.replayed, h0]

/-- C16, witness: four calls on a fresh controller, the last a cache event for the object
`ns/d`, are buffered in call order; `run` replays them as `Add(a)`, `AddAfter(ns/b, 5)`,
`Add(c)`, `Add(ns/d)`. -/
theorem buffered_calls_replayed_witness :
    freshController.workqueue = none ∧
    (applyCalls freshController
      [EnqueueCall.EnqueueKey "a", EnqueueCall.EnqueueAfter "ns" "b" 5,
        EnqueueCall.Enqueue "" "c",
        EnqueueCall.handleObject (CacheEvent.object { MetaNamespaceKey := .ok "ns/d" })]).startKeys =
      [{ key := "a", after := 0 }, { key := "ns/b", after := 5 }, { key := "c", after := 0 },
        { key := "ns/d", after := 0 }] :=
  ⟨rfl,
    (buffered_calls_replayed freshController
      [EnqueueCall.EnqueueKey "a", EnqueueCall.EnqueueAfter "ns" "b" 5,
        EnqueueCall.Enqueue "" "c",
        EnqueueCall.handleObject (CacheEvent.object { MetaNamespaceKey := .ok "ns/d" })]
      rfl).2.1.trans (by decide)⟩

/-! ## C14: the delays of the default rate limiter -/

/-- The delay of the default rate limiter for a key with `failures` failures counted. -/
theorem defaultRateLimiter_When (failures : Nat) :
    defaultRateLimiter.When failures =
      max (if failures < 30 then Millisecond else maxTimeout2min)
        (min (5 * Millisecond * 2 ^ failures) (30 * Second)) := rfl

/-- Consecutive `AddRateLimited` calls keep the rate limiter and count one failure each. -/
theorem failTimes_state (q : RateLimitingQueue) (item : QueueItem) (k : Nat) :
    (failTimes q item k).rateLimiter = q.rateLimiter ∧
    (failTimes q item k).failures item = q.failures item + k := by
  induction k with
  | zero => exact ⟨rfl, rfl⟩
  | succ k ih =>
    obtain ⟨h1, h2⟩ := ih
    refine ⟨h1, ?_⟩
    simp only [failTimes, RateLimitingQueue.AddRateLimited, if_true]
    rw [h2]
    rfl

/-- The delay applied by the last of `k + 1` consecutive `AddRateLimited` calls is the delay
of the rate limiter for `k` more failures than were counted before them. -/
theorem lastDelay_failTimes (q : RateLimitingQueue) (item : QueueItem) (k : Nat) :
    lastDelay (failTimes q item (k + 1)) = some (q.rateLimiter.When (q.failures item + k)) := by
  obtain ⟨h1, h2⟩ := failTimes_state q item k
  simp [failTimes, lastDelay, RateLimitingQueue.AddRateLimited, List.getLast?_append,
    Option.or, h1, h2]

/-- C14, counterexample: on a new queue with the default rate limiter the first failure of a
key is delayed by 5 ms, less than `min(5 ms * 2^1, 30 s)`, and the fifth consecutive failure
by 80 ms, less than 160 ms. -/
theorem first_failure_delay_below_claimed :
    lastDelay (failTimes (NewNamedRateLimitingQueue defaultRateLimiter "engine")
      (QueueItem.key "default/e1") 1) = some (5 * Millisecond) ∧
    5 * Millisecond < min (5 * Millisecond * 2 ^ 1) (30 * Second) ∧
    lastDelay (failTimes (NewNamedRateLimitingQueue defaultRateLimiter "engine")
      (QueueItem.key "default/e1") 5) = some (80 * Millisecond) ∧
    80 * Millisecond < 160 * Millisecond := by
  refine ⟨?_, by decide, ?_, by decide⟩
  · rw [lastDelay_failTimes]
    decide
  · rw [lastDelay_failTimes]
    decide

/-- C14, amended: with the default rate limiter, for every `k >= 1`: after `k` consecutive
failures of a key whose failure count was zero (`k` consecutive `AddRateLimited` calls with no
`Forget` in between), the delay applied before the key's next dequeue is at least
`min(5 ms * 2^(k-1), 30 s)` and at most 2 min; in particular after 5 consecutive failures the
6th attempt is delayed by 80 ms, and the first failure after a `Forget` is delayed by 5 ms. -/
theorem default_backoff_bounds (q : RateLimitingQueue) (item : QueueItem) (k : Nat)
    (hq : q.rateLimiter = defaultRateLimiter) (h0 : q.failures item = 0) (hk : 1 ≤ k) :
    (∃ delay, lastDelay (failTimes q item k) = some delay ∧
      min (5 * Millisecond * 2 ^ (k - 1)) (30 * Second) ≤ delay ∧ delay ≤ 2 * Minute) ∧
    lastDelay (failTimes q item 5) = some (80 * Millisecond) ∧
    lastDelay ((q.Forget item).AddRateLimited item) = some (5 * Millisecond) := by
  refine ⟨?_, ?_, ?_⟩
  · obtain ⟨j, rfl⟩ : ∃ j, k = j + 1 := ⟨k - 1, by omega⟩
    refine ⟨_, lastDelay_failTimes q item j, ?_, ?_⟩
    · rw [hq, h0, defaultRateLimiter_When, Nat.add_sub_cancel, Nat.zero_add]
      exact le_max_right _ _
    · rw [hq, h0, defaultRateLimiter_When]
      apply max_le
      · split_ifs <;> decide
      · exact le_trans (min_le_right _ _) (by decide)
  · rw [lastDelay_failTimes, hq, h0]
    decide
  · have h := lastDelay_failTimes (q.Forget item) item 0
    simp only [failTimes] at h
    rw [h]
    simp only [RateLimitingQueue.Forget, if_true]
    rw [hq]
    decide

/-- C14, witness: on a new queue with the default rate limiter, five consecutive failures of a
key leave it scheduled after 80 ms. -/
theorem default_backoff_bounds_witness :
    ((NewNamedRateLimitingQueue defaultRateLimiter "engine").rateLimiter = defaultRateLimiter ∧
      (NewNamedRateLimitingQueue defaultRateLimiter "engine").failures
        (QueueItem.key "default/e1") = 0 ∧ 1 ≤ 5) ∧
    lastDelay (failTimes (NewNamedRateLimitingQueue defaultRateLimiter "engine")
      (QueueItem.key "default/e1") 5) = some (80 * Millisecond) :=
  ⟨⟨rfl, rfl, by decide⟩,
    (default_backoff_bounds (NewNamedRateLimitingQueue defaultRateLimiter "engine")
      (QueueItem.key "default/e1") 5 rfl rfl (by decide)).2.1⟩

/-! ## C22: the one-shot latches -/

/-- Past phase B the log latch at return mirrors the request, and the salvage latch at return
is the one phase B left, or was set by the switch on `DesireState` under a salvage
request. -/
theorem reconcile_latches_past_phaseB (h : InstanceHandler) (obj : Obj) (spec : InstanceSpec)
    (status : InstanceStatus) (instanceName : String) (im : Option InstanceManager)
    (hb : ReachesPhaseB h obj spec status instanceName im) :
    (ReconcileInstanceState h obj spec status).status.LogFetched = spec.LogRequested ∧
    ∃ salv : Bool, (salv = true → spec.SalvageRequested = true) ∧
      (ReconcileInstanceState h obj spec status).status.SalvageExecuted =
        (salv || (status.SalvageExecuted && spec.SalvageRequested)) := by
  obtain ⟨h1, h2, h3⟩ := hb
  rcases reconcile_past_phaseB h obj spec status instanceName im h1 h2 h3 with
    ⟨e, hs⟩ | ⟨instances, hr⟩
  · rw [hs, applyIntents_status]
    exact ⟨rfl, false, by simp, by simp⟩
  · obtain ⟨started, salv, e, eff, hsal, _, _, _, hx⟩ :=
      actOnDesireState_shape h obj im instanceName spec instances
        (applyIntents im spec status).1.CurrentState
    have hact := hx (applyIntents im spec status).1 rfl
    obtain ⟨_, hse⟩ := reconcile_latches h obj spec status instanceName im instances hr
    refine ⟨?_, salv, hsal, ?_⟩
    · cases e with
      | some e =>
        rw [reconcile_phaseD_error h obj spec status instanceName im instances hr _ e eff hact,
          applyIntents_status]
        rfl
      | none =>
        rw [reconcile_synthesis h obj spec status instanceName im instances hr _ eff hact]
        simp only
        rw [(postStateAdjust_frame _ _ _ _ _).2.1, (sync_frame _ _ _ _ _ _).2.1,
          applyIntents_status]
        rfl
    · rw [hse, hact, applyIntents_status]
      rfl

/-- C22: for every reconcile that reaches phase B, at return `status.LogFetched` equals
`spec.LogRequested`, for every data engine and whether or not a manager was resolved, and
`status.SalvageExecuted` implies `spec.SalvageRequested`; consequently `LogFetched` goes from
true to false only when `LogRequested` is false and `SalvageExecuted` goes from true to false
only when `SalvageRequested` is false. -/
theorem latches_at_return (h : InstanceHandler) (obj : Obj) (spec : InstanceSpec)
    (status : InstanceStatus) (instanceName : String) (im : Option InstanceManager)
    (hb : ReachesPhaseB h obj spec status instanceName im) :
    (ReconcileInstanceState h obj spec status).status.LogFetched = spec.LogRequested ∧
    ((ReconcileInstanceState h obj spec status).status.SalvageExecuted = true →
      spec.SalvageRequested = true) ∧
    (status.LogFetched = true →
      (ReconcileInstanceState h obj spec status).status.LogFetched = false →
      spec.LogRequested = false) ∧
    (status.SalvageExecuted = true →
      (ReconcileInstanceState h obj spec status).status.SalvageExecuted = false →
      spec.SalvageRequested = false) := by
  obtain ⟨hlog, salv, hsal, hse⟩ :=
    reconcile_latches_past_phaseB h obj spec status instanceName im hb
  refine ⟨hlog, fun ht => ?_, fun _ hf => ?_, fun ht hf => ?_⟩
  · rw [hse] at ht
    cases hs : salv with
    | true => exact hsal hs
    | false =>
      rw [hs] at ht
      simp only [Bool.false_or, Bool.and_eq_true] at ht
      exact ht.2
  · rw [← hlog]
    exact hf
  · rw [hse, ht] at hf
    cases hr : spec.SalvageRequested with
    | false => rfl
    | true =>
      rw [hr] at hf
      simp at hf

/-- C22, witness: scenario S2 entered with both latches set and no request: the reconcile
reaches phase B and returns with both latches cleared. -/
theorem latches_at_return_witness :
    ReachesPhaseB runningHandler engineObj runningSpec
      { startedStatus with LogFetched := true, SalvageExecuted := true } "e1"
      (some runningManager) ∧
    (ReconcileInstanceState runningHandler engineObj runningSpec
      { startedStatus with LogFetched := true, SalvageExecuted := true }).status.LogFetched
      = false :=
  ⟨⟨rfl, rfl, rfl⟩,
    (latches_at_return runningHandler engineObj runningSpec
      { startedStatus with LogFetched := true, SalvageExecuted := true } "e1"
      (some runningManager) ⟨rfl, rfl, rfl⟩).1⟩

/-- A manager name the data store does not know resolves like an empty name. -/
theorem resolveInstanceManager_notFound (h : InstanceHandler) (obj : Obj) (spec : InstanceSpec)
    (status : InstanceStatus)
    (hn : status.InstanceManagerName = "" ∨
      h.ds.GetInstanceManagerRO status.InstanceManagerName = .notFound) :
    resolveInstanceManager h obj spec status =
      resolveInstanceManager h obj spec { status with InstanceManagerName := "" } := by
  by_cases c0 : status.InstanceManagerName ≠ ""
  · rcases hn with hn | hn
    · exact absurd hn c0
    · unfold resolveInstanceManager
      simp only [if_pos c0, hn]
      simp
  · have c1 : status.InstanceManagerName = "" := by simpa using c0
    exact resolveInstanceManager_congr h obj spec _ status c1

/-- The second block of the manager resolution (source lines 305-321), entered with no
manager: every way it can end. -/
theorem resolveInstanceManager_unnamed (h : InstanceHandler) (obj : Obj) (spec : InstanceSpec)
    (status : InstanceStatus)
    (hn : status.InstanceManagerName = "" ∨
      h.ds.GetInstanceManagerRO status.InstanceManagerName = .notFound) :
    (¬ (spec.Image ≠ "" ∧ spec.NodeID ≠ "") ∧
      resolveInstanceManager h obj spec status = .manager none) ∨
    (spec.Image ≠ "" ∧ spec.NodeID ≠ "" ∧
      ((∃ e, h.ds.IsDataEngineEnabled spec.DataEngine = .error e ∧
          resolveInstanceManager h obj spec status = .stop (some (.dataStore e))) ∨
        (h.ds.IsDataEngineEnabled spec.DataEngine = .ok false ∧
          resolveInstanceManager h obj spec status = .stop none) ∨
        (h.ds.IsDataEngineEnabled spec.DataEngine = .ok true ∧
          ((∃ e, h.ds.IsNodeDownOrDeletedOrDelinquent spec.NodeID spec.VolumeName = .error e ∧
              resolveInstanceManager h obj spec status = .stop (some (.dataStore e))) ∨
            (h.ds.IsNodeDownOrDeletedOrDelinquent spec.NodeID spec.VolumeName = .ok true ∧
              resolveInstanceManager h obj spec status = .manager none) ∨
            (h.ds.IsNodeDownOrDeletedOrDelinquent spec.NodeID spec.VolumeName = .ok false ∧
              ((∃ e, h.ds.GetInstanceManagerByInstanceRO obj = .error e ∧
                  resolveInstanceManager h obj spec status =
                    .stop (some (.getInstanceManager e))) ∨
                (∃ found, h.ds.GetInstanceManagerByInstanceRO obj = .ok found ∧
                  resolveInstanceManager h obj spec status = .manager found))))))) := by
  rw [resolveInstanceManager_notFound h obj spec status hn]
  unfold resolveInstanceManager
  have c0 : ¬ ("" : String) ≠ "" := by simp
  simp only [if_neg c0]
  by_cases c1 : spec.Image ≠ "" ∧ spec.NodeID ≠ ""
  · right
    have c1t : True ∧ spec.Image ≠ "" ∧ spec.NodeID ≠ "" := ⟨trivial, c1⟩
    rw [if_pos c1t]
    refine ⟨c1.1, c1.2, ?_⟩
    cases he : h.ds.IsDataEngineEnabled spec.DataEngine with
    | error e => left; exact ⟨e, rfl, rfl⟩
    | ok b =>
      right
      cases b with
      | false => left; exact ⟨rfl, rfl⟩
      | true =>
        right
        refine ⟨rfl, ?_⟩
        simp only
        cases hd : h.ds.IsNodeDownOrDeletedOrDelinquent spec.NodeID spec.VolumeName with
        | error e => left; exact ⟨e, rfl, rfl⟩
        | ok b =>
          right
          cases b with
          | true => left; exact ⟨rfl, rfl⟩
          | false =>
            right
            refine ⟨rfl, ?_⟩
            simp only
            cases hg : h.ds.GetInstanceManagerByInstanceRO obj with
            | error e => left; exact ⟨e, rfl, rfl⟩
            | ok found => right; exact ⟨found, rfl, rfl⟩
  · left
    have c1f : ¬ (True ∧ spec.Image ≠ "" ∧ spec.NodeID ≠ "") := fun hc => c1 hc.2
    rw [if_neg c1f]
    exact ⟨c1, rfl⟩

/-- The first block of the manager resolution (source lines 296-303) when the named manager
is found or its lookup fails. -/
theorem resolveInstanceManager_named (h : InstanceHandler) (obj : Obj) (spec : InstanceSpec)
    (status : InstanceStatus) (hn : status.InstanceManagerName ≠ "") :
    (∀ m, h.ds.GetInstanceManagerRO status.InstanceManagerName = .found m →
      resolveInstanceManager h obj spec status = .manager (some m)) ∧
    (∀ e, h.ds.GetInstanceManagerRO status.InstanceManagerName = .failed e →
      resolveInstanceManager h obj spec status = .stop (some (.dataStore e))) := by
  constructor
  · intro m hg
    unfold resolveInstanceManager
    simp only [if_pos hn, hg]
    simp
  · intro e hg
    unfold resolveInstanceManager
    simp only [if_pos hn, hg]

/-! ## C24: the manager of a `Running` synthesis -/

/-- The ways the manager resolution stops the reconcile (source lines 296-325): without an
error when the data engine is disabled, or with an error of the data store. -/
theorem resolveInstanceManager_stop (h : InstanceHandler) (obj : Obj) (spec : InstanceSpec)
    (status : InstanceStatus) (err : Option ReconcileError)
    (hres : resolveInstanceManager h obj spec status = .stop err) :
    err = none ∨ (∃ e, err = some (.dataStore e)) ∨ (∃ e, err = some (.getInstanceManager e)) := by
  have hun : (status.InstanceManagerName = "" ∨
      h.ds.GetInstanceManagerRO status.InstanceManagerName = .notFound) →
      err = none ∨ (∃ e, err = some (.dataStore e)) ∨
        (∃ e, err = some (.getInstanceManager e)) := by
    intro hn
    rcases resolveInstanceManager_unnamed h obj spec status hn with
      ⟨_, hr⟩ | ⟨_, _, ⟨e, _, hr⟩ | ⟨_, hr⟩ | ⟨_, ⟨e, _, hr⟩ | ⟨_, hr⟩ |
        ⟨_, ⟨e, _, hr⟩ | ⟨found, _, hr⟩⟩⟩⟩
    · rw [hr] at hres; cases hres
    · rw [hr] at hres; cases hres; exact Or.inr (Or.inl ⟨e, rfl⟩)
    · rw [hr] at hres; cases hres; exact Or.inl rfl
    · rw [hr] at hres; cases hres; exact Or.inr (Or.inl ⟨e, rfl⟩)
    · rw [hr] at hres; cases hres
    · rw [hr] at hres; cases hres; exact Or.inr (Or.inr ⟨e, rfl⟩)
    · rw [hr] at hres; cases hres
  by_cases c0 : status.InstanceManagerName ≠ ""
  · obtain ⟨hf, he⟩ := resolveInstanceManager_named h obj spec status c0
    cases hg : h.ds.GetInstanceManagerRO status.InstanceManagerName with
    | found m => rw [hf m hg] at hres; cases hres
    | failed e => rw [he e hg] at hres; cases hres; exact Or.inr (Or.inl ⟨e, rfl⟩)
    | notFound => exact hun (Or.inr hg)
  · exact hun (Or.inl (by simpa using c0))

/-- The errors a reconcile returns from the switch on `DesireState`. -/
theorem actOnDesireState_err (h : InstanceHandler) (obj : Obj)
    (im : Option InstanceManager) (instanceName : String) (spec : InstanceSpec)
    (x : InstanceStatus) (instances : InstanceMap) :
    (actOnDesireState h obj im instanceName spec x instances).2.1 ≠ some .nilManager := by
  by_cases d1 : spec.DesireState = InstanceStateRunning
  · rcases actOnDesireState_running h obj im instanceName spec x instances d1 with
      ⟨_, ha⟩ | ⟨_, _, ha⟩ | ⟨_, _, _, ha⟩
    · rw [ha]; simp
    · rw [ha]; simp
    · rw [ha]
      rcases createInstance_cases h spec.DataEngine obj with ⟨_, hc⟩ | ⟨e, _, _, _, hc⟩ |
        ⟨e, _, _, ⟨_, hc⟩ | ⟨c, _, _, hc⟩ | ⟨c, _, _, hc⟩⟩ <;> rw [hc] <;> simp
  · by_cases d2 : spec.DesireState = InstanceStateStopped
    · rcases actOnDesireState_stopped h obj im instanceName spec x instances d2 with
        ⟨_, ha⟩ | ⟨_, ha⟩ | ⟨e, _, ha⟩ <;> rw [ha] <;> simp
    · unfold actOnDesireState
      rw [if_neg d1, if_neg d2]
      simp

/-- The snapshot fails only on an object that is neither an engine nor a replica. -/
theorem snapshotInstances_error (h : InstanceHandler) (obj : Obj) (im : Option InstanceManager)
    (e : ReconcileError) (hs : snapshotInstances h obj im = .error e) :
    e = .unknownObjectType := by
  cases im with
  | none => simp [snapshotInstances] at hs
  | some m =>
    simp only [snapshotInstances, getInstancesFromInstanceManager] at hs
    split at hs
    · cases hs
    · cases hs
    · cases hs; rfl

/-- C24: whenever `syncStatusWithInstanceManager` returns with `CurrentState == Running` the
manager argument is non-nil, since a nil manager always yields `Unknown` or `Stopped`; so the
read of `im.Spec.NodeID` in the `Running` arm of `ReconcileInstanceState` never meets a nil
manager, for every input. -/
theorem running_synthesis_has_manager (h : InstanceHandler) (im : Option InstanceManager)
    (instanceName : String) (spec : InstanceSpec) (status : InstanceStatus)
    (instances : InstanceMap) (obj : Obj) :
    ((syncStatusWithInstanceManager h none instanceName spec status instances).CurrentState
        = InstanceStateUnknown ∨
      (syncStatusWithInstanceManager h none instanceName spec status instances).CurrentState
        = InstanceStateStopped) ∧
    ((syncStatusWithInstanceManager h im instanceName spec status instances).CurrentState
        = InstanceStateRunning → ∃ m, im = some m) ∧
    (postStateAdjust im instanceName spec
        (syncStatusWithInstanceManager h im instanceName spec status instances) instances).2.1
      ≠ some .nilManager ∧
    (ReconcileInstanceState h obj spec status).err ≠ some .nilManager := by
  have hadj : ∀ (im : Option InstanceManager) (instanceName : String) (st : InstanceStatus)
      (instances : InstanceMap),
      (postStateAdjust im instanceName spec
        (syncStatusWithInstanceManager h im instanceName spec st instances) instances).2.1
        ≠ some .nilManager := by
    intro im instanceName st instances hnil
    have hrun : (syncStatusWithInstanceManager h im instanceName spec st instances).CurrentState
        = InstanceStateRunning := by
      by_contra hne
      unfold postStateAdjust at hnil
      rw [if_neg hne] at hnil
      split at hnil
      · split at hnil
        · simp at hnil
        · split at hnil <;> simp at hnil
      · simp at hnil
    obtain ⟨m, hm⟩ := sync_running_has_manager h im instanceName spec st instances hrun
    subst hm
    unfold postStateAdjust at hnil
    rw [if_pos hrun] at hnil
    split at hnil
    · simp only at hnil
      split at hnil <;> simp at hnil
    · simp at hnil
  refine ⟨?_, sync_running_has_manager h im instanceName spec status instances,
    hadj im instanceName status instances, ?_⟩
  · unfold syncStatusWithInstanceManager
    rw [syncDeferred_eq]
    cases hst : status.Started <;>
      simp +decide [syncStatusBody, syncManagerGone, resetInstanceErrorCondition, hst]
  · by_cases c1 : obj.isRuntimeObject = false
    · simp [ReconcileInstanceState, c1]
    have c1t : obj.isRuntimeObject = true := by simpa using c1
    cases c2 : getNameFromObj obj with
    | error e => simp [ReconcileInstanceState, c1, c2]
    | ok instanceName =>
      cases c3 : resolveInstanceManager h obj spec status with
      | stop err =>
        have hs : (ReconcileInstanceState h obj spec status).err = err := by
          simp [ReconcileInstanceState, c1, c2, c3]
        rw [hs]
        rcases resolveInstanceManager_stop h obj spec status err c3 with
          he | ⟨e, he⟩ | ⟨e, he⟩ <;> rw [he] <;> simp
      | manager im =>
        cases c4 : snapshotInstances h obj im with
        | error e =>
          have hs : (ReconcileInstanceState h obj spec status).err = some e := by
            simp [ReconcileInstanceState, c1, c2, c3, c4]
          rw [hs, snapshotInstances_error h obj im e c4]
          simp
        | ok instances =>
          have hr : ReachesPhaseD h obj spec status instanceName im instances :=
            ⟨c1t, c2, c3, c4⟩
          generalize hact : actOnDesireState h obj im instanceName spec
              (applyIntents im spec status).1 instances = act
          obtain ⟨st, err, effects⟩ := act
          cases err with
          | some err =>
            rw [reconcile_phaseD_error h obj spec status instanceName im instances hr st err
              effects hact]
            have := actOnDesireState_err h obj im instanceName spec
              (applyIntents im spec status).1 instances
            rw [hact] at this
            exact this
          | none =>
            rw [reconcile_synthesis h obj spec status instanceName im instances hr st effects
              hact]
            exact hadj im instanceName st instances

/-! ## C25: a disabled data engine -/

/-- C25: when no manager is resolved from `status.InstanceManagerName` (the name is empty or
the data store does not find it), `spec.Image` and `spec.NodeID` are both non-empty and the
data store reports the data engine of the spec as disabled, `ReconcileInstanceState` on a
named `runtime.Object` returns nil, leaves every field of the status as on entry and invokes
no operation of the adapter. -/
theorem disabled_engine_leaves_status (h : InstanceHandler) (obj : Obj) (spec : InstanceSpec)
    (status : InstanceStatus) (instanceName : String)
    (h1 : obj.isRuntimeObject = true) (h2 : getNameFromObj obj = .ok instanceName)
    (hn : status.InstanceManagerName = "" ∨
      h.ds.GetInstanceManagerRO status.InstanceManagerName = .notFound)
    (hi : spec.Image ≠ "") (hnode : spec.NodeID ≠ "")
    (hd : h.ds.IsDataEngineEnabled spec.DataEngine = .ok false) :
    ReconcileInstanceState h obj spec status = { status := status, err := none, effects := [] } := by
  have hres : resolveInstanceManager h obj spec status = .stop none := by
    rcases resolveInstanceManager_unnamed h obj spec status hn with
      ⟨hc, _⟩ | ⟨_, _, ⟨e, he, _⟩ | ⟨_, hr⟩ | ⟨he, _⟩⟩
    · exact absurd ⟨hi, hnode⟩ hc
    · rw [hd] at he; cases he
    · exact hr
    · rw [hd] at he; cases he
  simp [ReconcileInstanceState, h1, h2, hres]

/-- C25, witness: a fresh status and the spec of scenario S1 over a data store that reports
the data engine as disabled: the reconcile returns nil with the status untouched and no
adapter call. -/
theorem disabled_engine_leaves_status_witness :
    ReconcileInstanceState disabledEngineHandler engineObj runningSpec InstanceStatus.zero =
      { status := InstanceStatus.zero, err := none, effects := [] } :=
  disabled_engine_leaves_status disabledEngineHandler engineObj runningSpec InstanceStatus.zero
    "e1" rfl rfl (Or.inl rfl) (by decide) (by decide) rfl

/-! ## C21: a manager name the data store does not know -/

/-- Without a manager the switch on `DesireState` calls nothing: it leaves the status alone
on desire `Running`, resets `Started` on desire `Stopped`, and fails on any other desire. -/
theorem actOnDesireState_no_manager (h : InstanceHandler) (obj : Obj) (instanceName : String)
    (spec : InstanceSpec) (x : InstanceStatus) (instances : InstanceMap) :
    (actOnDesireState h obj none instanceName spec x instances).2.2 = [] ∧
    (spec.DesireState = InstanceStateRunning →
      actOnDesireState h obj none instanceName spec x instances = (x, none, [])) ∧
    (spec.DesireState = InstanceStateStopped →
      actOnDesireState h obj none instanceName spec x instances =
        ({ x with Started := false }, none, [])) := by
  have hne : InstanceStateStopped ≠ InstanceStateRunning := by decide
  by_cases d1 : spec.DesireState = InstanceStateRunning
  · have ha : actOnDesireState h obj none instanceName spec x instances = (x, none, []) := by
      unfold actOnDesireState
      rw [if_pos d1]
    refine ⟨by rw [ha], fun _ => ha, fun d2 => ?_⟩
    rw [d2] at d1
    exact absurd d1 hne
  · by_cases d2 : spec.DesireState = InstanceStateStopped
    · have ha : actOnDesireState h obj none instanceName spec x instances =
          ({ x with Started := false }, none, []) := by
        unfold actOnDesireState
        rw [if_neg d1, if_pos d2]
        rfl
      exact ⟨by rw [ha], fun d => absurd d d1, fun _ => ha⟩
    · refine ⟨?_, fun d => absurd d d1, fun d => absurd d d2⟩
      unfold actOnDesireState
      rw [if_neg d1, if_neg d2]

/-- The synthesis and the adjustment without a manager: the state is `Unknown` for a started
instance and `Stopped` otherwise, `Started` is kept, and no error is returned. -/
theorem synthesis_no_manager (h : InstanceHandler) (instanceName : String)
    (spec : InstanceSpec) (st : InstanceStatus) (instances : InstanceMap) :
    (postStateAdjust none instanceName spec
      (syncStatusWithInstanceManager h none instanceName spec st instances) instances).2.1
      = none ∧
    (postStateAdjust none instanceName spec
      (syncStatusWithInstanceManager h none instanceName spec st instances) instances).1.Started
      = st.Started ∧
    (postStateAdjust none instanceName spec
      (syncStatusWithInstanceManager h none instanceName spec st instances)
        instances).1.CurrentState
      = if st.Started = true then InstanceStateUnknown else InstanceStateStopped := by
  have hs : (syncStatusWithInstanceManager h none instanceName spec st instances).CurrentState
      = if st.Started = true then InstanceStateUnknown else InstanceStateStopped := by
    unfold syncStatusWithInstanceManager
    rw [syncDeferred_eq]
    cases hst : st.Started <;>
      simp +decide [syncStatusBody, syncManagerGone, resetInstanceErrorCondition, hst]
  have h1 : (syncStatusWithInstanceManager h none instanceName spec st instances).CurrentState
      ≠ InstanceStateRunning := by
    rw [hs]; split_ifs <;> decide
  have h2 : (syncStatusWithInstanceManager h none instanceName spec st instances).CurrentState
      ≠ InstanceStateError := by
    rw [hs]; split_ifs <;> decide
  rw [postStateAdjust_other none instanceName spec _ instances h1 h2]
  exact ⟨rfl, (sync_frame h none instanceName spec st instances).1, hs⟩

/-- C21, counterexample: the status names a manager `m0` the data store does not know, the
spec sets image and node, the data engine is enabled and the node is healthy.  The
by-instance lookup is consulted and resolves manager `m1`: with the process running there the
returned state is `Running`, neither `Unknown` nor `Stopped`; and from a stopped status over
a manager without the process, `CreateInstance` is invoked. -/
theorem unknown_name_falls_back_to_lookup :
    danglingStatus.InstanceManagerName ≠ "" ∧
    runningHandler.ds.GetInstanceManagerRO danglingStatus.InstanceManagerName = .notFound ∧
    resolveInstanceManager runningHandler engineObj runningSpec danglingStatus
      = .manager (some runningManager) ∧
    (ReconcileInstanceState runningHandler engineObj runningSpec
      danglingStatus).status.CurrentState = InstanceStateRunning ∧
    creatingHandler.ds.GetInstanceManagerRO danglingStoppedStatus.InstanceManagerName
      = .notFound ∧
    Effect.createInstance ∈
      (ReconcileInstanceState creatingHandler engineObj runningSpec
        danglingStoppedStatus).effects := by
  refine ⟨by decide, rfl, rfl, by decide, rfl, by decide⟩

/-- C21, amended: for every reconcile of a named `runtime.Object` entered with a non-empty
`status.InstanceManagerName` for which the data store reports the manager as not found: when
`spec.Image` or `spec.NodeID` is empty, or the data engine is enabled and the node is down,
deleted or delinquent, the reconcile continues with no manager (`im = nil`) without taking
the manager from the by-instance lookup, none of `GetInstance`, `CreateInstance` and
`DeleteInstance` is invoked, and with desire `Running` or `Stopped` it returns nil with
`CurrentState` `Unknown` when `Started` is true at synthesis time (as it still is at return)
and `Stopped` otherwise; when `spec.Image` and `spec.NodeID` are both set, the data engine is
enabled and the node is healthy, the manager is the one the by-instance lookup returns. -/
theorem unknown_manager_name_continues (h : InstanceHandler) (obj : Obj) (spec : InstanceSpec)
    (status : InstanceStatus) (instanceName : String)
    (h1 : obj.isRuntimeObject = true) (h2 : getNameFromObj obj = .ok instanceName)
    (_hne : status.InstanceManagerName ≠ "")
    (hnf : h.ds.GetInstanceManagerRO status.InstanceManagerName = .notFound) :
    ((spec.Image = "" ∨ spec.NodeID = "" ∨
        (h.ds.IsDataEngineEnabled spec.DataEngine = .ok true ∧
          h.ds.IsNodeDownOrDeletedOrDelinquent spec.NodeID spec.VolumeName = .ok true)) →
      resolveInstanceManager h obj spec status = .manager none ∧
      Effect.getInstance ∉ (ReconcileInstanceState h obj spec status).effects ∧
      Effect.createInstance ∉ (ReconcileInstanceState h obj spec status).effects ∧
      Effect.deleteInstance ∉ (ReconcileInstanceState h obj spec status).effects ∧
      ((spec.DesireState = InstanceStateRunning ∨ spec.DesireState = InstanceStateStopped) →
        (ReconcileInstanceState h obj spec status).err = none ∧
        (ReconcileInstanceState h obj spec status).status.CurrentState =
          if (ReconcileInstanceState h obj spec status).status.Started = true
          then InstanceStateUnknown else InstanceStateStopped)) ∧
    (spec.Image ≠ "" → spec.NodeID ≠ "" →
      h.ds.IsDataEngineEnabled spec.DataEngine = .ok true →
      h.ds.IsNodeDownOrDeletedOrDelinquent spec.NodeID spec.VolumeName = .ok false →
      ∀ found, h.ds.GetInstanceManagerByInstanceRO obj = .ok found →
        resolveInstanceManager h obj spec status = .manager found) := by
  have hcases := resolveInstanceManager_unnamed h obj spec status (Or.inr hnf)
  constructor
  · intro hc
    have hres : resolveInstanceManager h obj spec status = .manager none := by
      rcases hcases with ⟨_, hr⟩ | ⟨hi, hnode, ⟨e, he, _⟩ | ⟨he, _⟩ | ⟨_, ⟨e, hd, _⟩ | ⟨_, hr⟩ |
        ⟨hd, _⟩⟩⟩
      · exact hr
      · rcases hc with hc | hc | ⟨hc, _⟩
        · exact absurd hc hi
        · exact absurd hc hnode
        · rw [hc] at he; cases he
      · rcases hc with hc | hc | ⟨hc, _⟩
        · exact absurd hc hi
        · exact absurd hc hnode
        · rw [hc] at he; cases he
      · rcases hc with hc | hc | ⟨_, hc⟩
        · exact absurd hc hi
        · exact absurd hc hnode
        · rw [hc] at hd; cases hd
      · exact hr
      · rcases hc with hc | hc | ⟨_, hc⟩
        · exact absurd hc hi
        · exact absurd hc hnode
        · rw [hc] at hd; cases hd
    have hr : ReachesPhaseD h obj spec status instanceName none [] := ⟨h1, h2, hres, rfl⟩
    obtain ⟨heff, hrun, hstop⟩ := actOnDesireState_no_manager h obj instanceName spec
      (applyIntents none spec status).1 []
    have hno : ∀ e : Effect, e ≠ Effect.logInstance →
        e ∉ (ReconcileInstanceState h obj spec status).effects := by
      intro e hlog hmem
      rw [reconcile_effects_iff h obj spec status instanceName none [] hr e hlog, heff] at hmem
      simp at hmem
    refine ⟨hres, hno _ (by simp), hno _ (by simp), hno _ (by simp), fun hd => ?_⟩
    have hsyn : ∃ st, ReconcileInstanceState h obj spec status =
        { status := (postStateAdjust none instanceName spec
              (syncStatusWithInstanceManager h none instanceName spec st []) []).1,
          err := (postStateAdjust none instanceName spec
              (syncStatusWithInstanceManager h none instanceName spec st []) []).2.1,
          effects := (applyIntents none spec status).2 ++ [] ++
              (postStateAdjust none instanceName spec
                (syncStatusWithInstanceManager h none instanceName spec st []) []).2.2 } := by
      rcases hd with hd | hd
      · exact ⟨_, reconcile_synthesis h obj spec status instanceName none [] hr _ [] (hrun hd)⟩
      · exact ⟨_, reconcile_synthesis h obj spec status instanceName none [] hr _ [] (hstop hd)⟩
    obtain ⟨st, hst⟩ := hsyn
    obtain ⟨s1, s2, s3⟩ := synthesis_no_manager h instanceName spec st []
    rw [hst]
    simp only
    rw [s2]
    exact ⟨s1, s3⟩
  · intro hi hnode he hd found hg
    rcases hcases with ⟨hc, _⟩ | ⟨_, _, ⟨e, he2, _⟩ | ⟨he2, _⟩ | ⟨_, ⟨e, hd2, _⟩ | ⟨hd2, _⟩ |
      ⟨_, ⟨e, hg2, _⟩ | ⟨found2, hg2, hr⟩⟩⟩⟩
    · exact absurd ⟨hi, hnode⟩ hc
    · rw [he] at he2; cases he2
    · rw [he] at he2; cases he2
    · rw [hd] at hd2; cases hd2
    · rw [hd] at hd2; cases hd2
    · rw [hg] at hg2; cases hg2
    · rw [hg] at hg2; cases hg2; exact hr

/-- C21, witness: the started status of scenario S3 under the unknown manager name `m0`,
with the node reported down: the reconcile continues without a manager and returns
`Unknown`. -/
theorem unknown_manager_name_continues_witness :
    ({ startedStatus with InstanceManagerName := "m0" } : InstanceStatus).InstanceManagerName
      ≠ "" ∧
    downNodeHandler.ds.GetInstanceManagerRO "m0" = .notFound ∧
    (ReconcileInstanceState downNodeHandler engineObj runningSpec
      { startedStatus with InstanceManagerName := "m0" }).status.CurrentState
      = InstanceStateUnknown :=
  ⟨by decide, rfl,
    (((unknown_manager_name_continues downNodeHandler engineObj runningSpec
      { startedStatus with InstanceManagerName := "m0" } "e1" rfl rfl (by decide) rfl).1
      (Or.inr (Or.inr ⟨rfl, rfl⟩))).2.2.2.2 (Or.inl rfl)).2.trans (by decide)⟩

/-! ## C26: the stopped-state invariant along reconciles -/

/-- C26: the stopped-state invariant is preserved: for every reconcile whose input status
satisfies (`CurrentState == Stopped` implies `InstanceManagerName`, `IP`, `StorageIP`, `UUID`
empty and `Port`, `UblkID` zero), the status at return satisfies the same predicate, on every
return path including error returns; the zero-value status satisfies it, so it holds after
every sequence of reconciles starting from a fresh object. -/
theorem stopped_invariant_along_reconciles :
    (∀ (h : InstanceHandler) (obj : Obj) (spec : InstanceSpec) (status : InstanceStatus),
      StoppedCleared status → StoppedCleared (ReconcileInstanceState h obj spec status).status) ∧
    StoppedCleared InstanceStatus.zero ∧
    (∀ steps : List ReconcileStep, StoppedCleared (reconcileSeq steps InstanceStatus.zero)) := by
  have step : ∀ (h : InstanceHandler) (obj : Obj) (spec : InstanceSpec)
      (status : InstanceStatus),
      StoppedCleared status → StoppedCleared (ReconcileInstanceState h obj spec status).status := by
    intro h obj spec status hs
    have hB : ∀ im, StoppedCleared (applyIntents im spec status).1 := by
      intro im; rw [applyIntents_status]; exact hs
    rcases reconcile_paths h obj spec status with
      ⟨h1, _⟩ | ⟨im, e, _, _, h1⟩ | ⟨instanceName, im, instances, hr⟩
    · rw [h1]; exact hs
    · rw [h1]; exact hB im
    · obtain ⟨a, b, hab⟩ := actOnDesireState_status h obj im instanceName spec
        (applyIntents im spec status).1 instances
      have hD : StoppedCleared
          (actOnDesireState h obj im instanceName spec (applyIntents im spec status).1
            instances).1 := by
        rw [hab]; exact hB im
      generalize hact : actOnDesireState h obj im instanceName spec
        (applyIntents im spec status).1 instances = act at hD
      obtain ⟨st, e, effects⟩ := act
      cases e with
      | some e =>
        rw [reconcile_phaseD_error h obj spec status instanceName im instances hr st e effects
          hact]
        exact hD
      | none =>
        rw [reconcile_synthesis h obj spec status instanceName im instances hr st effects hact]
        exact postStateAdjust_stoppedCleared _ _ _ _ _ (sync_stoppedCleared _ _ _ _ _ _ hD)
  have hzero : StoppedCleared InstanceStatus.zero := fun hc => absurd hc (by decide)
  refine ⟨step, hzero, fun steps => ?_⟩
  have hseq : ∀ (steps : List ReconcileStep) (s : InstanceStatus),
      StoppedCleared s → StoppedCleared (reconcileSeq steps s) := by
    intro steps
    induction steps with
    | nil => intro s hs; exact hs
    | cons st rest ih =>
      intro s hs
      unfold reconcileSeq
      rw [List.foldl_cons]
      exact ih _ (step st.h st.obj st.spec s hs)
  exact hseq steps _ hzero

/-! ## C27: a started instance is not created again -/

/-- The synthesis never leaves a started instance in state `Stopped`. -/
theorem sync_started_not_stopped (h : InstanceHandler) (im : Option InstanceManager)
    (instanceName : String) (spec : InstanceSpec) (status : InstanceStatus)
    (instances : InstanceMap) (hst : status.Started = true) :
    (syncStatusWithInstanceManager h im instanceName spec status instances).CurrentState
      ≠ InstanceStateStopped := by
  unfold syncStatusWithInstanceManager
  rw [syncDeferred_eq]
  simp only
  rcases syncStatusBody_cases h im instanceName spec status instances with
    ⟨_, hb⟩ | ⟨_, hb⟩ | ⟨_, _, hb⟩ | ⟨_, hf, _⟩ | ⟨m, inst, _, _, _, _, _, hb⟩
  · rw [hb]
    simp +decide [syncManagerGone, resetInstanceErrorCondition, hst]
  · rw [hb]
    simp +decide [syncProcessGone, resetInstanceErrorCondition, hst]
  · rw [hb]
    simp +decide [resetInstanceErrorCondition]
  · rw [hst] at hf
    cases hf
  · rw [hb]
    by_cases hrun : inst.Status.State = InstanceStateRunning
    · by_cases hp : ∃ pod, h.ds.GetPodRO m.Namespace m.Name = .ok (some pod)
      · obtain ⟨pod, hpod⟩ := hp
        rw [syncProcessState_running_pod h m spec _ inst pod hrun hpod]
        simp +decide [syncInstanceCondition]
      · rw [syncProcessState_running_nopod h m spec _ inst hrun
          (fun pod hpod => hp ⟨pod, hpod⟩)]
        simp +decide
    · obtain ⟨state, _, _, hstop, heq⟩ := syncProcessState_not_running h m spec
        { status with InstanceManagerName := m.Name } inst hrun
      rw [heq]
      intro hc
      have := hstop hc
      simp only at this
      rw [hst] at this
      cases this

/-- The post-state adjustment never moves a status into state `Stopped`. -/
theorem postStateAdjust_not_stopped (im : Option InstanceManager) (instanceName : String)
    (spec : InstanceSpec) (status : InstanceStatus) (instances : InstanceMap)
    (hs : status.CurrentState ≠ InstanceStateStopped) :
    (postStateAdjust im instanceName spec status instances).1.CurrentState
      ≠ InstanceStateStopped := by
  rcases postStateAdjust_cases im instanceName spec status instances with
    ⟨h1, _⟩ | ⟨_, h1, _⟩ | ⟨_, _, m, inst, _, _, h1⟩
  · rw [h1]; exact hs
  · rw [h1]; simp +decide
  · rw [h1]; exact hs

/-- A reconcile entered with a status in which a started instance is not `Stopped` returns
such a status, on every return path. -/
theorem reconcile_startedNotStopped (h : InstanceHandler) (obj : Obj) (spec : InstanceSpec)
    (status : InstanceStatus) (hs : StartedNotStopped status) :
    StartedNotStopped (ReconcileInstanceState h obj spec status).status := by
  rcases reconcile_paths h obj spec status with
    ⟨h1, _⟩ | ⟨im, e, _, _, h1⟩ | ⟨instanceName, im, instances, hr⟩
  · rw [h1]; exact hs
  · rw [h1, applyIntents_status]; exact hs
  · obtain ⟨started, salv, e, eff, _, herr, _, _, hx⟩ :=
      actOnDesireState_shape h obj im instanceName spec instances
        (applyIntents im spec status).1.CurrentState
    have hact := hx (applyIntents im spec status).1 rfl
    cases e with
    | some e =>
      rw [reconcile_phaseD_error h obj spec status instanceName im instances hr _ e eff hact]
      obtain ⟨hnone, _⟩ := herr (by simp)
      rw [hnone, applyIntents_status]
      exact hs
    | none =>
      rw [reconcile_synthesis h obj spec status instanceName im instances hr _ eff hact]
      intro hst
      simp only at hst ⊢
      rw [(postStateAdjust_frame _ _ _ _ _).1, (sync_frame _ _ _ _ _ _).1] at hst
      exact postStateAdjust_not_stopped _ _ _ _ _
        (sync_started_not_stopped h im instanceName spec _ instances hst)

/-- A reconcile entered with a started instance that is not `Stopped` does not enter the
creation path. -/
theorem reconcile_no_creation_when_started (h : InstanceHandler) (obj : Obj)
    (spec : InstanceSpec) (status : InstanceStatus) (hst : status.Started = true)
    (hs : StartedNotStopped status) :
    Effect.getInstance ∉ (ReconcileInstanceState h obj spec status).effects ∧
    Effect.createInstance ∉ (ReconcileInstanceState h obj spec status).effects := by
  have hne := hs hst
  have key : ∀ e : Effect, e ≠ Effect.logInstance → e ≠ Effect.deleteInstance →
      (∀ r, e ≠ Effect.event r) → e ∉ (ReconcileInstanceState h obj spec status).effects := by
    intro e hlog hdel hev hmem
    rcases reconcile_paths h obj spec status with
      ⟨_, h1⟩ | ⟨im, err, _, _, h1⟩ | ⟨instanceName, im, instances, hr⟩
    · rw [h1] at hmem; simp at hmem
    · rw [h1] at hmem
      exact hlog (applyIntents_effects im spec status e hmem)
    · rw [reconcile_effects_iff h obj spec status instanceName im instances hr e hlog] at hmem
      have hcs : (applyIntents im spec status).1.CurrentState = status.CurrentState := by
        rw [applyIntents_status]
      by_cases d1 : spec.DesireState = InstanceStateRunning
      · rcases actOnDesireState_running h obj im instanceName spec
            (applyIntents im spec status).1 instances d1 with
          ⟨_, ha⟩ | ⟨_, _, ha⟩ | ⟨_, _, hc, _⟩
        · rw [ha] at hmem; simp at hmem
        · rw [ha] at hmem; simp at hmem
        · rw [hcs] at hc
          exact hne hc
      · by_cases d2 : spec.DesireState = InstanceStateStopped
        · rcases actOnDesireState_stopped h obj im instanceName spec
              (applyIntents im spec status).1 instances d2 with
            ⟨_, ha⟩ | ⟨_, ha⟩ | ⟨err, _, ha⟩
          · rw [ha] at hmem; simp at hmem
          · rw [ha] at hmem
            simp only [List.mem_cons, List.mem_singleton, List.not_mem_nil, or_false] at hmem
            rcases hmem with hm | hm
            · exact hdel hm
            · exact hev _ hm
          · rw [ha] at hmem
            simp only [List.mem_cons, List.mem_singleton, List.not_mem_nil, or_false] at hmem
            rcases hmem with hm | hm
            · exact hdel hm
            · exact hev _ hm
        · unfold actOnDesireState at hmem
          rw [if_neg d1, if_neg d2] at hmem
          simp at hmem
  exact ⟨key _ (by simp) (by simp) (by simp), key _ (by simp) (by simp) (by simp)⟩

/-- C27: along every sequence of reconciles starting from the zero-value status, the predicate
(`Started` implies `CurrentState != Stopped`) holds after each reconcile, on every return
path; therefore the creation path (`createInstance`, which starts with `GetInstance`) is never
entered in a reconcile of such a sequence whose status has `Started == true` on entry; and
`Started` goes from true to false only in a reconcile with `DesireState == Stopped`, so
creation can happen again only after such a reconcile has reset `Started`. -/
theorem started_instance_not_recreated :
    (∀ (h : InstanceHandler) (obj : Obj) (spec : InstanceSpec) (status : InstanceStatus),
      StartedNotStopped status →
      StartedNotStopped (ReconcileInstanceState h obj spec status).status) ∧
    (∀ steps : List ReconcileStep, StartedNotStopped (reconcileSeq steps InstanceStatus.zero)) ∧
    (∀ (steps : List ReconcileStep) (h : InstanceHandler) (obj : Obj) (spec : InstanceSpec),
      (reconcileSeq steps InstanceStatus.zero).Started = true →
      Effect.getInstance ∉
        (ReconcileInstanceState h obj spec (reconcileSeq steps InstanceStatus.zero)).effects ∧
      Effect.createInstance ∉
        (ReconcileInstanceState h obj spec (reconcileSeq steps InstanceStatus.zero)).effects) ∧
    (∀ (h : InstanceHandler) (obj : Obj) (spec : InstanceSpec) (status : InstanceStatus),
      status.Started = true →
      (ReconcileInstanceState h obj spec status).status.Started = false →
      spec.DesireState = InstanceStateStopped) := by
  have hzero : StartedNotStopped InstanceStatus.zero := fun hc => absurd hc (by decide)
  have hseq : ∀ (steps : List ReconcileStep) (s : InstanceStatus),
      StartedNotStopped s → StartedNotStopped (reconcileSeq steps s) := by
    intro steps
    induction steps with
    | nil => intro s hs; exact hs
    | cons st rest ih =>
      intro s hs
      unfold reconcileSeq
      rw [List.foldl_cons]
      exact ih _ (reconcile_startedNotStopped st.h st.obj st.spec s hs)
  refine ⟨reconcile_startedNotStopped, fun steps => hseq steps _ hzero,
    fun steps h obj spec hst =>
      reconcile_no_creation_when_started h obj spec _ hst (hseq steps _ hzero), ?_⟩
  intro h obj spec status ht hf
  rcases reconcile_paths h obj spec status with
    ⟨h1, _⟩ | ⟨im, e, _, _, h1⟩ | ⟨instanceName, im, instances, hr⟩
  · rw [h1, ht] at hf; cases hf
  · rw [h1, applyIntents_status] at hf
    simp only at hf
    rw [ht] at hf; cases hf
  · obtain ⟨hk, _⟩ := reconcile_latches h obj spec status instanceName im instances hr
    rw [hk] at hf
    have hB : (applyIntents im spec status).1.Started = true := by
      rw [applyIntents_status]; exact ht
    exact (actOnDesireState_started h obj im instanceName spec
      (applyIntents im spec status).1 instances).1 hB hf

/-! ## C23: the table of delays of the default rate limiter -/

/-- The delays of the default rate limiter by failure count: `5 ms * 2^f` up to count 12,
30 s from count 13 to count 29, and 2 min from count 30 on. -/
theorem defaultRateLimiter_table (f : Nat) :
    (f ≤ 12 → defaultRateLimiter.When f = 5 * Millisecond * 2 ^ f) ∧
    (13 ≤ f → f ≤ 29 → defaultRateLimiter.When f = 30 * Second) ∧
    (30 ≤ f → defaultRateLimiter.When f = 120 * Second) := by
  refine ⟨fun h1 => ?_, fun h1 h2 => ?_, fun h1 => ?_⟩
  · interval_cases f <;> decide
  · interval_cases f <;> decide
  · rw [defaultRateLimiter_When, if_neg (by omega)]
    exact max_eq_left (le_trans (min_le_right _ _) (by decide))

/-- C23, at the failing input: for a key that has failed 30 times in a row since its last
`Forget` (failure number 30, counting from 0), the fast-slow limiter built with 30 fast
attempts already answers 2 min, so the default rate limiter delays the key by 120 s, not by
30 s; the failure before it (number 29) is delayed by 30 s. -/
theorem delay_of_failure_thirty :
    (NewItemFastSlowRateLimiter Millisecond maxTimeout2min 30).When 29 = Millisecond ∧
    (NewItemFastSlowRateLimiter Millisecond maxTimeout2min 30).When 30 = 2 * Minute ∧
    defaultRateLimiter.When 29 = 30 * Second ∧
    defaultRateLimiter.When 30 = 120 * Second ∧
    lastDelay (failTimes (NewNamedRateLimitingQueue defaultRateLimiter "engine")
      (QueueItem.key "default/e1") 31) = some (120 * Second) := by
  refine ⟨by decide, by decide, by decide, by decide, ?_⟩
  rw [lastDelay_failTimes]
  decide

end Longhorn
